import Mathlib

/-!
# Bulk toggle update backend: embedding and verified properties

Shallow embedding of `api/toggle-bulk-update.js` (the bulk-update handler, the
orchestrator `processBulkUpdate`, the paginated `fetchAllStudents`, the single
record `updateStudentRecord` and the read-modify-write `updateJobStatus`).

Effects are made explicit:
* the upstream record store, the wall clock and the random source are oracles
  collected in `Env`;
* the job store and a chronological log of effects (`Event`) are threaded
  through the code as a `World`;
* the two `while`/`for` loops take a fuel argument and return `none` when it
  is exhausted, so that termination is stated and proved separately.

The file also embeds the status endpoint `api/toggle-status/[jobId].js`
(`statusHandler`, `formatTime` and the estimate of the remaining time, in
double precision) and the consent submission `api/mmu-consent-submit.js`
(`consentHandler` and its three upstream calls); each has its own section of
definitions below.

The two job stores behave differently. The in-memory map never throws. The
durable store is taken to answer its `get`/`set` calls, and its client to hand
back a stored entry decoded, as an object: the `JSON.parse` that the code
applies to the result of `kv.get` then throws on every entry found, in
`updateJobStatus` and in the status handler alike. Entry expiry (one hour) is
not modelled. A PUT is recorded with the body sent, the serialisation of
`updateData`. With the in-memory store the stored job shares the `errors` array
with the running loop; the log records the job as it is at each write.
-/

set_option autoImplicit false

namespace BulkUpdate

/-! ## Data model -/

/-- JSON values that may travel in a request body (the `value` of a toggle). -/
inductive JsValue where
  | undefined
  | null
  | bool (b : Bool)
  | num (n : Int)
  | str (s : String)
  deriving DecidableEq, Repr

/-- A record of `object_3` as returned by the upstream API; the code reads only `id`. -/
structure Student where
  id : String
  deriving DecidableEq, Repr

/-- One entry of the `errors` array: `{ studentId, error }`. -/
structure ErrorEntry where
  studentId : String
  error : String
  deriving DecidableEq, Repr

/-- A job object as held in the job store. Every key may be absent, since
`updateJobStatus` merges into `{}` when the store has no entry. The same type
serves for the `updates` argument (a subset of keys). Timestamps are kept as
milliseconds since the epoch (the code stores their ISO rendering). -/
structure Job where
  id : Option String := none
  schoolId : Option String := none
  fieldName : Option String := none
  value : Option JsValue := none
  toggleType : Option String := none
  status : Option String := none
  progress : Option Nat := none
  totalRecords : Option Nat := none
  processedRecords : Option Nat := none
  startTime : Option Nat := none
  errors : Option (List ErrorEntry) := none
  message : Option String := none
  error : Option String := none
  endTime : Option Nat := none
  deriving DecidableEq, Repr

/-- The value recorded for a key assigned `v`: a key holding `undefined` is
recorded as absent, since it reads the same and every serialisation drops it. -/
def present (v : JsValue) : Option JsValue :=
  if v = JsValue.undefined then none else some v

/-- Value of one key in `{ ...cur, ...upd }`: the update wins when it has the key. -/
def pick {α : Type} (upd cur : Option α) : Option α :=
  match upd with
  | some v => some v
  | none => cur

/-- Object spread `{ ...cur, ...upd }`. -/
def Job.merge (cur upd : Job) : Job :=
  { id := pick upd.id cur.id
    schoolId := pick upd.schoolId cur.schoolId
    fieldName := pick upd.fieldName cur.fieldName
    value := pick upd.value cur.value
    toggleType := pick upd.toggleType cur.toggleType
    status := pick upd.status cur.status
    progress := pick upd.progress cur.progress
    totalRecords := pick upd.totalRecords cur.totalRecords
    processedRecords := pick upd.processedRecords cur.processedRecords
    startTime := pick upd.startTime cur.startTime
    errors := pick upd.errors cur.errors
    message := pick upd.message cur.message
    error := pick upd.error cur.error
    endTime := pick upd.endTime cur.endTime }

/-- A keyed job store (the `Map` named `jobs`, or the contents of the KV store). -/
structure JobStore where
  entries : List (String × Job)
  deriving DecidableEq, Repr

/-- Lookup by key: `jobs.get(jobId)` / `kv.get(jobId)`. -/
def JobStore.get (s : JobStore) (k : String) : Option Job :=
  s.entries.lookup k

/-- Replace the entry under `k` in a list of entries, or append a new one. -/
def setEntry (k : String) (j : Job) : List (String × Job) → List (String × Job)
  | [] => [(k, j)]
  | e :: rest => if e.1 = k then (k, j) :: rest else e :: setEntry k j rest

/-- Write by key: `jobs.set(jobId, job)` / `kv.set(jobId, ...)`. -/
def JobStore.set (s : JobStore) (k : String) (j : Job) : JobStore :=
  { entries := setEntry k j s.entries }

/-- Response of the upstream to the GET of one page. -/
inductive GetResponse where
  /-- The call rejects, or decoding the body throws, with this message. -/
  | threw (msg : String)
  /-- The response arrives with `ok` false and this status text. -/
  | notOk (statusText : String)
  /-- The response is OK and decodes to `data`; `data.records` may be missing. -/
  | ok (records : Option (List Student))
  deriving DecidableEq, Repr

/-- Response of the upstream to the PUT of one record. -/
inductive PutResponse where
  | threw (msg : String)
  | notOk (statusText : String)
  | ok
  deriving DecidableEq, Repr

/-- Observable effects, logged in program order. -/
inductive Event where
  /-- The GET of one page of `object_3` filtered on `field_122 is schoolId`. -/
  | get (schoolId : String) (page : Nat) (rowsPerPage : Nat)
  /-- The PUT of one record, with the key/value pairs of its JSON body. -/
  | put (recordId : String) (body : List (String × JsValue))
  /-- A `set` on the job store, with the full entry written. -/
  | write (jobId : String) (job : Job)
  /-- A pause of `ms` milliseconds. -/
  | delay (ms : Nat)
  /-- The loop forms the next batch (`students.slice(i, i + BATCH_SIZE)`). -/
  | batch (records : List Student)
  deriving DecidableEq, Repr

/-- Everything outside the program. -/
structure Env where
  /-- Whether the module-level `kv` client exists (`if (kv)`). -/
  kv : Bool
  /-- Upstream answer to the GET of page `p`. -/
  getPage : Nat → GetResponse
  /-- Upstream answer to the `k`-th PUT issued in the run (from 0), for record `id`. -/
  putRecord : Nat → String → PutResponse
  /-- Order in which the rejected updates of batch `b` reach their `catch`
  handler, given their entries in issue order. -/
  settle : Nat → List ErrorEntry → List ErrorEntry
  /-- Result of the `n`-th reading of the clock (from 0), in milliseconds. -/
  now : Nat → Nat
  /-- Result of `Math.random().toString(36).substr(2, 9)`. -/
  random : String
  /-- Value of `process.env.KNACK_APPLICATION_ID`. -/
  envAppId : Option String
  /-- Value of `process.env.KNACK_API_KEY`. -/
  envApiKey : Option String
  /-- Message of the `SyntaxError` that `JSON.parse` throws when handed an
  object (the text depends on the engine). -/
  parseError : String := "Unexpected token o in JSON at position 1"
  /-- Message of the `TypeError` thrown by destructuring an absent `req.body`
  (the text depends on the engine). -/
  destructureError : String :=
    "Cannot destructure property 'schoolId' of 'req.body' as it is undefined."

/-- Mutable state and the log of effects. -/
structure World where
  /-- Contents of the durable KV store. -/
  kvData : JobStore
  /-- The in-memory `jobs` map of the bulk-update module. -/
  jobs : JobStore
  /-- Effects so far, oldest first. -/
  events : List Event
  /-- Number of clock readings so far. -/
  clock : Nat
  /-- Number of PUT calls issued so far. -/
  puts : Nat
  deriving DecidableEq, Repr

/-- The store the module uses: KV when configured, the in-memory map otherwise. -/
def World.store (env : Env) (w : World) : JobStore :=
  if env.kv then w.kvData else w.jobs

def KNACK_API_URL : String := "https://api.knack.com/v1"

def BATCH_SIZE : Nat := 25

def DELAY_BETWEEN_BATCHES : Nat := 2000

/-- The constant `rowsPerPage` of `fetchAllStudents`. -/
def rowsPerPage : Nat := 1000

/-- Reading the clock: `new Date()` / `Date.now()`. -/
def readClock (env : Env) (w : World) : Nat × World :=
  (env.now w.clock, { w with clock := w.clock + 1 })

/-- Appending one effect to the log. -/
def World.log (w : World) (e : Event) : World :=
  { w with events := w.events ++ [e] }

/-! ## Job store access -/

/-- The function `updateJobStatus(jobId, updates)`. With the in-memory map it
reads the current entry (or `{}`), merges the updates over it and writes the
result back. With the durable store, `kv.get` hands back the stored entry
decoded, an object, so that `JSON.parse(currentData)` throws whenever an entry
exists; only when there is none are the updates merged over `{}` and written.
On a throw nothing has been written. -/
def updateJobStatus (env : Env) (jobId : String) (updates : Job) (w : World) :
    Except String World :=
  if env.kv then
    match w.kvData.get jobId with
    | some _ => Except.error env.parseError
    | none =>
      let jobData : Job := {}
      let updatedData := jobData.merge updates
      Except.ok { w with kvData := w.kvData.set jobId updatedData,
                         events := w.events ++ [Event.write jobId updatedData] }
  else
    let currentData := match w.jobs.get jobId with
      | some j => j
      | none => {}
    let updatedData := currentData.merge updates
    Except.ok { w with jobs := w.jobs.set jobId updatedData,
                       events := w.events ++ [Event.write jobId updatedData] }

/-! ## Upstream calls -/

/-- The `while (hasMore)` loop of `fetchAllStudents`, entered with `hasMore`
true. Returns `none` when the fuel runs out. -/
def fetchLoop (env : Env) (schoolId : String) :
    Nat → Nat → List Student → World → Option (Except String (List Student) × World)
  | 0, _, _, _ => none
  | fuel + 1, page, allStudents, w =>
    let w1 := w.log (Event.get schoolId page rowsPerPage)
    match env.getPage page with
    | GetResponse.threw msg => some (Except.error msg, w1)
    | GetResponse.notOk statusText =>
      some (Except.error ("Failed to fetch students: " ++ statusText), w1)
    | GetResponse.ok none => some (Except.ok allStudents, w1)
    | GetResponse.ok (some records) =>
      if records.length > 0 then
        if records.length = rowsPerPage then
          fetchLoop env schoolId fuel (page + 1) (allStudents ++ records) w1
        else
          some (Except.ok (allStudents ++ records), w1)
      else
        some (Except.ok allStudents, w1)

/-- The function `fetchAllStudents(schoolId, appId, apiKey)`. -/
def fetchAllStudents (env : Env) (fuel : Nat) (schoolId : String) (w : World) :
    Option (Except String (List Student) × World) :=
  fetchLoop env schoolId fuel 1 [] w

/-- The object that `JSON.stringify(updateData)` serialises after
`updateData[fieldName] = value`: the single key `fieldName` with `value`, and no
key at all when `value` is `undefined` (the serialisation drops the key) or
when `fieldName` is `__proto__` (the assignment goes to the prototype setter and
creates no own key). -/
def putBody (fieldName : String) (value : JsValue) : List (String × JsValue) :=
  if fieldName = "__proto__" ∨ value = JsValue.undefined then [] else [(fieldName, value)]

/-- The function `updateStudentRecord(recordId, fieldName, value, appId, apiKey)`: the
request logged carries the body sent, `JSON.stringify(updateData)`. -/
def updateStudentRecord (env : Env) (recordId fieldName : String) (value : JsValue)
    (w : World) : Except String Unit × World :=
  let body := putBody fieldName value
  let w1 : World :=
    { w with events := w.events ++ [Event.put recordId body], puts := w.puts + 1 }
  match env.putRecord w.puts recordId with
  | PutResponse.threw msg => (Except.error msg, w1)
  | PutResponse.notOk statusText =>
    (Except.error ("Failed to update record " ++ recordId ++ ": " ++ statusText), w1)
  | PutResponse.ok => (Except.ok (), w1)

/-- The `batch.map(...)` of one batch: every record of the batch gets its
update call, in order; the rejected ones are returned as error entries, in
issue order. -/
def updateBatch (env : Env) (fieldName : String) (value : JsValue) :
    List Student → World → List ErrorEntry × World
  | [], w => ([], w)
  | student :: rest, w =>
    let r := updateStudentRecord env student.id fieldName value w
    let tail := updateBatch env fieldName value rest r.2
    match r.1 with
    | Except.error msg => ({ studentId := student.id, error := msg } :: tail.1, tail.2)
    | Except.ok _ => tail

/-- The call `xs.slice(start, stop)` for indices within range. -/
def slice {α : Type} (xs : List α) (start stop : Nat) : List α :=
  (xs.take stop).drop start

/-! ## Progress percentage in binary64 arithmetic

`Math.round((processedCount / students.length) * 100)` is evaluated in IEEE 754
double precision: the quotient is rounded to the nearest double (ties to even),
so is the product with 100, and `Math.round` then takes the nearest integer
(ties upwards). Both integers are exact doubles (array lengths are below
`2 ^ 32`). The model covers the normal range below `2 ^ 53`, which contains
every value that arises here. -/

/-- A non-negative finite double, written `mant / 2 ^ scale`. -/
structure Double where
  mant : Nat
  scale : Nat
  deriving DecidableEq, Repr

/-- Nearest integer to `a / b`, ties to the even one. -/
def roundHalfEven (a b : Nat) : Nat :=
  let q := a / b
  let r := a % b
  if 2 * r < b then q else if b < 2 * r then q + 1 else q + q % 2

def log2Fuel : Nat → Nat → Nat
  | 0, _ => 0
  | fuel + 1, n => if 2 ≤ n then log2Fuel fuel (n / 2) + 1 else 0

/-- Integer part of the binary logarithm of `n` (0 for `n = 0`). -/
def floorLog2 (n : Nat) : Nat := log2Fuel n n

/-- The `k` with `2 ^ 52 ≤ (a / b) * 2 ^ k < 2 ^ 53`, for `0 < a`, `0 < b`
and `a / b < 2 ^ 53`: a 53-bit significand is `(a / b) * 2 ^ k` rounded. -/
def binaryScale (a b : Nat) : Nat :=
  if b ≤ a then 52 - floorLog2 (a / b)
  else
    let t := floorLog2 (b / a)
    if a * 2 ^ t = b then 52 + t else 52 + t + 1

/-- The double nearest to the rational `a / b` (ties to even). -/
def toDouble (a b : Nat) : Double :=
  if a = 0 then { mant := 0, scale := 0 }
  else { mant := roundHalfEven (a * 2 ^ binaryScale a b) b, scale := binaryScale a b }

/-- Double division `p / n` of two integers. -/
def Double.div (p n : Nat) : Double := toDouble p n

/-- Double product `x * c` with an integer `c`. -/
def Double.mulNat (x : Double) (c : Nat) : Double := toDouble (x.mant * c) (2 ^ x.scale)

/-- The call `Math.round(x)`: the integer part of `x + 1/2`. -/
def mathRound (x : Double) : Nat := (2 * x.mant + 2 ^ x.scale) / 2 ^ (x.scale + 1)

/-- The expression `Math.round((processedCount / total) * 100)`. -/
def progressPercent (processedCount total : Nat) : Nat :=
  mathRound ((Double.div processedCount total).mulNat 100)

/-- The exact rational `processedCount / total * 100` rounded half up. -/
def exactPercent (processedCount total : Nat) : Nat :=
  (200 * processedCount + total) / (2 * total)

/-! ## The orchestrator -/

/-- The variables of the batch loop: the index `i`, `processedCount` and the
`errors` array, together with the world. -/
structure LoopState where
  i : Nat
  processedCount : Nat
  errors : List ErrorEntry
  world : World
  deriving DecidableEq, Repr

/-- One iteration of the batch loop, including the increment `i += BATCH_SIZE`.
When the progress update throws, the iteration ends there, with the message
and the world reached. -/
def batchStep (env : Env) (jobId fieldName : String) (value : JsValue)
    (students : List Student) (s : LoopState) : Except (String × World) LoopState :=
  let batch := slice students s.i (s.i + BATCH_SIZE)
  let w0 := s.world.log (Event.batch batch)
  let r := updateBatch env fieldName value batch w0
  let errors := s.errors ++ env.settle (s.i / BATCH_SIZE) r.1
  let processedCount := s.processedCount + batch.length
  match updateJobStatus env jobId
      { processedRecords := some processedCount,
        progress := some (progressPercent processedCount students.length),
        errors := some errors } r.2 with
  | Except.error msg => Except.error (msg, r.2)
  | Except.ok w1 =>
    let w2 := if s.i + BATCH_SIZE < students.length then
        w1.log (Event.delay DELAY_BETWEEN_BATCHES)
      else w1
    Except.ok
      { i := s.i + BATCH_SIZE, processedCount := processedCount, errors := errors, world := w2 }

/-- The loop `for (let i = 0; i < students.length; i += BATCH_SIZE)`. Returns
`none` when the fuel runs out before the loop condition fails, and the error
of the first iteration that throws. -/
def processBatches (env : Env) (jobId fieldName : String) (value : JsValue)
    (students : List Student) : Nat → LoopState → Option (Except (String × World) LoopState)
  | 0, s => if s.i < students.length then none else some (Except.ok s)
  | fuel + 1, s =>
    if s.i < students.length then
      match batchStep env jobId fieldName value students s with
      | Except.error e => some (Except.error e)
      | Except.ok s1 => processBatches env jobId fieldName value students fuel s1
    else some (Except.ok s)

/-- The `catch` block of `processBulkUpdate`, entered with the message of the
error caught: it writes the failure to the job and throws the error again. If
the write itself throws, the promise rejects with that error instead. -/
def failJob (env : Env) (jobId msg : String) (w : World) : Except String Unit × World :=
  let t := readClock env w
  match updateJobStatus env jobId
      { status := some "failed", error := some msg, endTime := some t.1 } t.2 with
  | Except.error msg2 => (Except.error msg2, t.2)
  | Except.ok w1 => (Except.error msg, w1)

/-- The function `processBulkUpdate(jobId, schoolId, fieldName, value, appId, apiKey)`. The
result is `Except.ok ()` when the promise resolves and `Except.error msg` when
it rejects with an error of that message (after the `catch` block has run). -/
def processBulkUpdate (env : Env) (fuel : Nat) (jobId schoolId fieldName : String)
    (value : JsValue) (w : World) : Option (Except String Unit × World) :=
  match fetchAllStudents env fuel schoolId w with
  | none => none
  | some (Except.error msg, w1) => some (failJob env jobId msg w1)
  | some (Except.ok students, w1) =>
    match updateJobStatus env jobId
        { totalRecords := some students.length, status := some "processing" } w1 with
    | Except.error msg => some (failJob env jobId msg w1)
    | Except.ok w2 =>
      if students.length = 0 then
        let t := readClock env w2
        match updateJobStatus env jobId
            { status := some "completed",
              message := some "No student records found for this school",
              endTime := some t.1 } t.2 with
        | Except.error msg => some (failJob env jobId msg t.2)
        | Except.ok w3 => some (Except.ok (), w3)
      else
        match processBatches env jobId fieldName value students fuel
            { i := 0, processedCount := 0, errors := [], world := w2 } with
        | none => none
        | some (Except.error e) => some (failJob env jobId e.1 e.2)
        | some (Except.ok s) =>
          let t := readClock env s.world
          match updateJobStatus env jobId
              { status := some "completed",
                progress := some 100,
                processedRecords := some s.processedCount,
                endTime := some t.1,
                errors := some s.errors,
                message := some ("Successfully updated " ++ toString s.processedCount ++ " of "
                  ++ toString students.length ++ " records") } t.2 with
          | Except.error msg => some (failJob env jobId msg t.2)
          | Except.ok w3 => some (Except.ok (), w3)

/-! ## The request handler -/

/-- The JSON body of a request; `schoolId`, `fieldName` and `toggleType` are
strings when present. -/
structure RequestBody where
  schoolId : Option String
  fieldName : Option String
  value : JsValue
  toggleType : Option String
  deriving DecidableEq, Repr

structure Request where
  method : String
  /-- Header `x-knack-application-id`. -/
  appIdHeader : Option String
  /-- Header `x-knack-rest-api-key`. -/
  apiKeyHeader : Option String
  /-- The parsed body `req.body`, absent when the request carries none. -/
  body : Option RequestBody
  deriving DecidableEq, Repr

/-- The JSON object sent by `res.json(...)`. -/
structure ResponseBody where
  error : Option String := none
  details : Option String := none
  success : Option Bool := none
  jobId : Option String := none
  message : Option String := none
  statusUrl : Option String := none
  deriving DecidableEq, Repr

structure Response where
  status : Nat
  headers : List (String × String)
  /-- Absent for `res.status(200).end()`. -/
  body : Option ResponseBody
  deriving DecidableEq, Repr

/-- Truthiness of an optional string: present and non-empty. -/
def truthy : Option String → Bool
  | some s => s != ""
  | none => false

/-- The operator `a || b` on optional strings. -/
def orElse (a b : Option String) : Option String :=
  if truthy a then a else b

/-- Rendering of an optional string inside a template literal. -/
def render : Option String → String
  | some s => s
  | none => "undefined"

def corsHeaders : List (String × String) :=
  [("Access-Control-Allow-Origin", "*"),
   ("Access-Control-Allow-Methods", "POST, OPTIONS"),
   ("Access-Control-Allow-Headers",
    "Content-Type, X-Knack-Application-Id, X-Knack-REST-API-Key")]

/-- The handler attached to `processBulkUpdate(...)` by `.catch(...)`: on
rejection it writes the failure to the job once more; a throw of that write is
an unhandled rejection and leaves the store as it is. -/
def catchHandler (env : Env) (jobId : String) :
    Except String Unit × World → World
  | (Except.ok _, w) => w
  | (Except.error msg, w) =>
    let t := readClock env w
    match updateJobStatus env jobId
        { status := some "failed", error := some msg, endTime := some t.1 } t.2 with
    | Except.error _ => t.2
    | Except.ok w1 => w1

/-- The world right after the handler has created and stored the job: two
clock readings (`Date.now()` for the id, `new Date()` for `startTime`) and the
first `set` of the job. Returns the job id and that world. -/
def createJob (env : Env) (schoolId fieldName : String) (body : RequestBody) (w : World) :
    String × World :=
  let t0 := readClock env w
  let jobId := "job_" ++ toString t0.1 ++ "_" ++ env.random
  let t1 := readClock env t0.2
  let jobData : Job :=
    { id := some jobId,
      schoolId := some schoolId,
      fieldName := some fieldName,
      value := present body.value,
      toggleType := body.toggleType,
      status := some "processing",
      progress := some 0,
      totalRecords := some 0,
      processedRecords := some 0,
      startTime := some t1.1,
      errors := some [] }
  let w1 : World :=
    if env.kv then
      { t1.2 with kvData := t1.2.kvData.set jobId jobData,
                  events := t1.2.events ++ [Event.write jobId jobData] }
    else
      { t1.2 with jobs := t1.2.jobs.set jobId jobData,
                  events := t1.2.events ++ [Event.write jobId jobData] }
  (jobId, w1)

/-- Creation of the job followed by the detached call
`processBulkUpdate(...).catch(...)`. Returns the job id and the world reached
once the run has settled (`none` when it does not settle within the fuel). -/
def launch (env : Env) (fuel : Nat) (schoolId fieldName : String) (body : RequestBody)
    (w : World) : String × Option World :=
  let c := createJob env schoolId fieldName body w
  (c.1, (processBulkUpdate env fuel c.1 schoolId fieldName body.value c.2).map
    (catchHandler env c.1))

/-- The exported request handler. The response is paired with the world
reached once the detached orchestrator run has settled (`none` when it does
not settle within the fuel). An absent `req.body` makes the destructuring at
the head of the `try` block throw, which the `catch` block answers with 500. -/
def handler (env : Env) (fuel : Nat) (req : Request) (w : World) : Response × Option World :=
  if req.method = "OPTIONS" then
    ({ status := 200, headers := corsHeaders, body := none }, some w)
  else if req.method ≠ "POST" then
    ({ status := 405, headers := [],
       body := some { error := some "Method not allowed" } }, some w)
  else
    match req.body with
    | none =>
      ({ status := 500, headers := corsHeaders,
         body := some
          { error := some "Internal server error",
            details := some env.destructureError } },
       some w)
    | some body =>
      let appId := orElse req.appIdHeader env.envAppId
      let apiKey := orElse req.apiKeyHeader env.envApiKey
      if !truthy appId || !truthy apiKey then
        ({ status := 400, headers := corsHeaders,
           body := some
            { error := some "Missing Knack credentials",
              details := some
                "Please provide X-Knack-Application-Id and X-Knack-REST-API-Key headers" } },
         some w)
      else
        match body.schoolId, body.fieldName with
        | some schoolId, some fieldName =>
          if schoolId = "" ∨ fieldName = "" then
            ({ status := 400, headers := corsHeaders,
               body := some
                { error := some "Missing required parameters",
                  details := some "schoolId and fieldName are required" } },
             some w)
          else
            let c := launch env fuel schoolId fieldName body w
            ({ status := 200, headers := corsHeaders,
               body := some
                { success := some true,
                  jobId := some c.1,
                  message := some ("Bulk update initiated for " ++ render body.toggleType),
                  statusUrl := some ("/api/toggle-status/" ++ c.1) } },
             c.2)
        | _, _ =>
          ({ status := 400, headers := corsHeaders,
             body := some
              { error := some "Missing required parameters",
                details := some "schoolId and fieldName are required" } },
           some w)

/-! ## The run on a job store that works

The functions `idealUpdate`, `idealStep`, `idealBatches`, `idealRun`,
`idealCatch` and `idealLaunch` describe the same code on the assumption that
every call to the job store succeeds and gives back what was stored. They are
not a second model of the program: they agree with the functions above for the
in-memory map (`updateJobStatus_mem`, ..., `launch_mem`), which is where they
are used, and say nothing about the durable store. -/

/-- The update of `updateJobStatus` on a store whose calls all succeed and give
back what was stored: read the current entry (or `{}`), merge the updates over
it and write the result back. -/
def idealUpdate (env : Env) (jobId : String) (updates : Job) (w : World) : World :=
  if env.kv then
    let jobData := match w.kvData.get jobId with
      | some j => j
      | none => {}
    let updatedData := jobData.merge updates
    { w with kvData := w.kvData.set jobId updatedData,
             events := w.events ++ [Event.write jobId updatedData] }
  else
    let currentData := match w.jobs.get jobId with
      | some j => j
      | none => {}
    let updatedData := currentData.merge updates
    { w with jobs := w.jobs.set jobId updatedData,
             events := w.events ++ [Event.write jobId updatedData] }

/-- One iteration of the batch loop when no store call throws. -/
def idealStep (env : Env) (jobId fieldName : String) (value : JsValue)
    (students : List Student) (s : LoopState) : LoopState :=
  let batch := slice students s.i (s.i + BATCH_SIZE)
  let w0 := s.world.log (Event.batch batch)
  let r := updateBatch env fieldName value batch w0
  let errors := s.errors ++ env.settle (s.i / BATCH_SIZE) r.1
  let processedCount := s.processedCount + batch.length
  let w1 := idealUpdate env jobId
    { processedRecords := some processedCount,
      progress := some (progressPercent processedCount students.length),
      errors := some errors } r.2
  let w2 := if s.i + BATCH_SIZE < students.length then
      w1.log (Event.delay DELAY_BETWEEN_BATCHES)
    else w1
  { i := s.i + BATCH_SIZE, processedCount := processedCount, errors := errors, world := w2 }

/-- The batch loop when no store call throws. Returns `none` when the fuel
runs out before the loop condition fails. -/
def idealBatches (env : Env) (jobId fieldName : String) (value : JsValue)
    (students : List Student) : Nat → LoopState → Option LoopState
  | 0, s => if s.i < students.length then none else some s
  | fuel + 1, s =>
    if s.i < students.length then
      idealBatches env jobId fieldName value students fuel
        (idealStep env jobId fieldName value students s)
    else some s

/-- The run of `processBulkUpdate` when no store call throws: the only error
is then the one of the fetch. -/
def idealRun (env : Env) (fuel : Nat) (jobId schoolId fieldName : String)
    (value : JsValue) (w : World) : Option (Except String Unit × World) :=
  match fetchAllStudents env fuel schoolId w with
  | none => none
  | some (Except.error msg, w1) =>
    let t := readClock env w1
    some (Except.error msg,
      idealUpdate env jobId
        { status := some "failed", error := some msg, endTime := some t.1 } t.2)
  | some (Except.ok students, w1) =>
    let w2 := idealUpdate env jobId
      { totalRecords := some students.length, status := some "processing" } w1
    if students.length = 0 then
      let t := readClock env w2
      some (Except.ok (),
        idealUpdate env jobId
          { status := some "completed",
            message := some "No student records found for this school",
            endTime := some t.1 } t.2)
    else
      match idealBatches env jobId fieldName value students fuel
          { i := 0, processedCount := 0, errors := [], world := w2 } with
      | none => none
      | some s =>
        let t := readClock env s.world
        some (Except.ok (),
          idealUpdate env jobId
            { status := some "completed",
              progress := some 100,
              processedRecords := some s.processedCount,
              endTime := some t.1,
              errors := some s.errors,
              message := some ("Successfully updated " ++ toString s.processedCount ++ " of "
                ++ toString students.length ++ " records") } t.2)

/-- The handler attached by `.catch(...)` when no store call throws. -/
def idealCatch (env : Env) (jobId : String) :
    Except String Unit × World → World
  | (Except.ok _, w) => w
  | (Except.error msg, w) =>
    let t := readClock env w
    idealUpdate env jobId
      { status := some "failed", error := some msg, endTime := some t.1 } t.2

/-- Creation of the job followed by the detached run, when no store call throws. -/
def idealLaunch (env : Env) (fuel : Nat) (schoolId fieldName : String) (body : RequestBody)
    (w : World) : String × Option World :=
  let c := createJob env schoolId fieldName body w
  (c.1, (idealRun env fuel c.1 schoolId fieldName body.value c.2).map
    (idealCatch env c.1))

/-! ## Projections of the effect log -/

/-- The jobs written to the store under `jobId`, oldest first. -/
def writesOf (jobId : String) : List Event → List Job
  | [] => []
  | Event.write k j :: rest => if k = jobId then j :: writesOf jobId rest else writesOf jobId rest
  | _ :: rest => writesOf jobId rest

/-- The PUT calls issued, oldest first. -/
def putsOf : List Event → List (String × List (String × JsValue))
  | [] => []
  | Event.put r b :: rest => (r, b) :: putsOf rest
  | _ :: rest => putsOf rest

/-- The pages requested, oldest first. -/
def getsOf : List Event → List Nat
  | [] => []
  | Event.get _ p _ :: rest => p :: getsOf rest
  | _ :: rest => getsOf rest

/-- The pauses taken, oldest first. -/
def delaysOf : List Event → List Nat
  | [] => []
  | Event.delay ms :: rest => ms :: delaysOf rest
  | _ :: rest => delaysOf rest

/-- The batches formed, oldest first. -/
def batchesOf : List Event → List (List Student)
  | [] => []
  | Event.batch b :: rest => b :: batchesOf rest
  | _ :: rest => batchesOf rest

/-- The entry under `jobId` that `updateJobStatus` merges into (`{}` when absent). -/
def current (env : Env) (jobId : String) (w : World) : Job :=
  match (w.store env).get jobId with
  | some j => j
  | none => {}

/-- The message with which an update rejects, if it does. -/
def putError (recordId : String) : PutResponse → Option String
  | PutResponse.threw msg => some msg
  | PutResponse.notOk statusText =>
    some ("Failed to update record " ++ recordId ++ ": " ++ statusText)
  | PutResponse.ok => none

/-- The error entries of the records of `batch` whose update rejects, in issue
order, when the first of them is the `k`-th PUT of the run. -/
def failuresFrom (env : Env) : Nat → List Student → List ErrorEntry
  | _, [] => []
  | k, student :: rest =>
    match putError student.id (env.putRecord k student.id) with
    | some msg => { studentId := student.id, error := msg } :: failuresFrom env (k + 1) rest
    | none => failuresFrom env (k + 1) rest

/-! ## Closed description of the batch loop

The state reached after `k` iterations, written without reference to the loop:
it is what the loop is proved to compute. -/

/-- The `k`-th batch (from 0) of `students`. -/
def batchAt (students : List Student) (k : Nat) : List Student :=
  slice students (BATCH_SIZE * k) (BATCH_SIZE * k + BATCH_SIZE)

/-- The `errors` array after `k` batches, when the first PUT of the loop is
number `p0` of the run. -/
def errorsAfter (env : Env) (p0 : Nat) (students : List Student) : Nat → List ErrorEntry
  | 0 => []
  | k + 1 =>
    errorsAfter env p0 students k
      ++ env.settle k (failuresFrom env (p0 + BATCH_SIZE * k) (batchAt students k))

/-- The `updates` object passed to `updateJobStatus` after the `k`-th batch. -/
def updatesAfter (env : Env) (p0 : Nat) (students : List Student) (k : Nat) : Job :=
  { processedRecords := some (min (BATCH_SIZE * k) students.length),
    progress := some (progressPercent (min (BATCH_SIZE * k) students.length) students.length),
    errors := some (errorsAfter env p0 students k) }

/-- The stored job after `k` batches, starting from the entry `cur0`. -/
def jobAfter (env : Env) (p0 : Nat) (students : List Student) (cur0 : Job) : Nat → Job
  | 0 => cur0
  | k + 1 => (jobAfter env p0 students cur0 k).merge (updatesAfter env p0 students (k + 1))

/-- The effects of iteration `k` (from 0) of the loop. -/
def iterationEvents (env : Env) (jobId fieldName : String) (value : JsValue) (p0 : Nat)
    (students : List Student) (cur0 : Job) (k : Nat) : List Event :=
  Event.batch (batchAt students k)
    :: ((batchAt students k).map (fun s => Event.put s.id (putBody fieldName value))
    ++ (Event.write jobId (jobAfter env p0 students cur0 (k + 1))
    :: (if BATCH_SIZE * k + BATCH_SIZE < students.length then
          [Event.delay DELAY_BETWEEN_BATCHES] else [])))

/-- The effects of the first `k` iterations of the loop. -/
def loopEvents (env : Env) (jobId fieldName : String) (value : JsValue) (p0 : Nat)
    (students : List Student) (cur0 : Job) : Nat → List Event
  | 0 => []
  | k + 1 =>
    loopEvents env jobId fieldName value p0 students cur0 k
      ++ iterationEvents env jobId fieldName value p0 students cur0 k

/-- The `updates` object that one iteration passes to `updateJobStatus`, in
terms of the loop state at the start of the iteration. -/
def stepUpdates (env : Env) (students : List Student) (s : LoopState) : Job :=
  { processedRecords :=
      some (s.processedCount + (slice students s.i (s.i + BATCH_SIZE)).length),
    progress := some (progressPercent
      (s.processedCount + (slice students s.i (s.i + BATCH_SIZE)).length) students.length),
    errors := some (s.errors ++ env.settle (s.i / BATCH_SIZE)
      (failuresFrom env s.world.puts (slice students s.i (s.i + BATCH_SIZE)))) }

/-- The `updates` object of the final write, in terms of the loop state at
the exit of the loop. -/
def finalUpdates (env : Env) (students : List Student) (s : LoopState) : Job :=
  { status := some "completed",
    progress := some 100,
    processedRecords := some s.processedCount,
    endTime := some (env.now s.world.clock),
    errors := some s.errors,
    message := some ("Successfully updated " ++ toString s.processedCount ++ " of "
      ++ toString students.length ++ " records") }

/-- Number of batches of `n` records: the ceiling of `n / 25`. -/
def batchCount (n : Nat) : Nat := (n + (BATCH_SIZE - 1)) / BATCH_SIZE

/-- The loop state `s` is the one reached after `k` iterations started in world `w0`. -/
structure LoopAt (env : Env) (jobId fieldName : String) (value : JsValue)
    (students : List Student) (w0 : World) (k : Nat) (s : LoopState) : Prop where
  i_eq : s.i = BATCH_SIZE * k
  reach : k = 0 ∨ BATCH_SIZE * (k - 1) < students.length
  count_eq : s.processedCount = min (BATCH_SIZE * k) students.length
  errors_eq : s.errors = errorsAfter env w0.puts students k
  puts_eq : s.world.puts = w0.puts + min (BATCH_SIZE * k) students.length
  clock_eq : s.world.clock = w0.clock
  events_eq : s.world.events = w0.events
    ++ loopEvents env jobId fieldName value w0.puts students (current env jobId w0) k
  current_eq : current env jobId s.world
    = jobAfter env w0.puts students (current env jobId w0) k

/-- The id given to a job created in world `w`. -/
def newJobId (env : Env) (w : World) : String :=
  "job_" ++ toString (env.now w.clock) ++ "_" ++ env.random

/-- The object `jobData` stored when a job is created in world `w`. -/
def initialJob (env : Env) (schoolId fieldName : String) (body : RequestBody) (w : World) :
    Job :=
  { id := some (newJobId env w),
    schoolId := some schoolId,
    fieldName := some fieldName,
    value := present body.value,
    toggleType := body.toggleType,
    status := some "processing",
    progress := some 0,
    totalRecords := some 0,
    processedRecords := some 0,
    startTime := some (env.now (w.clock + 1)),
    errors := some [] }

/-- The stored job right after the fetch: the entry found in world `w1`
merged with the total count. -/
def startedJob (env : Env) (jobId : String) (w1 : World) (n : Nat) : Job :=
  (current env jobId w1).merge { totalRecords := some n, status := some "processing" }

/-- The stored job at the end of a run over a non-empty `students`, when the
fetch ended in world `w1`. -/
def completedJob (env : Env) (jobId : String) (w1 : World) (students : List Student) : Job :=
  (jobAfter env w1.puts students (startedJob env jobId w1 students.length)
      (batchCount students.length)).merge
    { status := some "completed",
      progress := some 100,
      processedRecords := some students.length,
      endTime := some (env.now w1.clock),
      errors := some (errorsAfter env w1.puts students (batchCount students.length)),
      message := some ("Successfully updated " ++ toString students.length ++ " of "
        ++ toString students.length ++ " records") }

/-- The stored job at the end of a run that fetched no record. -/
def emptyJob (env : Env) (jobId : String) (w1 : World) : Job :=
  (startedJob env jobId w1 0).merge
    { status := some "completed",
      message := some "No student records found for this school",
      endTime := some (env.now w1.clock) }

/-- The stored job after a failure with message `msg` caught in world `w1`. -/
def failedJob (env : Env) (jobId : String) (w1 : World) (msg : String) : Job :=
  (current env jobId w1).merge
    { status := some "failed", error := some msg, endTime := some (env.now w1.clock) }

/-- The stored job after the handler attached by `.catch(...)` has written
the same failure once more, one clock reading later. -/
def refailedJob (env : Env) (jobId : String) (w1 : World) (msg : String) : Job :=
  (failedJob env jobId w1 msg).merge
    { status := some "failed", error := some msg, endTime := some (env.now (w1.clock + 1)) }

/-- The GET events of `cnt` consecutive pages starting at `page`. -/
def pageRequests (schoolId : String) (page cnt : Nat) : List Event :=
  (List.range' page cnt).map (fun p => Event.get schoolId p rowsPerPage)

/-- An upstream that holds the result set `records` and serves it in pages of
the requested size: page `p` (from 1) holds records `1000 (p - 1)` up to
`1000 p - 1`, possibly none. -/
def servesPages (env : Env) (records : List Student) : Prop :=
  ∀ p, 1 ≤ p →
    env.getPage p
      = GetResponse.ok (some (slice records (rowsPerPage * (p - 1)) (rowsPerPage * p)))

/-! ## Sample data -/

/-- Records `rec0`, `rec1`, ... -/
def sampleStudents (n : Nat) : List Student :=
  (List.range n).map (fun i => { id := "rec" ++ toString i })

/-- A world with empty stores and an empty log. -/
def emptyWorld : World :=
  { kvData := { entries := [] }, jobs := { entries := [] }, events := [], clock := 0, puts := 0 }

/-- An upstream that serves `records` in pages of 1000 and answers the PUTs
as `put` says, with the module on its in-memory store. -/
def sampleEnv (records : List Student) (put : Nat → String → PutResponse) : Env :=
  { kv := false,
    getPage := fun p =>
      GetResponse.ok (some (slice records (rowsPerPage * (p - 1)) (rowsPerPage * p))),
    putRecord := put,
    settle := fun _ es => es,
    now := fun n => 1700000000000 + 7 * n,
    random := "k3x9q2m1z",
    envAppId := none,
    envApiKey := none }

/-- An upstream that answers every GET with a non-OK response. -/
def downEnv (statusText : String) : Env :=
  { kv := false,
    getPage := fun _ => GetResponse.notOk statusText,
    putRecord := fun _ _ => PutResponse.ok,
    settle := fun _ es => es,
    now := fun n => 1700000000000 + 7 * n,
    random := "k3x9q2m1z",
    envAppId := none,
    envApiKey := none }

/-- A request body for the toggle `field_289` of school `school_7`. -/
def sampleBody : RequestBody :=
  { schoolId := some "school_7", fieldName := some "field_289",
    value := JsValue.str "Yes", toggleType := some "cycle" }

/-- Only the PUT number `k` of the run fails, with a non-OK response. -/
def failsAt (k : Nat) (statusText : String) : Nat → String → PutResponse :=
  fun i _ => if i = k then PutResponse.notOk statusText else PutResponse.ok

/-- Every update succeeds. -/
def allOk : Nat → String → PutResponse := fun _ _ => PutResponse.ok

/-- The pacing of a run: a batch is formed, or a pause is taken. -/
inductive Pace where
  | batch
  | pause (ms : Nat)
  deriving DecidableEq, Repr

/-- The batches and pauses of a log, oldest first. -/
def paceOf : List Event → List Pace
  | [] => []
  | Event.batch _ :: rest => Pace.batch :: paceOf rest
  | Event.delay ms :: rest => Pace.pause ms :: paceOf rest
  | _ :: rest => paceOf rest

/-- Every update is rejected with a non-OK response. -/
def failsAll (statusText : String) : Nat → String → PutResponse :=
  fun _ _ => PutResponse.notOk statusText

/-- A well-formed bulk-update request carrying its credentials in the headers. -/
def sampleRequest : Request :=
  { method := "POST", appIdHeader := some "app-id",
    apiKeyHeader := some "api-key", body := some sampleBody }

/-- A request without credential headers. -/
def bareRequest (body : RequestBody) : Request :=
  { method := "POST", appIdHeader := none, apiKeyHeader := none, body := some body }

/-- A configuration whose environment holds both credentials. -/
def credentialEnv : Env :=
  { sampleEnv [] allOk with envAppId := some "app-id", envApiKey := some "api-key" }

/-! ## The status endpoint

Embedding of `api/toggle-status/[jobId].js`. The module creates its own KV
client from the same environment, and its own `jobs` map with `new Map()`: a
map distinct from the one of the bulk-update module, and one that no statement
of the status module writes an entry to.

The durable store is taken to answer. Its client hands back the stored entry
decoded, an object, so that `JSON.parse(data)` throws on every entry found and
the `catch` block of the handler answers 500. The block that computes the
estimate is therefore reached only with an entry of the module's own map.

The estimate is computed in double precision. Counts and times are integers
below `2 ^ 53`, hence exact doubles, and the quotients stay below `2 ^ 53`,
where the model of `toDouble` applies. -/

/-- The request as the status handler reads it: `req.method` and `req.query.jobId`. -/
structure StatusRequest where
  method : String
  jobId : Option String
  deriving DecidableEq, Repr

/-- The object `jobData`: the keys of the job, and `estimatedTimeRemaining`
once the handler has assigned it. -/
structure JobView where
  job : Job
  estimatedTimeRemaining : Option String := none
  deriving DecidableEq, Repr

/-- The `jobs` map of the status module. -/
structure StatusJobs where
  entries : List (String × JobView)
  deriving DecidableEq, Repr

/-- The call `jobs.get(k)` on the map of the status module. -/
def StatusJobs.get (s : StatusJobs) (k : String) : Option JobView :=
  s.entries.lookup k

/-- Assignment to a key of the object held under `k`: the entry is the object
itself, so the map sees the new value. -/
def StatusJobs.assign (s : StatusJobs) (k : String) (v : JobView) : StatusJobs :=
  { entries := s.entries.map (fun e => if e.1 = k then (e.1, v) else e) }

/-- What `res.json(...)` sends: an error object or the job data. -/
inductive StatusBody where
  | error (error : String)
  /-- The object `{ error, details }` of the `catch` block. -/
  | failure (error details : String)
  | job (jobData : JobView)
  deriving DecidableEq, Repr

structure StatusResponse where
  status : Nat
  headers : List (String × String)
  /-- Absent for `res.status(200).end()`. -/
  body : Option StatusBody
  deriving DecidableEq, Repr

def statusCorsHeaders : List (String × String) :=
  [("Access-Control-Allow-Origin", "*"),
   ("Access-Control-Allow-Methods", "GET, OPTIONS"),
   ("Access-Control-Allow-Headers", "Content-Type")]

/-- Double quotient `p / y` of an integer by a positive double. -/
def Double.natDiv (p : Nat) (y : Double) : Double := toDouble (p * 2 ^ y.scale) y.mant

/-- The call `Math.ceil(x)`. -/
def mathCeil (x : Double) : Nat := (x.mant + (2 ^ x.scale - 1)) / 2 ^ x.scale

/-- The call `Math.floor(x)`. -/
def mathFloor (x : Double) : Nat := x.mant / 2 ^ x.scale

/-- The value of a double as a rational. -/
def Double.val (x : Double) : ℚ := (x.mant : ℚ) / 2 ^ x.scale

/-- The function `formatTime(seconds)`, for `seconds` an integer that is a
double (every integer below `2 ^ 53`, and the multiples of the spacing above).
The quotients under `Math.floor` are double quotients, rounded to the nearest
double; the remainders `%` are exact; the numbers printed are integers below
`2 ^ 53`, which print as their decimal digits. The model covers
`seconds < 3600 * 2 ^ 53`. -/
def formatTime (seconds : Int) : String :=
  if seconds < 60 then
    toString seconds ++ " seconds"
  else if seconds < 3600 then
    let minutes := mathFloor (Double.div seconds.toNat 60)
    let remainingSeconds := seconds.toNat % 60
    toString minutes ++ "m " ++ toString remainingSeconds ++ "s"
  else
    let hours := mathFloor (Double.div seconds.toNat 3600)
    let minutes := mathFloor (Double.div (seconds.toNat % 3600) 60)
    toString hours ++ "h " ++ toString minutes ++ "m"

/-- The value of
`jobData.processedRecords / ((new Date() - new Date(jobData.startTime)) / 1000)`
when it passes the test `progressRate > 0`, and `none` when it does not;
`some none` stands for `Infinity`. With `startTime` absent the quotient is
`NaN`. With `processedRecords` zero it is `0`, `-0` or `NaN`. Otherwise its
sign is that of the elapsed time, and it is `Infinity` when no time has
elapsed. -/
def progressRate (processedRecords : Nat) (startTime : Option Nat) (now : Nat) :
    Option (Option Double) :=
  match startTime with
  | none => none
  | some start =>
    if processedRecords = 0 then none
    else if now < start then none
    else if now = start then some none
    else some (some (Double.natDiv processedRecords (Double.div (now - start) 1000)))

/-- The value of `Math.ceil(remainingRecords / progressRate)` for a positive
`progressRate` (`none` for `Infinity`, where the quotient is a zero). A
negative `remainingRecords` gives the negated quotient of its absolute value. -/
def estimatedSeconds (totalRecords processedRecords : Nat) : Option Double → Int
  | none => 0
  | some rate =>
    if processedRecords ≤ totalRecords then
      (mathCeil (Double.natDiv (totalRecords - processedRecords) rate) : Int)
    else
      - (mathFloor (Double.natDiv (processedRecords - totalRecords) rate) : Int)

/-- The block of the handler headed `Calculate estimated time remaining`: it
reads the clock when the job is `processing` with a positive `totalRecords`,
and assigns `estimatedTimeRemaining` when the rate is positive. -/
def withEstimate (env : Env) (jobData : JobView) (w : World) : JobView × World :=
  match jobData.job.totalRecords with
  | none => (jobData, w)
  | some totalRecords =>
    if jobData.job.status = some "processing" ∧ 0 < totalRecords then
      let t := readClock env w
      match jobData.job.processedRecords with
      | none => (jobData, t.2)
      | some processedRecords =>
        match progressRate processedRecords jobData.job.startTime t.1 with
        | none => (jobData, t.2)
        | some rate =>
          ({ jobData with
              estimatedTimeRemaining :=
                some (formatTime (estimatedSeconds totalRecords processedRecords rate)) },
           t.2)
    else (jobData, w)

/-- The exported handler of the status module. It is given the `jobs` map of
its module and the world, and returns the response with both. With the durable
store, an entry found is an object, on which `JSON.parse(data)` throws: the
`catch` block answers 500 with the message of the error. -/
def statusHandler (env : Env) (req : StatusRequest) (jobs : StatusJobs) (w : World) :
    StatusResponse × StatusJobs × World :=
  if req.method = "OPTIONS" then
    ({ status := 200, headers := statusCorsHeaders, body := none }, jobs, w)
  else if req.method ≠ "GET" then
    ({ status := 405, headers := statusCorsHeaders,
       body := some (StatusBody.error "Method not allowed") }, jobs, w)
  else
    match req.jobId with
    | none =>
      ({ status := 400, headers := statusCorsHeaders,
         body := some (StatusBody.error "Job ID is required") }, jobs, w)
    | some jobId =>
      if jobId = "" then
        ({ status := 400, headers := statusCorsHeaders,
           body := some (StatusBody.error "Job ID is required") }, jobs, w)
      else if env.kv then
        match w.kvData.get jobId with
        | none =>
          ({ status := 404, headers := statusCorsHeaders,
             body := some (StatusBody.error "Job not found") }, jobs, w)
        | some _ =>
          ({ status := 500, headers := statusCorsHeaders,
             body := some (StatusBody.failure "Internal server error" env.parseError) },
           jobs, w)
      else
        match jobs.get jobId with
        | none =>
          ({ status := 404, headers := statusCorsHeaders,
             body := some (StatusBody.error "Job not found") }, jobs, w)
        | some jobData =>
          let r := withEstimate env jobData w
          ({ status := 200, headers := statusCorsHeaders,
             body := some (StatusBody.job r.1) }, jobs.assign jobId r.1, r.2)

/-- The exact value of `ceil(remaining * elapsed / processed)`, the elapsed
time being `elapsedMs / 1000` seconds. -/
def exactSeconds (totalRecords processedRecords elapsedMs : Nat) : Nat :=
  ((totalRecords - processedRecords) * elapsedMs + (1000 * processedRecords - 1))
    / (1000 * processedRecords)

/-- The `jobs` map of the status module as the module creates it. -/
def noJobs : StatusJobs := { entries := [] }

/-- A GET request for the status of a job. -/
def statusRequest (jobId : String) : StatusRequest :=
  { method := "GET", jobId := some jobId }

/-- A configuration with the durable store, whose clock reads `t` throughout. -/
def kvEnv (t : Nat) : Env :=
  { sampleEnv [] allOk with kv := true, now := fun _ => t }

/-- A job under way: `processedRecords` of `totalRecords` done since `startTime`. -/
def runningJob (totalRecords processedRecords startTime : Nat) : Job :=
  { id := some "job_1", status := some "processing",
    totalRecords := some totalRecords, processedRecords := some processedRecords,
    startTime := some startTime, errors := some [] }

/-- A world whose durable store holds `job` under `job_1`. -/
def kvWorld (job : Job) : World :=
  { emptyWorld with kvData := { entries := [("job_1", job)] } }

/-! ## The consent submission

Embedding of `api/mmu-consent-submit.js`. The three upstream calls (the record
lookup, the consent write and the session request) are oracles of
`ConsentEnv`, and the calls issued are returned as a list of `ConsentEvent`.
The request body is taken to be a JSON object whose `responses`, when present,
is an object with primitive answers. The built-in `toLowerCase` is a parameter
of the environment. -/

/-- Truthiness of a value. -/
def JsValue.truthy : JsValue → Bool
  | JsValue.undefined => false
  | JsValue.null => false
  | JsValue.bool b => b
  | JsValue.num n => n != 0
  | JsValue.str s => s != ""

/-- Rendering of a value inside a template literal. -/
def JsValue.render : JsValue → String
  | JsValue.undefined => "undefined"
  | JsValue.null => "null"
  | JsValue.bool b => if b then "true" else "false"
  | JsValue.num n => toString n
  | JsValue.str s => s

/-- The object `responses` of the consent form. -/
structure ConsentResponses where
  confirm_read : JsValue
  time_to_consider : JsValue
  free_to_withdraw : JsValue
  agree_participate : JsValue
  permission_research : JsValue
  deriving DecidableEq, Repr

/-- The body of a consent submission; `responses` is `none` when the key is
absent or falsy. -/
structure ConsentBody where
  email : JsValue
  participantName : JsValue
  date : JsValue
  responses : Option ConsentResponses
  signatureData : JsValue
  deriving DecidableEq, Repr

structure ConsentRequest where
  method : String
  body : ConsentBody
  deriving DecidableEq, Repr

/-- The object `consentData` written to the record of `object_10`. -/
structure ConsentData where
  field_3743 : JsValue
  field_3744 : JsValue
  field_3745 : JsValue
  field_3746 : JsValue
  field_3747 : JsValue
  field_3748 : String
  deriving DecidableEq, Repr

/-- A record of `object_10`; the code reads only `id`. -/
structure ConsentRecord where
  id : String
  deriving DecidableEq, Repr

/-- Outcome of the lookup request: `ok records` carries `data.records`, absent
when the answer has no such key. -/
inductive LookupResponse where
  | threw (message : String)
  | notOk (statusText : String)
  | ok (records : Option (List ConsentRecord))
  deriving DecidableEq, Repr

/-- Outcome of the PUT request that writes the consent. -/
inductive WriteResponse where
  | threw (message : String)
  | notOk (statusText : String)
  | ok
  deriving DecidableEq, Repr

/-- Outcome of the session request: `ok session` carries `data.session`. -/
inductive LoginResponse where
  | threw (message : String)
  | notOk (statusText : String)
  | ok (session : Option String)
  deriving DecidableEq, Repr

/-- An upstream call of the consent handler. -/
inductive ConsentEvent where
  | lookup (email : String)
  | write (recordId : String) (consentData : ConsentData)
  | login (email password : String)
  deriving DecidableEq, Repr

structure ConsentEnv where
  /-- Value of `process.env.KNACK_APPLICATION_ID`. -/
  envAppId : Option String
  /-- Value of `process.env.KNACK_API_KEY`. -/
  envApiKey : Option String
  /-- The built-in `String.prototype.toLowerCase`. -/
  toLowerCase : String → String
  /-- Upstream answer to the lookup of an email in `object_10`. -/
  lookup : String → LookupResponse
  /-- Upstream answer to the PUT of `consentData` on a record. -/
  write : String → ConsentData → WriteResponse
  /-- Upstream answer to the session request. -/
  login : String → String → LoginResponse

/-- The JSON object sent by `res.json(...)` in the consent handler. -/
structure ConsentResponseBody where
  error : Option String := none
  details : Option String := none
  success : Option Bool := none
  message : Option String := none
  session : Option String := none
  redirectUrl : Option String := none
  deriving DecidableEq, Repr

structure ConsentResponse where
  status : Nat
  headers : List (String × String)
  /-- Absent for `res.status(200).end()`. -/
  body : Option ConsentResponseBody
  deriving DecidableEq, Repr

def MMU_PASSWORD : String := "Manchester2025"

def REDIRECT_URL : String := "https://vespaacademy.knack.com/vespa-academy#home/"

def consentCorsHeaders : List (String × String) :=
  [("Access-Control-Allow-Origin", "*"),
   ("Access-Control-Allow-Methods", "POST, OPTIONS"),
   ("Access-Control-Allow-Headers", "Content-Type")]

/-- The call `s.endsWith(suffix)`. -/
def endsWith (s suffix : String) : Bool := suffix.data.isSuffixOf s.data

/-- The function `findStudentByEmail(email, appId, apiKey)`. -/
def findStudentByEmail (env : ConsentEnv) (email : String) :
    Except String (Option ConsentRecord) :=
  match env.lookup email with
  | LookupResponse.threw message => Except.error message
  | LookupResponse.notOk statusText =>
    Except.error ("Failed to find student record: " ++ statusText)
  | LookupResponse.ok none => Except.ok none
  | LookupResponse.ok (some []) => Except.ok none
  | LookupResponse.ok (some (record :: _)) => Except.ok (some record)

/-- The function `updateStudentConsent(recordId, consentData, appId, apiKey)`. -/
def updateStudentConsent (env : ConsentEnv) (recordId : String) (consentData : ConsentData) :
    Except String Unit :=
  match env.write recordId consentData with
  | WriteResponse.threw message => Except.error message
  | WriteResponse.notOk statusText =>
    Except.error ("Failed to update student record: " ++ statusText)
  | WriteResponse.ok => Except.ok ()

/-- The function `loginToKnack(email, password, appId)`; the result is
`data.session`, the only key the handler reads. -/
def loginToKnack (env : ConsentEnv) (email password : String) :
    Except String (Option String) :=
  match env.login email password with
  | LoginResponse.threw message => Except.error message
  | LoginResponse.notOk statusText => Except.error ("Login failed: " ++ statusText)
  | LoginResponse.ok session => Except.ok session

/-- The expression `answer ? 'YES' : 'NO'`. -/
def yesNo (answer : JsValue) : String := if answer.truthy then "YES" else "NO"

/-- The template literal `signatureHTML`. -/
def signatureHTML (email : String) (participantName date : JsValue)
    (responses : ConsentResponses) (signatureData : JsValue) : String :=
  "\n      <div style=\"border: 1px solid #ddd; padding: 10px; margin: 10px 0;\">"
  ++ "\n        <h3>MMU Consent Form - Completed</h3>"
  ++ "\n        <p><strong>Participant Name:</strong> " ++ participantName.render ++ "</p>"
  ++ "\n        <p><strong>Email:</strong> " ++ email ++ "</p>"
  ++ "\n        <p><strong>Date:</strong> " ++ date.render ++ "</p>"
  ++ "\n        <h4>Consent Responses:</h4>"
  ++ "\n        <ul>"
  ++ "\n          <li>Read participant information sheet: "
  ++ yesNo responses.confirm_read ++ "</li>"
  ++ "\n          <li>Had time to consider: " ++ yesNo responses.time_to_consider ++ "</li>"
  ++ "\n          <li>Free to withdraw: " ++ yesNo responses.free_to_withdraw ++ "</li>"
  ++ "\n          <li>Agree to participate: " ++ yesNo responses.agree_participate ++ "</li>"
  ++ "\n          <li>Permission for research: "
  ++ yesNo responses.permission_research ++ "</li>"
  ++ "\n        </ul>"
  ++ "\n        <h4>Signature:</h4>"
  ++ "\n        <img src=\"" ++ signatureData.render
  ++ "\" alt=\"Participant Signature\" style=\"max-width: 100%; border: 1px solid #ccc; padding: 5px;\">"
  ++ "\n      </div>"
  ++ "\n    "

/-- The answer of the `catch` block of the consent handler. -/
def submissionFailed (message : String) : ConsentResponse :=
  { status := 500, headers := consentCorsHeaders,
    body := some { error := some "Submission failed", details := some message } }

/-- The steps of the consent handler from the lookup on, for an email that
passed the checks. -/
def submitConsent (env : ConsentEnv) (email : String) (participantName date : JsValue)
    (responses : ConsentResponses) (signatureData : JsValue) :
    ConsentResponse × List ConsentEvent :=
  match findStudentByEmail env email with
  | Except.error message => (submissionFailed message, [ConsentEvent.lookup email])
  | Except.ok none =>
    ({ status := 404, headers := consentCorsHeaders,
       body := some
        { error := some "Student record not found",
          details := some
            "No account found with this email address. Please contact your administrator." } },
     [ConsentEvent.lookup email])
  | Except.ok (some studentRecord) =>
    let consentData : ConsentData :=
      { field_3743 := responses.confirm_read,
        field_3744 := responses.time_to_consider,
        field_3745 := responses.free_to_withdraw,
        field_3746 := responses.agree_participate,
        field_3747 := responses.permission_research,
        field_3748 := signatureHTML email participantName date responses signatureData }
    match updateStudentConsent env studentRecord.id consentData with
    | Except.error message =>
      (submissionFailed message,
       [ConsentEvent.lookup email, ConsentEvent.write studentRecord.id consentData])
    | Except.ok _ =>
      match loginToKnack env email MMU_PASSWORD with
      | Except.error message =>
        (submissionFailed message,
         [ConsentEvent.lookup email, ConsentEvent.write studentRecord.id consentData,
          ConsentEvent.login email MMU_PASSWORD])
      | Except.ok session =>
        ({ status := 200, headers := consentCorsHeaders,
           body := some
            { success := some true,
              message := some "Consent form submitted successfully",
              session := session,
              redirectUrl := some REDIRECT_URL } },
         [ConsentEvent.lookup email, ConsentEvent.write studentRecord.id consentData,
          ConsentEvent.login email MMU_PASSWORD])

/-- The exported handler of the consent module, with the upstream calls it
issued, oldest first. -/
def consentHandler (env : ConsentEnv) (req : ConsentRequest) :
    ConsentResponse × List ConsentEvent :=
  if req.method = "OPTIONS" then
    ({ status := 200, headers := consentCorsHeaders, body := none }, [])
  else if req.method ≠ "POST" then
    ({ status := 405, headers := [], body := some { error := some "Method not allowed" } }, [])
  else if !truthy env.envAppId || !truthy env.envApiKey then
    ({ status := 500, headers := consentCorsHeaders,
       body := some
        { error := some "Server configuration error",
          details := some "Missing Knack API credentials" } }, [])
  else
    match req.body.responses with
    | none =>
      ({ status := 400, headers := consentCorsHeaders,
         body := some
          { error := some "Missing required fields",
            details := some "All form fields must be completed" } }, [])
    | some responses =>
      if !req.body.email.truthy || !req.body.participantName.truthy || !req.body.date.truthy
          || !req.body.signatureData.truthy then
        ({ status := 400, headers := consentCorsHeaders,
           body := some
            { error := some "Missing required fields",
              details := some "All form fields must be completed" } }, [])
      else
        match req.body.email with
        | JsValue.str email =>
          let emailLower := env.toLowerCase email
          if !endsWith emailLower "@mmu.ac.uk" && !endsWith emailLower "@stu.mmu.ac.uk" then
            ({ status := 400, headers := consentCorsHeaders,
               body := some
                { error := some "Invalid email",
                  details := some "Please use your MMU email address" } }, [])
          else
            submitConsent env email req.body.participantName req.body.date responses
              req.body.signatureData
        | _ => (submissionFailed "email.toLowerCase is not a function", [])

/-- The function `toLowerCase` on ASCII text. -/
def lowerAscii (s : String) : String := String.mk (s.data.map Char.toLower)

/-- A consent environment with credentials, whose upstream holds the records
`records` under every email and accepts the write and the login. -/
def consentEnv (records : Option (List ConsentRecord)) : ConsentEnv :=
  { envAppId := some "app-id",
    envApiKey := some "api-key",
    toLowerCase := lowerAscii,
    lookup := fun _ => LookupResponse.ok records,
    write := fun _ _ => WriteResponse.ok,
    login := fun _ _ => LoginResponse.ok (some "token") }

/-- A complete consent submission from `email`. -/
def consentRequest (email : String) : ConsentRequest :=
  { method := "POST",
    body :=
      { email := JsValue.str email,
        participantName := JsValue.str "Ada Lovelace",
        date := JsValue.str "2025-03-01",
        responses := some
          { confirm_read := JsValue.bool true,
            time_to_consider := JsValue.bool true,
            free_to_withdraw := JsValue.bool true,
            agree_participate := JsValue.bool true,
            permission_research := JsValue.bool false },
        signatureData := JsValue.str "data:image/png;base64,iVBORw0KGgo=" } }

/-! ## Basic facts -/

section projections

theorem writesOf_append (jobId : String) (xs ys : List Event) :
    writesOf jobId (xs ++ ys) = writesOf jobId xs ++ writesOf jobId ys := by
  induction xs with
  | nil => rfl
  | cons e t ih =>
    cases e <;> simp [writesOf, ih]
    split <;> simp

theorem putsOf_append (xs ys : List Event) : putsOf (xs ++ ys) = putsOf xs ++ putsOf ys := by
  induction xs with
  | nil => rfl
  | cons e t ih => cases e <;> simp [putsOf, ih]

theorem getsOf_append (xs ys : List Event) : getsOf (xs ++ ys) = getsOf xs ++ getsOf ys := by
  induction xs with
  | nil => rfl
  | cons e t ih => cases e <;> simp [getsOf, ih]

theorem delaysOf_append (xs ys : List Event) :
    delaysOf (xs ++ ys) = delaysOf xs ++ delaysOf ys := by
  induction xs with
  | nil => rfl
  | cons e t ih => cases e <;> simp [delaysOf, ih]

theorem batchesOf_append (xs ys : List Event) :
    batchesOf (xs ++ ys) = batchesOf xs ++ batchesOf ys := by
  induction xs with
  | nil => rfl
  | cons e t ih => cases e <;> simp [batchesOf, ih]

end projections

section store

theorem lookup_setEntry_same (k : String) (j : Job) (es : List (String × Job)) :
    (setEntry k j es).lookup k = some j := by
  induction es with
  | nil => simp [setEntry, List.lookup]
  | cons e t ih =>
    obtain ⟨k0, j0⟩ := e
    by_cases h : k0 = k
    · simp [setEntry, h, List.lookup]
    · have h2 : (k == k0) = false := by
        simp only [beq_eq_false_iff_ne, ne_eq]
        exact fun h3 => h h3.symm
      simp [setEntry, h, List.lookup, h2, ih]

theorem lookup_setEntry_other (k k2 : String) (j : Job) (es : List (String × Job))
    (hne : k2 ≠ k) : (setEntry k j es).lookup k2 = es.lookup k2 := by
  induction es with
  | nil =>
    have h2 : (k2 == k) = false := by simpa using hne
    simp [setEntry, List.lookup, h2]
  | cons e t ih =>
    obtain ⟨k0, j0⟩ := e
    by_cases h : k0 = k
    · subst h
      have h2 : (k2 == k0) = false := by simpa using hne
      simp [setEntry, List.lookup, h2]
    · simp only [setEntry, h, if_false, List.lookup]
      cases hk : (k2 == k0) <;> simp [ih]

theorem JobStore.get_set_same (s : JobStore) (k : String) (j : Job) :
    (s.set k j).get k = some j := by
  simp [JobStore.get, JobStore.set, lookup_setEntry_same]

theorem JobStore.get_set_other (s : JobStore) (k k2 : String) (j : Job) (hne : k2 ≠ k) :
    (s.set k j).get k2 = s.get k2 := by
  simp [JobStore.get, JobStore.set, lookup_setEntry_other k k2 j s.entries hne]

theorem idealUpdate_events (env : Env) (jobId : String) (u : Job) (w : World) :
    (idealUpdate env jobId u w).events
      = w.events ++ [Event.write jobId ((current env jobId w).merge u)] := by
  unfold idealUpdate current World.store
  cases h : env.kv <;> simp

theorem idealUpdate_current (env : Env) (jobId : String) (u : Job) (w : World) :
    current env jobId (idealUpdate env jobId u w) = (current env jobId w).merge u := by
  unfold idealUpdate current World.store
  cases h : env.kv <;> simp [JobStore.get_set_same]

theorem idealUpdate_get (env : Env) (jobId : String) (u : Job) (w : World) :
    ((idealUpdate env jobId u w).store env).get jobId
      = some ((current env jobId w).merge u) := by
  unfold idealUpdate current World.store
  cases h : env.kv <;> simp [JobStore.get_set_same]

theorem idealUpdate_clock (env : Env) (jobId : String) (u : Job) (w : World) :
    (idealUpdate env jobId u w).clock = w.clock := by
  unfold idealUpdate
  cases h : env.kv <;> simp

theorem idealUpdate_puts (env : Env) (jobId : String) (u : Job) (w : World) :
    (idealUpdate env jobId u w).puts = w.puts := by
  unfold idealUpdate
  cases h : env.kv <;> simp

end store

section batch

theorem updateStudentRecord_world (env : Env) (recordId fieldName : String) (value : JsValue)
    (w : World) :
    (updateStudentRecord env recordId fieldName value w).2
      = { w with events := w.events ++ [Event.put recordId (putBody fieldName value)],
                 puts := w.puts + 1 } := by
  unfold updateStudentRecord
  cases env.putRecord w.puts recordId <;> rfl

theorem updateBatch_world (env : Env) (fieldName : String) (value : JsValue)
    (batch : List Student) (w : World) :
    (updateBatch env fieldName value batch w).2
      = { w with events := w.events ++ batch.map
                   (fun s => Event.put s.id (putBody fieldName value)),
                 puts := w.puts + batch.length } := by
  induction batch generalizing w with
  | nil => simp [updateBatch]
  | cons s rest ih =>
    simp only [updateBatch]
    split <;>
    · rw [updateStudentRecord_world, ih]
      simp only [List.map_cons, List.length_cons, List.append_assoc, List.singleton_append,
        World.mk.injEq, true_and]
      omega

theorem updateBatch_failures (env : Env) (fieldName : String) (value : JsValue)
    (batch : List Student) (w : World) :
    (updateBatch env fieldName value batch w).1 = failuresFrom env w.puts batch := by
  induction batch generalizing w with
  | nil => simp [updateBatch, failuresFrom]
  | cons s rest ih =>
    simp only [updateBatch, failuresFrom]
    rw [updateStudentRecord_world, ih]
    unfold updateStudentRecord
    cases hr : env.putRecord w.puts s.id <;> simp [putError, ih]

theorem failuresFrom_append (env : Env) (k : Nat) (xs ys : List Student) :
    failuresFrom env k (xs ++ ys)
      = failuresFrom env k xs ++ failuresFrom env (k + xs.length) ys := by
  induction xs generalizing k with
  | nil => simp [failuresFrom]
  | cons s rest ih =>
    simp only [List.cons_append, failuresFrom, List.length_cons]
    have h := ih (k + 1)
    have e : k + 1 + rest.length = k + (rest.length + 1) := by omega
    rw [e] at h
    cases putError s.id (env.putRecord k s.id) <;> simp [h]

end batch

section loop

variable (env : Env) (jobId fieldName : String) (value : JsValue) (students : List Student)

theorem slice_length {α : Type} (xs : List α) (i : Nat) :
    (slice xs i (i + BATCH_SIZE)).length = min BATCH_SIZE (xs.length - i) := by
  simp only [slice, List.length_drop, List.length_take]
  omega

theorem take_append_slice {α : Type} (xs : List α) (i c : Nat) :
    xs.take i ++ slice xs i (i + c) = xs.take (i + c) := by
  rw [slice, List.drop_take, List.take_add]
  simp

theorem current_of_store_eq (w w2 : World) (hk : w2.kvData = w.kvData)
    (hj : w2.jobs = w.jobs) : current env jobId w2 = current env jobId w := by
  simp [current, World.store, hk, hj]

theorem current_log (w : World) (e : Event) :
    current env jobId (w.log e) = current env jobId w :=
  current_of_store_eq env jobId w (w.log e) rfl rfl

theorem current_tick (w : World) :
    current env jobId { w with clock := w.clock + 1 } = current env jobId w :=
  current_of_store_eq env jobId w _ rfl rfl

theorem idealStep_world_events (s : LoopState) :
    (idealStep env jobId fieldName value students s).world.events
      = s.world.events ++ (Event.batch (slice students s.i (s.i + BATCH_SIZE))
        :: ((slice students s.i (s.i + BATCH_SIZE)).map
              (fun r => Event.put r.id (putBody fieldName value))
        ++ (Event.write jobId ((current env jobId s.world).merge (stepUpdates env students s))
        :: (if s.i + BATCH_SIZE < students.length then
              [Event.delay DELAY_BETWEEN_BATCHES] else [])))) := by
  have hc : current env jobId
      (updateBatch env fieldName value (slice students s.i (s.i + BATCH_SIZE))
        (s.world.log (Event.batch (slice students s.i (s.i + BATCH_SIZE))))).2
      = current env jobId s.world := by
    apply current_of_store_eq <;> simp [updateBatch_world, World.log]
  unfold idealStep stepUpdates
  by_cases h : s.i + BATCH_SIZE < students.length
  · simp [h, World.log, idealUpdate_events, hc, updateBatch_failures]
    simp [updateBatch_world, World.log, current, World.store]
  · simp [h, World.log, idealUpdate_events, hc, updateBatch_failures]
    simp [updateBatch_world, World.log, current, World.store]

theorem idealStep_world_puts (s : LoopState) :
    (idealStep env jobId fieldName value students s).world.puts
      = s.world.puts + (slice students s.i (s.i + BATCH_SIZE)).length := by
  unfold idealStep
  by_cases h : s.i + BATCH_SIZE < students.length <;>
    simp [h, World.log, idealUpdate_puts, updateBatch_world]

theorem idealStep_world_clock (s : LoopState) :
    (idealStep env jobId fieldName value students s).world.clock = s.world.clock := by
  unfold idealStep
  by_cases h : s.i + BATCH_SIZE < students.length <;>
    simp [h, World.log, idealUpdate_clock, updateBatch_world]

theorem idealStep_current (s : LoopState) :
    current env jobId (idealStep env jobId fieldName value students s).world
      = (current env jobId s.world).merge (stepUpdates env students s) := by
  have hc : current env jobId
      (updateBatch env fieldName value (slice students s.i (s.i + BATCH_SIZE))
        (s.world.log (Event.batch (slice students s.i (s.i + BATCH_SIZE))))).2
      = current env jobId s.world := by
    apply current_of_store_eq <;> simp [updateBatch_world, World.log]
  unfold idealStep stepUpdates
  by_cases h : s.i + BATCH_SIZE < students.length
  · simp only [h, if_true]
    rw [current_log, idealUpdate_current, hc, updateBatch_failures]
    simp [World.log]
  · simp only [h, if_false]
    rw [idealUpdate_current, hc, updateBatch_failures]
    simp [World.log]

theorem loopAt_start (w0 : World) :
    LoopAt env jobId fieldName value students w0 0
      { i := 0, processedCount := 0, errors := [], world := w0 } where
  i_eq := by simp
  reach := Or.inl rfl
  count_eq := by simp
  errors_eq := rfl
  puts_eq := by simp
  clock_eq := rfl
  events_eq := by simp [loopEvents]
  current_eq := rfl

theorem loopAt_step (w0 : World) (k : Nat) (s : LoopState)
    (h : LoopAt env jobId fieldName value students w0 k s)
    (hlt : BATCH_SIZE * k < students.length) :
    LoopAt env jobId fieldName value students w0 (k + 1)
      (idealStep env jobId fieldName value students s) := by
  have hi := h.i_eq
  have hdiv : s.i / BATCH_SIZE = k := by
    rw [hi]; exact Nat.mul_div_cancel_left k (by decide)
  have hlen : (slice students s.i (s.i + BATCH_SIZE)).length
      = min BATCH_SIZE (students.length - s.i) := slice_length students s.i
  have hcount : s.processedCount + (slice students s.i (s.i + BATCH_SIZE)).length
      = min (BATCH_SIZE * (k + 1)) students.length := by
    rw [hlen, h.count_eq, hi]; simp only [BATCH_SIZE] at *; omega
  have hbatch : slice students s.i (s.i + BATCH_SIZE) = batchAt students k := by
    rw [batchAt, hi]
  have hputs : s.world.puts = w0.puts + BATCH_SIZE * k := by
    rw [h.puts_eq]; simp only [BATCH_SIZE] at *; omega
  have hupd : stepUpdates env students s = updatesAfter env w0.puts students (k + 1) := by
    unfold stepUpdates
    rw [hcount, hdiv, hbatch, hputs, h.errors_eq]
    rfl
  constructor
  · show s.i + BATCH_SIZE = BATCH_SIZE * (k + 1)
    rw [hi]; simp only [BATCH_SIZE]; omega
  · right; simpa using hlt
  · show s.processedCount + (slice students s.i (s.i + BATCH_SIZE)).length = _
    exact hcount
  · show s.errors ++ env.settle (s.i / BATCH_SIZE)
        (updateBatch env fieldName value (slice students s.i (s.i + BATCH_SIZE))
          (s.world.log (Event.batch (slice students s.i (s.i + BATCH_SIZE))))).1 = _
    rw [updateBatch_failures, hdiv, hbatch, h.errors_eq]
    simp [World.log, hputs, errorsAfter]
  · rw [idealStep_world_puts, hlen, h.puts_eq, hi]
    simp only [BATCH_SIZE] at *; omega
  · rw [idealStep_world_clock, h.clock_eq]
  · rw [idealStep_world_events, hupd, h.current_eq, h.events_eq, hbatch, hi]
    simp [loopEvents, iterationEvents, jobAfter]
  · rw [idealStep_current, hupd, h.current_eq]
    rfl

/-- The loop runs to its end whenever the fuel covers the remaining batches,
and the state it returns is the closed description at `batchCount`. -/
theorem idealBatches_loopAt (w0 : World) :
    ∀ (fuel k : Nat) (s : LoopState),
      LoopAt env jobId fieldName value students w0 k s →
      students.length ≤ BATCH_SIZE * (k + fuel) →
      ∃ r, idealBatches env jobId fieldName value students fuel s = some r
        ∧ LoopAt env jobId fieldName value students w0 (batchCount students.length) r := by
  intro fuel
  induction fuel with
  | zero =>
    intro k s h hf
    have hi := h.i_eq
    have hnot : ¬ s.i < students.length := by
      rw [hi]; simp only [Nat.add_zero] at hf; omega
    refine ⟨s, by simp [idealBatches, hnot], ?_⟩
    have hk : batchCount students.length = k := by
      have hr := h.reach
      simp only [batchCount, BATCH_SIZE] at *
      omega
    rw [hk]; exact h
  | succ fuel ih =>
    intro k s h hf
    have hi := h.i_eq
    by_cases hlt : s.i < students.length
    · have h2 := loopAt_step env jobId fieldName value students w0 k s h (by rw [← hi]; exact hlt)
      obtain ⟨r, hr, hat⟩ := ih (k + 1) _ h2 (by
        have e : k + 1 + fuel = k + (fuel + 1) := by omega
        rw [e]; exact hf)
      exact ⟨r, by simp [idealBatches, hlt, hr], hat⟩
    · refine ⟨s, by simp [idealBatches, hlt], ?_⟩
      have hk : batchCount students.length = k := by
        have hr := h.reach
        simp only [batchCount, BATCH_SIZE] at *
        omega
      rw [hk]; exact h

/-- The batch loop started from index 0. -/
theorem idealBatches_spec (w0 : World) (fuel : Nat)
    (hfuel : students.length ≤ BATCH_SIZE * fuel) :
    ∃ r, idealBatches env jobId fieldName value students fuel
          { i := 0, processedCount := 0, errors := [], world := w0 } = some r
      ∧ LoopAt env jobId fieldName value students w0 (batchCount students.length) r :=
  idealBatches_loopAt env jobId fieldName value students w0 fuel 0 _
    (loopAt_start env jobId fieldName value students w0) (by simpa using hfuel)

/-- A loop that returns had fuel for all its batches. -/
theorem idealBatches_fuel_of_some (w0 : World) :
    ∀ (fuel k : Nat) (s r : LoopState),
      LoopAt env jobId fieldName value students w0 k s →
      idealBatches env jobId fieldName value students fuel s = some r →
      students.length ≤ BATCH_SIZE * (k + fuel) := by
  intro fuel
  induction fuel with
  | zero =>
    intro k s r h hr
    have hi := h.i_eq
    by_cases hlt : s.i < students.length
    · simp [idealBatches, hlt] at hr
    · rw [hi] at hlt
      simp only [Nat.add_zero]
      omega
  | succ fuel ih =>
    intro k s r h hr
    have hi := h.i_eq
    by_cases hlt : s.i < students.length
    · have h2 := loopAt_step env jobId fieldName value students w0 k s h (by rw [← hi]; exact hlt)
      simp only [idealBatches, hlt, if_true] at hr
      have h3 := ih (k + 1) _ r h2 hr
      have e : k + 1 + fuel = k + (fuel + 1) := by omega
      rw [e] at h3; exact h3
    · rw [hi] at hlt
      have : BATCH_SIZE * k ≤ BATCH_SIZE * (k + (fuel + 1)) :=
        Nat.mul_le_mul_left _ (Nat.le_add_right _ _)
      omega

end loop

section fetch

variable (env : Env) (schoolId : String)

theorem pageRequests_one (page : Nat) :
    pageRequests schoolId page 1 = [Event.get schoolId page rowsPerPage] := by
  simp [pageRequests]

theorem pageRequests_succ (page cnt : Nat) :
    pageRequests schoolId page (cnt + 1)
      = Event.get schoolId page rowsPerPage :: pageRequests schoolId (page + 1) cnt := by
  simp [pageRequests, List.range'_succ]

/-- A fetch only appends the GETs of consecutive pages to the log, and its
result does not depend on the world it starts in. -/
theorem fetchLoop_world :
    ∀ (fuel page : Nat) (acc : List Student) (w : World)
      (r : Except String (List Student)) (w1 : World),
      fetchLoop env schoolId fuel page acc w = some (r, w1) →
      ∃ cnt, 1 ≤ cnt ∧ cnt ≤ fuel
        ∧ w1 = { w with events := w.events ++ pageRequests schoolId page cnt }
        ∧ ∀ w2 : World, fetchLoop env schoolId fuel page acc w2
            = some (r, { w2 with events := w2.events ++ pageRequests schoolId page cnt }) := by
  intro fuel
  induction fuel with
  | zero => intro page acc w r w1 h; simp [fetchLoop] at h
  | succ fuel ih =>
    intro page acc w r w1 h
    unfold fetchLoop at h
    cases hresp : env.getPage page with
    | threw msg =>
      simp only [hresp, Option.some.injEq, Prod.mk.injEq] at h
      refine ⟨1, le_refl 1, by omega, ?_, ?_⟩
      · rw [← h.2, pageRequests_one]; rfl
      · intro w2; unfold fetchLoop; simp [hresp, h.1, pageRequests_one, World.log]
    | notOk st =>
      simp only [hresp, Option.some.injEq, Prod.mk.injEq] at h
      refine ⟨1, le_refl 1, by omega, ?_, ?_⟩
      · rw [← h.2, pageRequests_one]; rfl
      · intro w2; unfold fetchLoop; simp [hresp, h.1, pageRequests_one, World.log]
    | ok recs =>
      cases recs with
      | none =>
        simp only [hresp, Option.some.injEq, Prod.mk.injEq] at h
        refine ⟨1, le_refl 1, by omega, ?_, ?_⟩
        · rw [← h.2, pageRequests_one]; rfl
        · intro w2; unfold fetchLoop; simp [hresp, h.1, pageRequests_one, World.log]
      | some records =>
        simp only [hresp] at h
        by_cases hpos : records.length > 0
        · by_cases hfull : records.length = rowsPerPage
          · simp only [hpos, hfull, if_true] at h
            obtain ⟨cnt, h1, h2, h3, h4⟩ := ih _ _ _ _ _ h
            refine ⟨cnt + 1, by omega, by omega, ?_, ?_⟩
            · rw [h3, pageRequests_succ]; simp [World.log]
            · intro w2
              unfold fetchLoop
              simp only [hresp, hpos, hfull, if_true]
              rw [h4, pageRequests_succ]; simp [World.log]
              intro h0
              simp [rowsPerPage] at h0
          · simp only [hpos, hfull, if_true, if_false, Option.some.injEq, Prod.mk.injEq] at h
            refine ⟨1, le_refl 1, by omega, ?_, ?_⟩
            · rw [← h.2, pageRequests_one]; rfl
            · intro w2; unfold fetchLoop
              simp [hresp, hpos, hfull, h.1, pageRequests_one, World.log]
        · simp only [hpos, if_false, Option.some.injEq, Prod.mk.injEq] at h
          refine ⟨1, le_refl 1, by omega, ?_, ?_⟩
          · rw [← h.2, pageRequests_one]; rfl
          · intro w2; unfold fetchLoop
            simp [hresp, hpos, h.1, pageRequests_one, World.log]

theorem slice_length_le {α : Type} (xs : List α) (a b : Nat) :
    (slice xs a b).length = min b xs.length - a := by
  simp [slice, List.length_drop, List.length_take]

theorem take_append_slice_le {α : Type} (xs : List α) (a b : Nat) (hab : a ≤ b) :
    xs.take a ++ slice xs a b = xs.take b := by
  obtain ⟨c, rfl⟩ := Nat.exists_eq_add_of_le hab
  exact take_append_slice xs a c

theorem getsOf_pageRequests (page cnt : Nat) :
    getsOf (pageRequests schoolId page cnt) = List.range' page cnt := by
  induction cnt generalizing page with
  | zero => simp [pageRequests, getsOf]
  | succ cnt ih => rw [pageRequests_succ, getsOf, ih, List.range'_succ]

/-- Against an upstream serving `records` in pages of 1000, the loop entered
at page `page` with the earlier pages accumulated returns `records`, after
requesting every page up to the first short one. -/
theorem fetchLoop_serves (records : List Student) (hs : servesPages env records) :
    ∀ (fuel page : Nat) (w : World),
      1 ≤ page → rowsPerPage * (page - 1) ≤ records.length →
      records.length / rowsPerPage + 2 ≤ page + fuel →
      fetchLoop env schoolId fuel page (records.take (rowsPerPage * (page - 1))) w
        = some (Except.ok records,
            { w with events := w.events
                ++ pageRequests schoolId page (records.length / rowsPerPage + 2 - page) }) := by
  intro fuel
  induction fuel with
  | zero =>
    intro page w h1 h2 h3
    simp only [rowsPerPage] at *
    omega
  | succ fuel ih =>
    intro page w h1 h2 h3
    unfold fetchLoop
    rw [hs page h1]
    have hlen := slice_length_le records (rowsPerPage * (page - 1)) (rowsPerPage * page)
    have hle : rowsPerPage * (page - 1) ≤ rowsPerPage * page :=
      Nat.mul_le_mul_left _ (Nat.sub_le _ _)
    have happ := take_append_slice_le records _ _ hle
    by_cases hpos : (slice records (rowsPerPage * (page - 1)) (rowsPerPage * page)).length > 0
    · by_cases hfull :
          (slice records (rowsPerPage * (page - 1)) (rowsPerPage * page)).length = rowsPerPage
      · simp only [hpos, hfull, if_true]
        rw [happ]
        have hnext := ih (page + 1) (w.log (Event.get schoolId page rowsPerPage)) (by omega)
          (by
            rw [hfull] at hlen
            simp only [rowsPerPage, Nat.add_sub_cancel] at *
            omega)
          (by omega)
        rw [Nat.add_sub_cancel] at hnext
        rw [hnext]
        have hc : records.length / rowsPerPage + 2 - page
            = (records.length / rowsPerPage + 2 - (page + 1)) + 1 := by
          rw [hfull] at hlen
          simp only [rowsPerPage] at *
          omega
        rw [hc, pageRequests_succ]
        simp [World.log]
        intro h0
        simp [rowsPerPage] at h0
      · simp only [hpos, hfull, if_true, if_false]
        have hc : records.length / rowsPerPage + 2 - page = 1 := by
          simp only [rowsPerPage] at *
          omega
        have hall : records.take (rowsPerPage * page) = records := by
          apply List.take_of_length_le
          simp only [rowsPerPage] at *
          omega
        rw [happ, hall, hc, pageRequests_one]
        rfl
    · simp only [hpos, if_false]
      have hc : records.length / rowsPerPage + 2 - page = 1 := by
        simp only [rowsPerPage] at *
        omega
      have hall : records.take (rowsPerPage * (page - 1)) = records := by
        apply List.take_of_length_le
        simp only [rowsPerPage] at *
        omega
      rw [hall, hc, pageRequests_one]
      rfl

theorem batchesOf_pageRequests (page cnt : Nat) :
    batchesOf (pageRequests schoolId page cnt) = [] := by
  induction cnt generalizing page with
  | zero => rfl
  | succ cnt ih =>
    rw [pageRequests_succ]
    simpa only [batchesOf] using ih (page + 1)

theorem putsOf_pageRequests (page cnt : Nat) :
    putsOf (pageRequests schoolId page cnt) = [] := by
  induction cnt generalizing page with
  | zero => rfl
  | succ cnt ih =>
    rw [pageRequests_succ]
    simpa only [putsOf] using ih (page + 1)

theorem writesOf_pageRequests (jobId : String) (page cnt : Nat) :
    writesOf jobId (pageRequests schoolId page cnt) = [] := by
  induction cnt generalizing page with
  | zero => rfl
  | succ cnt ih =>
    rw [pageRequests_succ]
    simpa only [writesOf] using ih (page + 1)

theorem delaysOf_pageRequests (page cnt : Nat) :
    delaysOf (pageRequests schoolId page cnt) = [] := by
  induction cnt generalizing page with
  | zero => rfl
  | succ cnt ih =>
    rw [pageRequests_succ]
    simpa only [delaysOf] using ih (page + 1)

/-- Against an upstream serving `records` in pages of 1000, the fetch returns
`records` after `floor(n / 1000) + 1` requests, for any fuel covering them. -/
theorem fetchAllStudents_serves (records : List Student) (hs : servesPages env records)
    (fuel : Nat) (w : World) (hf : records.length / rowsPerPage + 1 ≤ fuel) :
    fetchAllStudents env fuel schoolId w
      = some (Except.ok records,
          { w with events := w.events
              ++ pageRequests schoolId 1 (records.length / rowsPerPage + 1) }) := by
  have h := fetchLoop_serves env schoolId records hs fuel 1 w (le_refl 1) (by simp) (by omega)
  simpa [fetchAllStudents] using h

theorem sampleEnv_serves (records : List Student) (put : Nat → String → PutResponse) :
    servesPages (sampleEnv records put) records :=
  fun _ _ => rfl

theorem sampleStudents_length (n : Nat) : (sampleStudents n).length = n := by
  simp [sampleStudents]

/-- A failed fetch: the pages before the last requested one were full, and
the last one was answered by the failure reported. -/
theorem fetchLoop_error_cause :
    ∀ (fuel page : Nat) (acc : List Student) (w : World) (msg : String) (w1 : World),
      fetchLoop env schoolId fuel page acc w = some (Except.error msg, w1) →
      ∃ cnt, 1 ≤ cnt
        ∧ w1 = { w with events := w.events ++ pageRequests schoolId page cnt }
        ∧ (env.getPage (page + cnt - 1) = GetResponse.threw msg
            ∨ ∃ st, env.getPage (page + cnt - 1) = GetResponse.notOk st
                ∧ msg = "Failed to fetch students: " ++ st)
        ∧ ∀ p, page ≤ p → p < page + cnt - 1 →
            ∃ recs, env.getPage p = GetResponse.ok (some recs) ∧ recs.length = rowsPerPage := by
  intro fuel
  induction fuel with
  | zero => intro page acc w msg w1 h; simp [fetchLoop] at h
  | succ fuel ih =>
    intro page acc w msg w1 h
    unfold fetchLoop at h
    cases hresp : env.getPage page with
    | threw m =>
      simp only [hresp, Option.some.injEq, Prod.mk.injEq, Except.error.injEq] at h
      refine ⟨1, le_refl 1, ?_, ?_, ?_⟩
      · rw [← h.2, pageRequests_one]; rfl
      · left; rw [Nat.add_sub_cancel, hresp, h.1]
      · intro p h1 h2; omega
    | notOk st =>
      simp only [hresp, Option.some.injEq, Prod.mk.injEq, Except.error.injEq] at h
      refine ⟨1, le_refl 1, ?_, ?_, ?_⟩
      · rw [← h.2, pageRequests_one]; rfl
      · right; exact ⟨st, by rw [Nat.add_sub_cancel, hresp], h.1.symm⟩
      · intro p h1 h2; omega
    | ok recs =>
      cases recs with
      | none => simp [hresp] at h
      | some records =>
        simp only [hresp] at h
        by_cases hpos : records.length > 0
        · by_cases hfull : records.length = rowsPerPage
          · have hrp : rowsPerPage > 0 := by decide
            simp only [hfull, hrp, if_true] at h
            obtain ⟨cnt, h1, h2, h3, h4⟩ := ih _ _ _ _ _ h
            refine ⟨cnt + 1, by omega, ?_, ?_, ?_⟩
            · rw [h2, pageRequests_succ]; simp [World.log]
            · have e : page + (cnt + 1) - 1 = page + 1 + cnt - 1 := by omega
              rw [e]; exact h3
            · intro p hp1 hp2
              by_cases hp : p = page
              · exact ⟨records, by rw [hp, hresp], hfull⟩
              · exact h4 p (by omega) (by omega)
          · simp [hpos, hfull] at h
        · simp [hpos] at h

end fetch

section description

variable (env : Env) (jobId fieldName : String) (value : JsValue) (p0 : Nat)
  (students : List Student) (cur0 : Job)

theorem putsOf_map_put (b : List Student) :
    putsOf (b.map (fun s => Event.put s.id (putBody fieldName value)))
      = b.map (fun s => (s.id, putBody fieldName value)) := by
  induction b with
  | nil => rfl
  | cons s rest ih => simp [putsOf, ih]

theorem batchesOf_map_put (b : List Student) :
    batchesOf (b.map (fun s => Event.put s.id (putBody fieldName value))) = [] := by
  induction b with
  | nil => rfl
  | cons s rest ih => simp [batchesOf, ih]

theorem writesOf_map_put (b : List Student) :
    writesOf jobId (b.map (fun s => Event.put s.id (putBody fieldName value))) = [] := by
  induction b with
  | nil => rfl
  | cons s rest ih => simp [writesOf, ih]

theorem getsOf_map_put (b : List Student) :
    getsOf (b.map (fun s => Event.put s.id (putBody fieldName value))) = [] := by
  induction b with
  | nil => rfl
  | cons s rest ih => simp [getsOf, ih]

theorem batchesOf_loopEvents (k : Nat) :
    batchesOf (loopEvents env jobId fieldName value p0 students cur0 k)
      = (List.range k).map (batchAt students) := by
  induction k with
  | zero => rfl
  | succ k ih =>
    rw [loopEvents, batchesOf_append, ih, List.range_succ, List.map_append]
    congr 1
    unfold iterationEvents
    by_cases h : BATCH_SIZE * k + BATCH_SIZE < students.length <;>
      simp [h, batchesOf, batchesOf_append, batchesOf_map_put]

theorem putsOf_loopEvents (k : Nat) :
    putsOf (loopEvents env jobId fieldName value p0 students cur0 k)
      = (students.take (BATCH_SIZE * k)).map (fun s => (s.id, putBody fieldName value)) := by
  induction k with
  | zero => simp [loopEvents, putsOf]
  | succ k ih =>
    have ht : students.take (BATCH_SIZE * (k + 1))
        = students.take (BATCH_SIZE * k) ++ batchAt students k := by
      rw [batchAt, take_append_slice, Nat.mul_succ]
    rw [loopEvents, putsOf_append, ih, ht, List.map_append]
    congr 1
    unfold iterationEvents
    by_cases h : BATCH_SIZE * k + BATCH_SIZE < students.length <;>
      simp [h, putsOf, putsOf_append, putsOf_map_put]

theorem writesOf_loopEvents (k : Nat) :
    writesOf jobId (loopEvents env jobId fieldName value p0 students cur0 k)
      = (List.range k).map (fun j => jobAfter env p0 students cur0 (j + 1)) := by
  induction k with
  | zero => rfl
  | succ k ih =>
    rw [loopEvents, writesOf_append, ih, List.range_succ, List.map_append]
    congr 1
    unfold iterationEvents
    by_cases h : BATCH_SIZE * k + BATCH_SIZE < students.length <;>
      simp [h, writesOf, writesOf_append, writesOf_map_put]

theorem getsOf_loopEvents (k : Nat) :
    getsOf (loopEvents env jobId fieldName value p0 students cur0 k) = [] := by
  induction k with
  | zero => rfl
  | succ k ih =>
    rw [loopEvents, getsOf_append, ih]
    unfold iterationEvents
    by_cases h : BATCH_SIZE * k + BATCH_SIZE < students.length <;>
      simp [h, getsOf, getsOf_append, getsOf_map_put]

theorem jobAfter_totalRecords (k : Nat) :
    (jobAfter env p0 students cur0 k).totalRecords = cur0.totalRecords := by
  induction k with
  | zero => rfl
  | succ k ih => simpa [jobAfter, Job.merge, updatesAfter, pick] using ih

theorem jobAfter_status (k : Nat) :
    (jobAfter env p0 students cur0 k).status = cur0.status := by
  induction k with
  | zero => rfl
  | succ k ih => simpa [jobAfter, Job.merge, updatesAfter, pick] using ih

theorem jobAfter_processedRecords (k : Nat) :
    (jobAfter env p0 students cur0 (k + 1)).processedRecords
      = some (min (BATCH_SIZE * (k + 1)) students.length) := by
  simp [jobAfter, Job.merge, updatesAfter, pick]

theorem jobAfter_progress (k : Nat) :
    (jobAfter env p0 students cur0 (k + 1)).progress
      = some (progressPercent (min (BATCH_SIZE * (k + 1)) students.length)
          students.length) := by
  simp [jobAfter, Job.merge, updatesAfter, pick]

theorem jobAfter_errors (k : Nat) :
    (jobAfter env p0 students cur0 (k + 1)).errors
      = some (errorsAfter env p0 students (k + 1)) := by
  simp [jobAfter, Job.merge, updatesAfter, pick]

theorem batchCount_covers (n : Nat) : n ≤ BATCH_SIZE * batchCount n := by
  simp only [batchCount, BATCH_SIZE]
  omega

end description

section run

variable (env : Env) (fuel : Nat) (jobId schoolId fieldName : String) (value : JsValue)

theorem fetchAllStudents_frame (w w1 : World) (r : Except String (List Student))
    (h : fetchAllStudents env fuel schoolId w = some (r, w1)) :
    ∃ cnt, 1 ≤ cnt ∧ w1 = { w with events := w.events ++ pageRequests schoolId 1 cnt } := by
  obtain ⟨cnt, h1, _, h3, _⟩ := fetchLoop_world env schoolId fuel 1 [] w r w1 h
  exact ⟨cnt, h1, h3⟩

/-- A run whose fetch returns a non-empty list: the result and the log. -/
theorem idealRun_nonempty (w w1 : World) (students : List Student)
    (hfetch : fetchAllStudents env fuel schoolId w = some (Except.ok students, w1))
    (hne : students.length ≠ 0) (hfuel : students.length ≤ BATCH_SIZE * fuel) :
    ∃ wf, idealRun env fuel jobId schoolId fieldName value w
        = some (Except.ok (), wf)
      ∧ wf.events = w1.events
          ++ (Event.write jobId (startedJob env jobId w1 students.length)
          :: (loopEvents env jobId fieldName value w1.puts students
                (startedJob env jobId w1 students.length) (batchCount students.length)
          ++ [Event.write jobId (completedJob env jobId w1 students)]))
      ∧ (wf.store env).get jobId = some (completedJob env jobId w1 students)
      ∧ wf.clock = w1.clock + 1
      ∧ wf.puts = w1.puts + students.length := by
  obtain ⟨r, hr, hat⟩ := idealBatches_spec env jobId fieldName value students
    (idealUpdate env jobId
      { totalRecords := some students.length, status := some "processing" } w1) fuel hfuel
  have hcov := batchCount_covers students.length
  have hcur : current env jobId (idealUpdate env jobId
      { totalRecords := some students.length, status := some "processing" } w1)
      = startedJob env jobId w1 students.length := idealUpdate_current _ _ _ _
  have hcount : r.processedCount = students.length := by
    rw [hat.count_eq]; exact Nat.min_eq_right hcov
  have hfin : (current env jobId r.world).merge (finalUpdates env students r)
      = completedJob env jobId w1 students := by
    unfold finalUpdates
    rw [hat.current_eq, hat.errors_eq, hat.clock_eq, hcount, hcur, idealUpdate_puts,
      idealUpdate_clock]
    rfl
  have hrun : idealRun env fuel jobId schoolId fieldName value w
      = some (Except.ok (),
          idealUpdate env jobId (finalUpdates env students r) (readClock env r.world).2) := by
    unfold idealRun
    simp only [hfetch, hne, if_false, hr]
    rfl
  refine ⟨_, hrun, ?_, ?_, ?_, ?_⟩
  · simp only [readClock]
    rw [idealUpdate_events]
    simp only []
    rw [current_tick, hfin, hat.events_eq,
      idealUpdate_events, idealUpdate_puts, hcur]
    simp [startedJob]
  · simp only [readClock]
    rw [idealUpdate_get, current_tick, hfin]
  · simp only [readClock]
    rw [idealUpdate_clock]
    simp [hat.clock_eq, idealUpdate_clock]
  · simp only [readClock]
    rw [idealUpdate_puts]
    simp only []
    rw [hat.puts_eq, idealUpdate_puts, Nat.min_eq_right hcov]

/-- A run whose fetch returns no record: the result and the log. -/
theorem idealRun_empty (w w1 : World) (students : List Student)
    (hfetch : fetchAllStudents env fuel schoolId w = some (Except.ok students, w1))
    (h0 : students.length = 0) :
    ∃ wf, idealRun env fuel jobId schoolId fieldName value w
        = some (Except.ok (), wf)
      ∧ wf.events = w1.events
          ++ [Event.write jobId (startedJob env jobId w1 0),
              Event.write jobId (emptyJob env jobId w1)]
      ∧ (wf.store env).get jobId = some (emptyJob env jobId w1)
      ∧ wf.clock = w1.clock + 1
      ∧ wf.puts = w1.puts := by
  have hrun : idealRun env fuel jobId schoolId fieldName value w
      = some (Except.ok (),
          idealUpdate env jobId
            { status := some "completed",
              message := some "No student records found for this school",
              endTime := some (env.now w1.clock) }
            (readClock env (idealUpdate env jobId
              { totalRecords := some 0, status := some "processing" } w1)).2) := by
    unfold idealRun
    simp only [hfetch, h0, if_true, readClock, idealUpdate_clock]
  refine ⟨_, hrun, ?_, ?_, ?_, ?_⟩
  · simp only [readClock]
    rw [idealUpdate_events]
    simp only []
    rw [current_tick, idealUpdate_current, idealUpdate_events]
    simp [startedJob, emptyJob]
  · simp only [readClock]
    rw [idealUpdate_get, current_tick, idealUpdate_current]
    rfl
  · simp only [readClock]
    rw [idealUpdate_clock]
    simp [idealUpdate_clock]
  · simp only [readClock]
    rw [idealUpdate_puts]
    simp [idealUpdate_puts]

/-- A run whose fetch fails: the result and the log. -/
theorem idealRun_failed (w w1 : World) (msg : String)
    (hfetch : fetchAllStudents env fuel schoolId w = some (Except.error msg, w1)) :
    ∃ wf, idealRun env fuel jobId schoolId fieldName value w
        = some (Except.error msg, wf)
      ∧ wf.events = w1.events ++ [Event.write jobId (failedJob env jobId w1 msg)]
      ∧ (wf.store env).get jobId = some (failedJob env jobId w1 msg)
      ∧ current env jobId wf = failedJob env jobId w1 msg
      ∧ wf.clock = w1.clock + 1
      ∧ wf.puts = w1.puts := by
  have hrun : idealRun env fuel jobId schoolId fieldName value w
      = some (Except.error msg,
          idealUpdate env jobId
            { status := some "failed", error := some msg, endTime := some (env.now w1.clock) }
            (readClock env w1).2) := by
    unfold idealRun
    simp only [hfetch, readClock]
  refine ⟨_, hrun, ?_, ?_, ?_, ?_, ?_⟩
  · simp only [readClock]
    rw [idealUpdate_events, current_tick]
    rfl
  · simp only [readClock]
    rw [idealUpdate_get, current_tick]
    rfl
  · simp only [readClock]
    rw [idealUpdate_current, current_tick]
    rfl
  · simp only [readClock]
    rw [idealUpdate_clock]
  · simp only [readClock]
    rw [idealUpdate_puts]

theorem createJob_id (body : RequestBody) (w : World) :
    (createJob env schoolId fieldName body w).1 = newJobId env w := rfl

theorem createJob_events (body : RequestBody) (w : World) :
    (createJob env schoolId fieldName body w).2.events
      = w.events ++ [Event.write (newJobId env w) (initialJob env schoolId fieldName body w)] := by
  unfold createJob
  cases h : env.kv <;> simp [readClock, newJobId, initialJob]

theorem createJob_current (body : RequestBody) (w : World) :
    current env (newJobId env w) (createJob env schoolId fieldName body w).2
      = initialJob env schoolId fieldName body w := by
  unfold createJob current World.store
  cases h : env.kv <;>
    simp [readClock, newJobId, initialJob, JobStore.get_set_same]

theorem createJob_get (body : RequestBody) (w : World) :
    ((createJob env schoolId fieldName body w).2.store env).get (newJobId env w)
      = some (initialJob env schoolId fieldName body w) := by
  unfold createJob World.store
  cases h : env.kv <;>
    simp [readClock, newJobId, initialJob, JobStore.get_set_same]

theorem createJob_clock (body : RequestBody) (w : World) :
    (createJob env schoolId fieldName body w).2.clock = w.clock + 2 := by
  unfold createJob
  cases h : env.kv <;> simp [readClock]

theorem createJob_puts (body : RequestBody) (w : World) :
    (createJob env schoolId fieldName body w).2.puts = w.puts := by
  unfold createJob
  cases h : env.kv <;> simp [readClock]

end run

section errors

variable (env : Env)

theorem errorsAfter_perm (hperm : ∀ b es, (env.settle b es).Perm es) (p0 : Nat)
    (students : List Student) (k : Nat) :
    (errorsAfter env p0 students k).Perm
      (failuresFrom env p0 (students.take (BATCH_SIZE * k))) := by
  induction k with
  | zero => simp [errorsAfter, failuresFrom]
  | succ k ih =>
    have ht : students.take (BATCH_SIZE * (k + 1))
        = students.take (BATCH_SIZE * k) ++ batchAt students k := by
      rw [batchAt, take_append_slice, Nat.mul_succ]
    rw [errorsAfter, ht, failuresFrom_append]
    apply List.Perm.append ih
    by_cases hle : BATCH_SIZE * k ≤ students.length
    · rw [List.length_take, Nat.min_eq_left hle]
      exact hperm _ _
    · have hnil : batchAt students k = [] := by
        apply List.eq_nil_of_length_eq_zero
        rw [batchAt, slice_length]
        omega
      rw [hnil]
      simp only [failuresFrom]
      exact hperm _ _

theorem failuresFrom_mem (p : Nat) (xs : List Student) (e : ErrorEntry)
    (he : e ∈ failuresFrom env p xs) : ∃ s ∈ xs, e.studentId = s.id := by
  induction xs generalizing p with
  | nil => simp [failuresFrom] at he
  | cons s rest ih =>
    simp only [failuresFrom] at he
    cases hp : putError s.id (env.putRecord p s.id) with
    | none =>
      rw [hp] at he
      obtain ⟨t, ht, hid⟩ := ih (p + 1) he
      exact ⟨t, List.mem_cons_of_mem _ ht, hid⟩
    | some msg =>
      rw [hp] at he
      rcases List.mem_cons.mp he with h | h
      · exact ⟨s, List.mem_cons_self _ _, by rw [h]⟩
      · obtain ⟨t, ht, hid⟩ := ih (p + 1) h
        exact ⟨t, List.mem_cons_of_mem _ ht, hid⟩

theorem failuresFrom_filter_absent (p : Nat) (xs : List Student) (R : Student)
    (hR : R ∉ xs) :
    (failuresFrom env p xs).filter (fun e => e.studentId = R.id) = [] := by
  rw [List.filter_eq_nil_iff]
  intro e he
  obtain ⟨s, hs, hid⟩ := failuresFrom_mem env p xs e he
  simp only [decide_eq_true_eq]
  intro h
  apply hR
  have : s = R := by
    cases s; cases R
    simp only [Student.mk.injEq]
    simp only at h hid
    rw [← hid, h]
  rw [← this]; exact hs

theorem failuresFrom_filter_unique (p0 : Nat) (L : List Student) (R : Student) (k : Nat)
    (msg : String) (hk : L[k]? = some R) (honce : L.count R = 1)
    (hfail : putError R.id (env.putRecord (p0 + k) R.id) = some msg) :
    (failuresFrom env p0 L).filter (fun e => e.studentId = R.id)
      = [{ studentId := R.id, error := msg }] := by
  obtain ⟨hlt, hget⟩ := List.getElem?_eq_some_iff.mp hk
  have hL : L = L.take k ++ R :: L.drop (k + 1) := by
    conv_lhs => rw [← List.take_append_drop k L, List.drop_eq_getElem_cons hlt, hget]
  have hAlen : (L.take k).length = k := by
    rw [List.length_take]; omega
  generalize L.take k = A at hL hAlen
  generalize L.drop (k + 1) = B at hL
  subst hL
  rw [List.count_append, List.count_cons_self] at honce
  have hA : R ∉ A := List.count_eq_zero.mp (by omega)
  have hB : R ∉ B := List.count_eq_zero.mp (by omega)
  rw [failuresFrom_append, List.filter_append, failuresFrom_filter_absent env p0 A R hA]
  simp only [failuresFrom, hAlen, hfail, List.nil_append]
  rw [List.filter_cons]
  simp [failuresFrom_filter_absent env _ B R hB]

end errors

section launching

variable (env : Env) (fuel : Nat) (schoolId fieldName : String) (body : RequestBody)

/-- The world in which the fetch of a launched job ends. -/
theorem idealLaunch_fetch_world (w w1 : World) (cnt : Nat)
    (hw1 : w1 = { (createJob env schoolId fieldName body w).2 with
      events := (createJob env schoolId fieldName body w).2.events
        ++ pageRequests schoolId 1 cnt }) :
    current env (newJobId env w) w1 = initialJob env schoolId fieldName body w
      ∧ w1.clock = w.clock + 2
      ∧ w1.puts = w.puts
      ∧ w1.events = w.events
          ++ (Event.write (newJobId env w) (initialJob env schoolId fieldName body w)
          :: pageRequests schoolId 1 cnt) := by
  subst hw1
  refine ⟨?_, ?_, ?_, ?_⟩
  · exact (current_of_store_eq env (newJobId env w)
      (createJob env schoolId fieldName body w).2 _ rfl rfl).trans
      (createJob_current env schoolId fieldName body w)
  · exact createJob_clock env schoolId fieldName body w
  · exact createJob_puts env schoolId fieldName body w
  · show (createJob env schoolId fieldName body w).2.events ++ pageRequests schoolId 1 cnt = _
    rw [createJob_events]
    simp

/-- The three ways in which a launched job settles. -/
theorem idealLaunch_cases (w wf : World)
    (h : (idealLaunch env fuel schoolId fieldName body w).2 = some wf) :
    ∃ w1 cnt, 1 ≤ cnt
      ∧ w1 = { (createJob env schoolId fieldName body w).2 with
          events := (createJob env schoolId fieldName body w).2.events
            ++ pageRequests schoolId 1 cnt }
      ∧ ((∃ msg, fetchAllStudents env fuel schoolId (createJob env schoolId fieldName body w).2
              = some (Except.error msg, w1)
            ∧ wf.events = w1.events
                ++ [Event.write (newJobId env w) (failedJob env (newJobId env w) w1 msg),
                    Event.write (newJobId env w) (refailedJob env (newJobId env w) w1 msg)]
            ∧ (wf.store env).get (newJobId env w)
                = some (refailedJob env (newJobId env w) w1 msg))
        ∨ (∃ L, fetchAllStudents env fuel schoolId (createJob env schoolId fieldName body w).2
              = some (Except.ok L, w1)
            ∧ L.length = 0
            ∧ wf.events = w1.events
                ++ [Event.write (newJobId env w) (startedJob env (newJobId env w) w1 0),
                    Event.write (newJobId env w) (emptyJob env (newJobId env w) w1)]
            ∧ (wf.store env).get (newJobId env w) = some (emptyJob env (newJobId env w) w1))
        ∨ (∃ L, fetchAllStudents env fuel schoolId (createJob env schoolId fieldName body w).2
              = some (Except.ok L, w1)
            ∧ L.length ≠ 0
            ∧ L.length ≤ BATCH_SIZE * fuel
            ∧ wf.events = w1.events
                ++ (Event.write (newJobId env w) (startedJob env (newJobId env w) w1 L.length)
                :: (loopEvents env (newJobId env w) fieldName body.value w1.puts L
                      (startedJob env (newJobId env w) w1 L.length) (batchCount L.length)
                ++ [Event.write (newJobId env w) (completedJob env (newJobId env w) w1 L)]))
            ∧ (wf.store env).get (newJobId env w)
                = some (completedJob env (newJobId env w) w1 L))) := by
  have hl : (idealLaunch env fuel schoolId fieldName body w).2
      = (idealRun env fuel (newJobId env w) schoolId fieldName body.value
          (createJob env schoolId fieldName body w).2).map (idealCatch env (newJobId env w)) :=
    rfl
  rw [hl] at h
  cases hf : fetchAllStudents env fuel schoolId (createJob env schoolId fieldName body w).2 with
  | none =>
    have : idealRun env fuel (newJobId env w) schoolId fieldName body.value
        (createJob env schoolId fieldName body w).2 = none := by
      unfold idealRun; simp only [hf]
    rw [this] at h
    simp at h
  | some rw1 =>
    obtain ⟨r, w1⟩ := rw1
    obtain ⟨cnt, hcnt, hw1⟩ := fetchAllStudents_frame env fuel schoolId _ w1 r hf
    refine ⟨w1, cnt, hcnt, hw1, ?_⟩
    cases r with
    | error msg =>
      left
      obtain ⟨wp, hrun, hev, _, hcur, hclock, _⟩ :=
        idealRun_failed env fuel (newJobId env w) schoolId fieldName body.value _ w1
          msg hf
      rw [hrun] at h
      simp only [Option.map_some', Option.some.injEq, idealCatch, readClock] at h
      refine ⟨msg, rfl, ?_, ?_⟩
      · rw [← h, idealUpdate_events, current_tick, hcur, hclock]
        simp only []
        rw [hev]
        simp [refailedJob]
      · rw [← h, idealUpdate_get, current_tick, hcur, hclock]
        rfl
    | ok L =>
      right
      by_cases h0 : L.length = 0
      · left
        obtain ⟨wp, hrun, hev, hget, _, _⟩ :=
          idealRun_empty env fuel (newJobId env w) schoolId fieldName body.value _ w1
            L hf h0
        rw [hrun] at h
        simp only [Option.map_some', Option.some.injEq, idealCatch] at h
        rw [← h]
        exact ⟨L, rfl, h0, hev, hget⟩
      · right
        have hfuel : L.length ≤ BATCH_SIZE * fuel := by
          cases hpb : idealBatches env (newJobId env w) fieldName body.value L fuel
              { i := 0, processedCount := 0, errors := [],
                world := idealUpdate env (newJobId env w)
                  { totalRecords := some L.length, status := some "processing" } w1 } with
          | none =>
            have : idealRun env fuel (newJobId env w) schoolId fieldName body.value
                (createJob env schoolId fieldName body w).2 = none := by
              unfold idealRun; simp only [hf, h0, if_false, hpb]
            rw [this] at h
            simp at h
          | some r =>
            have := idealBatches_fuel_of_some env (newJobId env w) fieldName body.value L _
              fuel 0 _ r (loopAt_start env (newJobId env w) fieldName body.value L _) hpb
            simpa using this
        obtain ⟨wp, hrun, hev, hget, _, _⟩ :=
          idealRun_nonempty env fuel (newJobId env w) schoolId fieldName body.value _
            w1 L hf h0 hfuel
        rw [hrun] at h
        simp only [Option.map_some', Option.some.injEq, idealCatch] at h
        rw [← h]
        exact ⟨L, rfl, h0, hfuel, hev, hget⟩

/-- A launched job whose fetch returns no record. -/
theorem idealLaunch_empty (w w1 : World)
    (hfetch : fetchAllStudents env fuel schoolId (createJob env schoolId fieldName body w).2
      = some (Except.ok [], w1)) :
    ∃ wf, (idealLaunch env fuel schoolId fieldName body w).2 = some wf
      ∧ wf.events = w1.events
          ++ [Event.write (newJobId env w) (startedJob env (newJobId env w) w1 0),
              Event.write (newJobId env w) (emptyJob env (newJobId env w) w1)]
      ∧ (wf.store env).get (newJobId env w) = some (emptyJob env (newJobId env w) w1)
      ∧ wf.puts = w1.puts := by
  obtain ⟨wp, hrun, hev, hget, _, hp⟩ :=
    idealRun_empty env fuel (newJobId env w) schoolId fieldName body.value _ w1
      [] hfetch rfl
  refine ⟨wp, ?_, hev, hget, hp⟩
  show (idealRun env fuel (newJobId env w) schoolId fieldName body.value
    (createJob env schoolId fieldName body w).2).map (idealCatch env (newJobId env w)) = _
  rw [hrun]; rfl

/-- A launched job whose fetch fails. -/
theorem idealLaunch_failed (w w1 : World) (msg : String)
    (hfetch : fetchAllStudents env fuel schoolId (createJob env schoolId fieldName body w).2
      = some (Except.error msg, w1)) :
    ∃ wf, (idealLaunch env fuel schoolId fieldName body w).2 = some wf
      ∧ wf.events = w1.events
          ++ [Event.write (newJobId env w) (failedJob env (newJobId env w) w1 msg),
              Event.write (newJobId env w) (refailedJob env (newJobId env w) w1 msg)]
      ∧ (wf.store env).get (newJobId env w)
          = some (refailedJob env (newJobId env w) w1 msg)
      ∧ wf.puts = w1.puts := by
  obtain ⟨wp, hrun, hev, _, hcur, hclock, hp⟩ :=
    idealRun_failed env fuel (newJobId env w) schoolId fieldName body.value _ w1
      msg hfetch
  have hl : (idealLaunch env fuel schoolId fieldName body w).2
      = some (idealUpdate env (newJobId env w)
          { status := some "failed", error := some msg, endTime := some (env.now wp.clock) }
          (readClock env wp).2) := by
    show (idealRun env fuel (newJobId env w) schoolId fieldName body.value
      (createJob env schoolId fieldName body w).2).map (idealCatch env (newJobId env w)) = _
    rw [hrun]; rfl
  refine ⟨_, hl, ?_, ?_, ?_⟩
  · simp only [readClock]
    rw [idealUpdate_events, current_tick, hcur, hclock]
    simp only []
    rw [hev]
    simp [refailedJob]
  · simp only [readClock]
    rw [idealUpdate_get, current_tick, hcur, hclock]
    rfl
  · simp only [readClock]
    rw [idealUpdate_puts]
    exact hp

/-- The jobs written under the id of a launched job, in order, in each of the
three ways in which it settles. -/
theorem idealLaunch_writes (w wf : World)
    (h : (idealLaunch env fuel schoolId fieldName body w).2 = some wf) :
    ∃ new w1, wf.events = w.events ++ new
      ∧ current env (newJobId env w) w1 = initialJob env schoolId fieldName body w
      ∧ w1.clock = w.clock + 2
      ∧ ((∃ msg, fetchAllStudents env fuel schoolId (createJob env schoolId fieldName body w).2
              = some (Except.error msg, w1)
            ∧ writesOf (newJobId env w) new
                = [initialJob env schoolId fieldName body w,
                   failedJob env (newJobId env w) w1 msg,
                   refailedJob env (newJobId env w) w1 msg])
        ∨ (∃ L, fetchAllStudents env fuel schoolId (createJob env schoolId fieldName body w).2
              = some (Except.ok L, w1)
            ∧ L.length = 0
            ∧ writesOf (newJobId env w) new
                = [initialJob env schoolId fieldName body w,
                   startedJob env (newJobId env w) w1 0,
                   emptyJob env (newJobId env w) w1])
        ∨ (∃ L, fetchAllStudents env fuel schoolId (createJob env schoolId fieldName body w).2
              = some (Except.ok L, w1)
            ∧ L.length ≠ 0
            ∧ writesOf (newJobId env w) new
                = initialJob env schoolId fieldName body w
                  :: startedJob env (newJobId env w) w1 L.length
                  :: ((List.range (batchCount L.length)).map
                        (fun k => jobAfter env w1.puts L
                          (startedJob env (newJobId env w) w1 L.length) (k + 1))
                      ++ [completedJob env (newJobId env w) w1 L]))) := by
  obtain ⟨w1, cnt, _, hw1, hcases⟩ := idealLaunch_cases env fuel schoolId fieldName body w wf h
  obtain ⟨hcur, hclock, _, hev1⟩ := idealLaunch_fetch_world env schoolId fieldName body w w1 cnt hw1
  rcases hcases with ⟨msg, hf, hev, _⟩ | ⟨L, hf, h0, hev, _⟩ | ⟨L, hf, h0, _, hev, _⟩
  · rw [hev1, List.append_assoc] at hev
    refine ⟨_, w1, hev, hcur, hclock, Or.inl ⟨msg, hf, ?_⟩⟩
    simp [writesOf, writesOf_append, writesOf_pageRequests]
  · rw [hev1, List.append_assoc] at hev
    refine ⟨_, w1, hev, hcur, hclock, Or.inr (Or.inl ⟨L, hf, h0, ?_⟩)⟩
    simp [writesOf, writesOf_append, writesOf_pageRequests]
  · rw [hev1, List.append_assoc] at hev
    refine ⟨_, w1, hev, hcur, hclock, Or.inr (Or.inr ⟨L, hf, h0, ?_⟩)⟩
    simp [writesOf, writesOf_append, writesOf_pageRequests, writesOf_loopEvents]

/-- A launched job whose fetch returns a non-empty list settles, given fuel
for its batches. -/
theorem idealLaunch_nonempty (w w1 : World) (L : List Student)
    (hfetch : fetchAllStudents env fuel schoolId (createJob env schoolId fieldName body w).2
      = some (Except.ok L, w1))
    (hne : L.length ≠ 0) (hfuel : L.length ≤ BATCH_SIZE * fuel) :
    ∃ wf, (idealLaunch env fuel schoolId fieldName body w).2 = some wf := by
  obtain ⟨wp, hrun, _⟩ :=
    idealRun_nonempty env fuel (newJobId env w) schoolId fieldName body.value _ w1
      L hfetch hne hfuel
  refine ⟨wp, ?_⟩
  show (idealRun env fuel (newJobId env w) schoolId fieldName body.value
    (createJob env schoolId fieldName body w).2).map (idealCatch env (newJobId env w)) = _
  rw [hrun]; rfl

theorem processed_sequence_sorted (n m : Nat) :
    (0 :: 0 :: ((List.range m).map (fun k => min (25 * (k + 1)) n) ++ [n])).Pairwise
      (fun a b => a ≤ b) := by
  have hr : (List.range m).Pairwise (fun a b => min (25 * (a + 1)) n ≤ min (25 * (b + 1)) n) :=
    (List.pairwise_lt_range m).imp (fun {a b} hab => by omega)
  simp only [List.pairwise_cons, List.pairwise_append, List.pairwise_map, List.mem_cons,
    List.mem_append, List.mem_map, List.mem_singleton, List.mem_range]
  refine ⟨fun a _ => Nat.zero_le a, fun a _ => Nat.zero_le a, hr, ?_, ?_⟩
  · simp
  · rintro a ⟨k, _, rfl⟩ b hb
    simp only [List.not_mem_nil, or_false] at hb
    omega

theorem append_singleton_split {α : Type} (P : α → Prop) :
    ∀ (xs pre post : List α) (c j : α), (∀ a ∈ xs, P a) → ¬ P j →
      xs ++ [c] = pre ++ j :: post → post = [] ∧ j = c ∧ pre = xs := by
  intro xs
  induction xs with
  | nil =>
    intro pre post c j _ _ h
    cases pre with
    | nil =>
      simp only [List.nil_append, List.cons.injEq] at h
      exact ⟨h.2.symm, h.1.symm, rfl⟩
    | cons b pre => simp at h
  | cons a xs ih =>
    intro pre post c j hxs hj h
    cases pre with
    | nil =>
      simp only [List.nil_append, List.cons_append, List.cons.injEq] at h
      exact absurd (h.1 ▸ hxs a (List.mem_cons_self _ _)) hj
    | cons b pre =>
      simp only [List.cons_append, List.cons.injEq] at h
      obtain ⟨h1, h2, h3⟩ := ih pre post c j
        (fun x hx => hxs x (List.mem_cons_of_mem _ hx)) hj h.2
      exact ⟨h1, h2, by rw [h.1, h3]⟩

theorem triple_split {α : Type} (a b c j : α) (pre post : List α)
    (h : [a, b, c] = pre ++ j :: post) :
    (pre = [] ∧ j = a ∧ post = [b, c]) ∨ (pre = [a] ∧ j = b ∧ post = [c])
      ∨ (pre = [a, b] ∧ j = c ∧ post = []) := by
  rcases pre with _ | ⟨x, _ | ⟨y, _ | ⟨z, pre⟩⟩⟩
  · simp only [List.nil_append, List.cons.injEq] at h
    exact Or.inl ⟨rfl, h.1.symm, h.2.symm⟩
  · simp only [List.cons_append, List.nil_append, List.cons.injEq] at h
    exact Or.inr (Or.inl ⟨by rw [h.1], h.2.1.symm, h.2.2.symm⟩)
  · simp only [List.cons_append, List.nil_append, List.cons.injEq] at h
    exact Or.inr (Or.inr ⟨by rw [h.1, h.2.1], h.2.2.1.symm, h.2.2.2.symm⟩)
  · simp at h

end launching

section arithmetic

theorem roundHalfEven_le (a b c : Nat) (hb : 0 < b) (h : a ≤ c * b) :
    roundHalfEven a b ≤ c := by
  have hq : a / b ≤ c := Nat.div_le_of_le_mul (by rw [Nat.mul_comm]; exact h)
  unfold roundHalfEven
  simp only []
  by_cases h1 : 2 * (a % b) < b
  · simp only [h1, if_true]; exact hq
  · have hr : a % b ≠ 0 := by omega
    have hne : a ≠ c * b := by
      intro e
      apply hr
      rw [e]; exact Nat.mul_mod_left c b
    have hlt : a / b < c := (Nat.div_lt_iff_lt_mul hb).mpr (by omega)
    simp only [h1, if_false]
    split <;> omega

theorem toDouble_le (a b c : Nat) (hb : 0 < b) (h : a ≤ c * b) :
    (toDouble a b).mant ≤ c * 2 ^ (toDouble a b).scale := by
  unfold toDouble
  by_cases ha : a = 0
  · simp [ha]
  · simp only [ha, if_false]
    apply roundHalfEven_le _ _ _ hb
    calc a * 2 ^ binaryScale a b ≤ c * b * 2 ^ binaryScale a b := Nat.mul_le_mul_right _ h
      _ = c * 2 ^ binaryScale a b * b := by ring

/-- The stored percentage never exceeds 100. -/
theorem progressPercent_le (p t : Nat) (ht : 0 < t) (hp : p ≤ t) :
    progressPercent p t ≤ 100 := by
  have hx := toDouble_le p t 1 ht (by simpa using hp)
  have hy := toDouble_le ((toDouble p t).mant * 100) (2 ^ (toDouble p t).scale) 100
    (Nat.pow_pos (by decide)) (by
      rw [Nat.one_mul] at hx
      calc (toDouble p t).mant * 100 ≤ 2 ^ (toDouble p t).scale * 100 :=
            Nat.mul_le_mul_right _ hx
        _ = 100 * 2 ^ (toDouble p t).scale := Nat.mul_comm _ _)
  unfold progressPercent mathRound Double.mulNat Double.div
  generalize toDouble ((toDouble p t).mant * 100) (2 ^ (toDouble p t).scale) = y at hy
  have hpos : 0 < 2 ^ y.scale := Nat.pow_pos (by decide)
  have h2 : 2 ^ (y.scale + 1) = 2 * 2 ^ y.scale := by rw [Nat.pow_succ, Nat.mul_comm]
  rw [h2]
  apply Nat.le_of_lt_succ
  apply (Nat.div_lt_iff_lt_mul (by omega)).mpr
  omega

theorem progressPercent_zero (t : Nat) : progressPercent 0 t = 0 := by
  simp [progressPercent, mathRound, Double.mulNat, Double.div, toDouble]

/-- Rounding to nearest moves a quotient by at most one half. -/
theorem roundHalfEven_near (a b : Nat) (hb : 0 < b) :
    2 * (roundHalfEven a b * b) ≤ 2 * a + b ∧ 2 * a ≤ 2 * (roundHalfEven a b * b) + b := by
  have hdm := Nat.div_add_mod a b
  have hmod := Nat.mod_lt a hb
  have hqb : a / b * b + a % b = a := by rw [Nat.mul_comm]; exact hdm
  unfold roundHalfEven
  simp only []
  by_cases h1 : 2 * (a % b) < b
  · simp only [h1, if_true]
    constructor <;> omega
  · by_cases h2 : b < 2 * (a % b)
    · simp only [h1, h2, if_true, if_false, Nat.add_mul, Nat.one_mul]
      constructor <;> omega
    · simp only [h1, h2, if_false, Nat.add_mul]
      have hpar : a / b % 2 * b ≤ b := by
        have : a / b % 2 ≤ 1 := by omega
        calc a / b % 2 * b ≤ 1 * b := Nat.mul_le_mul_right _ this
          _ = b := Nat.one_mul b
      constructor <;> omega

theorem floorLog2_small : ∀ n, n ≤ 100 → floorLog2 n ≤ 6 := by decide

theorem binaryScale_ge_of_le (a b : Nat) (h : a ≤ 100 * b) :
    46 ≤ binaryScale a b := by
  unfold binaryScale
  by_cases hba : b ≤ a
  · simp only [hba, if_true]
    have hq : a / b ≤ 100 := Nat.div_le_of_le_mul (by rw [Nat.mul_comm] at h; exact h)
    have := floorLog2_small _ hq
    omega
  · simp only [hba, if_false]
    split <;> omega

theorem binaryScale_ge_of_le_one (a b : Nat) (ha : 0 < a) (h : a ≤ b) :
    52 ≤ binaryScale a b := by
  unfold binaryScale
  by_cases hba : b ≤ a
  · have e : a = b := Nat.le_antisymm h hba
    subst e
    simp only [le_refl, if_true, Nat.div_self ha]
    decide
  · simp only [hba, if_false]
    split <;> omega

/-- The integer comparison behind `Math.round` of a product that is close to
the exact one. -/
theorem round_compare (p t M S M' S' E r : ℕ) (ht0 : 0 < t)
    (htS : 200 * t + 1 ≤ S) (htS' : 2 * t ≤ S')
    (F1a : 2 * (M * t) ≤ 2 * (p * S) + t) (F1b : 2 * (p * S) ≤ 2 * (M * t) + t)
    (F3a : 2 * (M' * S) ≤ 2 * (M * 100 * S') + S)
    (F3b : 2 * (M * 100 * S') ≤ 2 * (M' * S) + S)
    (hE : 2 * t * E + r = 200 * p + t) (hr : r < 2 * t) :
    (1 ≤ r → 2 * E * S' ≤ 2 * M' + S') ∧ 2 * M' + S' < (2 * E + 2) * S'
      ∧ 2 * E * S' ≤ 2 * M' + 3 * S' := by
  have hS0 : 0 < S := by omega
  have hS'0 : 0 < S' := by omega
  have hSt : 0 < S * t := Nat.mul_pos hS0 ht0
  -- scaled facts
  have G1 : 2 * (M' * S) * t ≤ (2 * (M * 100 * S') + S) * t := Nat.mul_le_mul_right t F3a
  have G2 : 2 * (M * 100 * S') * t ≤ (2 * (M' * S) + S) * t := Nat.mul_le_mul_right t F3b
  have G3 : 2 * (M * t) * (100 * S') ≤ (2 * (p * S) + t) * (100 * S') :=
    Nat.mul_le_mul_right _ F1a
  have G4 : 2 * (p * S) * (100 * S') ≤ (2 * (M * t) + t) * (100 * S') :=
    Nat.mul_le_mul_right _ F1b
  have G5 : (2 * t * E + r) * (S * S') = (200 * p + t) * (S * S') := by rw [hE]
  have H1 : (200 * t + 1) * S' ≤ S * S' := Nat.mul_le_mul_right _ htS
  have H2 : S * (2 * t) ≤ S * S' := Nat.mul_le_mul_left _ htS'
  refine ⟨?_, ?_, ?_⟩
  · intro hr1
    by_contra hcon
    have hcon2 : 2 * M' + S' + 1 ≤ 2 * E * S' := by omega
    have K := Nat.mul_le_mul_right (S * t) hcon2
    have R1 : 1 * (S * S') ≤ r * (S * S') := Nat.mul_le_mul_right _ hr1
    linarith [G1, G2, G3, G4, G5, H1, H2, K, R1, hSt]
  · by_contra hcon
    have hcon2 : (2 * E + 2) * S' ≤ 2 * M' + S' := by omega
    have K := Nat.mul_le_mul_right (S * t) hcon2
    have R1 : (r + 1) * (S * S') ≤ 2 * t * (S * S') := Nat.mul_le_mul_right _ hr
    linarith [G1, G2, G3, G4, G5, H1, H2, K, R1, hSt, Nat.mul_pos hS0 hS'0]
  · by_contra hcon
    have hcon2 : 2 * M' + 3 * S' + 1 ≤ 2 * E * S' := by omega
    have K := Nat.mul_le_mul_right (S * t) hcon2
    have T2 : 101 * (S' * t) ≤ S * (S' * t) := Nat.mul_le_mul_right _ (by omega)
    have T3 : 0 < S' * t := Nat.mul_pos hS'0 ht0
    have T4 : 0 ≤ r * (S * S') := Nat.zero_le _
    linarith [G1, G2, G3, G4, G5, H1, H2, K, T2, T3, T4, hSt, Nat.mul_pos hS0 hS'0]

/-- For totals below `2 ^ 44`, the stored percentage is the exact percentage
rounded half up, or one less when the exact percentage is a half-integer. -/
theorem progressPercent_near_exact (p t : Nat) (hp : 0 < p) (hpt : p ≤ t) (ht : t < 2 ^ 44) :
    progressPercent p t = exactPercent p t
      ∨ ((200 * p + t) % (2 * t) = 0 ∧ progressPercent p t + 1 = exactPercent p t) := by
  have ht0 : 0 < t := Nat.lt_of_lt_of_le hp hpt
  have hp0 : p ≠ 0 := Nat.pos_iff_ne_zero.mp hp
  have hk52 := binaryScale_ge_of_le_one p t hp hpt
  have hX : toDouble p t
      = { mant := roundHalfEven (p * 2 ^ binaryScale p t) t, scale := binaryScale p t } := by
    simp [toDouble, hp0]
  generalize binaryScale p t = k at hX hk52
  have hS : 2 ^ 52 ≤ 2 ^ k := Nat.pow_le_pow_right (by decide) hk52
  have hF1 := roundHalfEven_near (p * 2 ^ k) t ht0
  have hMS : roundHalfEven (p * 2 ^ k) t ≤ 2 ^ k :=
    roundHalfEven_le _ _ _ ht0 (by
      rw [Nat.mul_comm]; exact Nat.mul_le_mul_left _ hpt)
  generalize roundHalfEven (p * 2 ^ k) t = M at hX hF1 hMS
  have hS0 : 0 < 2 ^ k := Nat.pow_pos (by decide)
  have hpS : 2 ^ k ≤ p * 2 ^ k := Nat.le_mul_of_pos_left _ hp
  have hM0 : M * 100 ≠ 0 := by
    intro e
    have : M = 0 := by omega
    rw [this] at hF1
    omega
  have hk46 := binaryScale_ge_of_le (M * 100) (2 ^ k) (by omega)
  have hY : toDouble (M * 100) (2 ^ k)
      = { mant := roundHalfEven (M * 100 * 2 ^ binaryScale (M * 100) (2 ^ k)) (2 ^ k),
          scale := binaryScale (M * 100) (2 ^ k) } := by
    simp [toDouble, hM0]
  generalize binaryScale (M * 100) (2 ^ k) = k2 at hY hk46
  have hS2 : 2 ^ 46 ≤ 2 ^ k2 := Nat.pow_le_pow_right (by decide) hk46
  have hF3 := roundHalfEven_near (M * 100 * 2 ^ k2) (2 ^ k) hS0
  generalize roundHalfEven (M * 100 * 2 ^ k2) (2 ^ k) = M2 at hY hF3
  have hprog : progressPercent p t = (2 * M2 + 2 ^ k2) / (2 ^ k2 * 2) := by
    unfold progressPercent mathRound Double.mulNat Double.div
    rw [hX]
    simp only []
    rw [hY, Nat.pow_succ]
  generalize 2 ^ k2 = S2 at hprog hF3 hS2
  generalize 2 ^ k = S at hF1 hF3 hS hS0 hpS
  have hdm := Nat.div_add_mod (200 * p + t) (2 * t)
  have hr := Nat.mod_lt (200 * p + t) (show 0 < 2 * t by omega)
  have hex : exactPercent p t = (200 * p + t) / (2 * t) := rfl
  generalize (200 * p + t) / (2 * t) = E at hdm hex
  generalize (200 * p + t) % (2 * t) = r at hdm hr
  obtain ⟨hlow, hup, hlow2⟩ := round_compare p t M S M2 S2 E r ht0
    (by omega) (by omega) hF1.1 hF1.2 hF3.1 hF3.2 hdm hr
  have hS20 : 0 < S2 * 2 := by omega
  rw [hprog, hex]
  have hle : (2 * M2 + S2) / (S2 * 2) ≤ E := by
    apply Nat.le_of_lt_succ
    apply (Nat.div_lt_iff_lt_mul hS20).mpr
    have e : (E + 1) * (S2 * 2) = (2 * E + 2) * S2 := by ring
    rw [e]; exact hup
  by_cases hr0 : r = 0
  · have hge : E ≤ (2 * M2 + S2) / (S2 * 2) + 1 := by
      by_cases hE0 : E = 0
      · omega
      · have : E - 1 ≤ (2 * M2 + S2) / (S2 * 2) := by
          apply (Nat.le_div_iff_mul_le hS20).mpr
          have e : (E - 1) * (S2 * 2) + 2 * S2 = 2 * E * S2 := by
            have : E = (E - 1) + 1 := by omega
            conv_rhs => rw [this]
            ring
          omega
        omega
    rcases Nat.lt_or_ge ((2 * M2 + S2) / (S2 * 2)) E with h1 | h1
    · right; exact ⟨hr0, by omega⟩
    · left; omega
  · left
    have hge : E ≤ (2 * M2 + S2) / (S2 * 2) := by
      apply (Nat.le_div_iff_mul_le hS20).mpr
      have e : E * (S2 * 2) = 2 * E * S2 := by ring
      rw [e]; exact hlow (by omega)
    omega

theorem exactPercent_zero (t : Nat) (ht : 0 < t) : exactPercent 0 t = 0 := by
  unfold exactPercent
  apply Nat.div_eq_of_lt
  omega


end arithmetic

section storeModes

variable (env : Env) (fuel : Nat) (jobId schoolId fieldName : String) (value : JsValue)

/-- With the in-memory map no update throws. -/
theorem updateJobStatus_mem (hkv : env.kv = false) (updates : Job) (w : World) :
    updateJobStatus env jobId updates w = Except.ok (idealUpdate env jobId updates w) := by
  unfold updateJobStatus idealUpdate
  simp [hkv]

theorem batchStep_mem (hkv : env.kv = false) (students : List Student) (s : LoopState) :
    batchStep env jobId fieldName value students s
      = Except.ok (idealStep env jobId fieldName value students s) := by
  unfold batchStep idealStep
  simp only [updateJobStatus_mem env jobId hkv]

theorem processBatches_mem (hkv : env.kv = false) (students : List Student) :
    ∀ (fuel : Nat) (s : LoopState),
      processBatches env jobId fieldName value students fuel s
        = (idealBatches env jobId fieldName value students fuel s).map Except.ok
  | 0, s => by
    unfold processBatches idealBatches
    split <;> rfl
  | fuel + 1, s => by
    unfold processBatches idealBatches
    split
    · rw [batchStep_mem env jobId fieldName value hkv]
      exact processBatches_mem hkv students fuel _
    · rfl

theorem failJob_mem (hkv : env.kv = false) (msg : String) (w : World) :
    failJob env jobId msg w
      = (Except.error msg,
          idealUpdate env jobId
            { status := some "failed", error := some msg,
              endTime := some (readClock env w).1 } (readClock env w).2) := by
  unfold failJob
  simp only [updateJobStatus_mem env jobId hkv]

/-- With the in-memory map the run is the one in which no store call throws. -/
theorem processBulkUpdate_mem (hkv : env.kv = false) (w : World) :
    processBulkUpdate env fuel jobId schoolId fieldName value w
      = idealRun env fuel jobId schoolId fieldName value w := by
  unfold processBulkUpdate idealRun
  cases hf : fetchAllStudents env fuel schoolId w with
  | none => rfl
  | some r =>
    obtain ⟨res, w1⟩ := r
    cases res with
    | error msg =>
      simp only [failJob_mem env jobId hkv]
    | ok students =>
      simp only [updateJobStatus_mem env jobId hkv, processBatches_mem env jobId fieldName value hkv]
      split
      · rfl
      · cases idealBatches env jobId fieldName value students fuel
          { i := 0, processedCount := 0, errors := [],
            world := idealUpdate env jobId
              { totalRecords := some students.length, status := some "processing" } w1 } <;> rfl

theorem catchHandler_mem (hkv : env.kv = false) (r : Except String Unit × World) :
    catchHandler env jobId r = idealCatch env jobId r := by
  obtain ⟨res, w⟩ := r
  cases res with
  | error msg =>
    unfold catchHandler idealCatch
    simp only [updateJobStatus_mem env jobId hkv]
  | ok u => rfl

theorem launch_mem (hkv : env.kv = false) (body : RequestBody) (w : World) :
    launch env fuel schoolId fieldName body w = idealLaunch env fuel schoolId fieldName body w := by
  have hc : ∀ jobId, catchHandler env jobId = idealCatch env jobId :=
    fun jobId => funext (catchHandler_mem env jobId hkv)
  simp only [launch, idealLaunch, processBulkUpdate_mem env fuel _ schoolId fieldName _ hkv, hc]

/-- With the durable store an update of an existing entry throws. -/
theorem updateJobStatus_kv (hkv : env.kv = true) (updates : Job) (w : World) (j : Job)
    (h : w.kvData.get jobId = some j) :
    updateJobStatus env jobId updates w = Except.error env.parseError := by
  unfold updateJobStatus
  simp [hkv, h]

theorem failJob_kv (hkv : env.kv = true) (msg : String) (w : World) (j : Job)
    (h : w.kvData.get jobId = some j) :
    failJob env jobId msg w = (Except.error env.parseError, (readClock env w).2) := by
  unfold failJob
  simp only []
  rw [updateJobStatus_kv env jobId hkv _ (readClock env w).2 j h]

/-- With the durable store, a run for a job that has an entry rejects with the
parse error of its first update and writes nothing: it requests the pages of
the fetch, reads the clock once and stops. -/
theorem processBulkUpdate_kv (hkv : env.kv = true) (w wf : World) (j : Job)
    (r : Except String Unit)
    (h : w.kvData.get jobId = some j)
    (hrun : processBulkUpdate env fuel jobId schoolId fieldName value w = some (r, wf)) :
    ∃ cnt, 1 ≤ cnt ∧ r = Except.error env.parseError
      ∧ wf = { w with events := w.events ++ pageRequests schoolId 1 cnt,
                      clock := w.clock + 1 } := by
  unfold processBulkUpdate at hrun
  cases hf : fetchAllStudents env fuel schoolId w with
  | none => rw [hf] at hrun; simp at hrun
  | some res =>
    obtain ⟨res, w1⟩ := res
    obtain ⟨cnt, hcnt, hw1⟩ := fetchAllStudents_frame env fuel schoolId w w1 res hf
    have hget : w1.kvData.get jobId = some j := by rw [hw1]; exact h
    rw [hf] at hrun
    have hfail : ∀ msg, failJob env jobId msg w1
        = (Except.error env.parseError,
            { w with events := w.events ++ pageRequests schoolId 1 cnt,
                     clock := w.clock + 1 }) := by
      intro msg
      rw [failJob_kv env jobId hkv msg w1 j hget, hw1]
      rfl
    cases res with
    | error msg =>
      simp only [hfail, Option.some.injEq, Prod.mk.injEq] at hrun
      exact ⟨cnt, hcnt, hrun.1.symm, hrun.2.symm⟩
    | ok students =>
      simp only [updateJobStatus_kv env jobId hkv _ w1 j hget, hfail, Option.some.injEq,
        Prod.mk.injEq] at hrun
      exact ⟨cnt, hcnt, hrun.1.symm, hrun.2.symm⟩

/-- With the durable store, the job a handler has launched is never written
again: the log holds its creation and the pages of the fetch, and the store
keeps the job as created. -/
theorem launch_kv (hkv : env.kv = true) (body : RequestBody) (w wf : World)
    (h : (launch env fuel schoolId fieldName body w).2 = some wf) :
    ∃ cnt, 1 ≤ cnt
      ∧ wf.events = w.events
          ++ (Event.write (newJobId env w) (initialJob env schoolId fieldName body w)
              :: pageRequests schoolId 1 cnt)
      ∧ (wf.store env).get (newJobId env w) = some (initialJob env schoolId fieldName body w)
      ∧ wf.puts = w.puts := by
  unfold launch at h
  simp only [Option.map_eq_some', Prod.exists] at h
  obtain ⟨r, w', hrun, hwf⟩ := h
  have hget0 := createJob_get env schoolId fieldName body w
  have hstore : ∀ v : World, v.store env = v.kvData := by
    intro v; unfold World.store; simp [hkv]
  rw [hstore] at hget0
  rw [createJob_id] at hrun hwf
  obtain ⟨cnt, hcnt, hr, hw'⟩ :=
    processBulkUpdate_kv env fuel (newJobId env w) schoolId fieldName body.value hkv _ w' _ r
      hget0 hrun
  subst hr
  have hget1 : (readClock env w').2.kvData.get (newJobId env w)
      = some (initialJob env schoolId fieldName body w) := by
    rw [hw']; exact hget0
  have hcatch : catchHandler env (newJobId env w) (Except.error env.parseError, w')
      = (readClock env w').2 := by
    unfold catchHandler
    simp only []
    rw [updateJobStatus_kv env (newJobId env w) hkv _ (readClock env w').2 _ hget1]
  rw [hcatch] at hwf
  subst hwf
  refine ⟨cnt, hcnt, ?_, ?_, ?_⟩
  · rw [hw']
    show (createJob env schoolId fieldName body w).2.events ++ pageRequests schoolId 1 cnt = _
    rw [createJob_events]
    simp
  · rw [hstore]; exact hget1
  · rw [hw']
    exact createJob_puts env schoolId fieldName body w

theorem failJob_error (msg : String) (w : World) :
    ∃ msg2, (failJob env jobId msg w).1 = Except.error msg2 := by
  unfold failJob
  simp only []
  cases updateJobStatus env jobId
    { status := some "failed", error := some msg, endTime := some (readClock env w).1 }
    (readClock env w).2 with
  | error msg2 => exact ⟨msg2, rfl⟩
  | ok w1 => exact ⟨msg, rfl⟩

/-- With the durable store an update that does not throw leaves an entry. -/
theorem updateJobStatus_kv_entry (hkv : env.kv = true) (updates : Job) (w w1 : World)
    (h : updateJobStatus env jobId updates w = Except.ok w1) :
    ∃ j, w1.kvData.get jobId = some j := by
  unfold updateJobStatus at h
  simp only [hkv, if_true] at h
  cases hget : w.kvData.get jobId with
  | some j => rw [hget] at h; simp at h
  | none =>
    rw [hget] at h
    simp only [Except.ok.injEq] at h
    subst h
    exact ⟨_, JobStore.get_set_same _ _ _⟩

theorem batchStep_kv (hkv : env.kv = true) (students : List Student) (s : LoopState)
    (j : Job) (hget : s.world.kvData.get jobId = some j) :
    ∃ e, batchStep env jobId fieldName value students s = Except.error e := by
  unfold batchStep
  simp only []
  rw [updateJobStatus_kv env jobId hkv _ _ j (by rw [updateBatch_world]; exact hget)]
  exact ⟨_, rfl⟩

/-- With the durable store no run resolves: the condition of meeting no
job-level error can hold with the in-memory map only. -/
theorem processBulkUpdate_ok_mem (w wf : World)
    (hrun : processBulkUpdate env fuel jobId schoolId fieldName value w
      = some (Except.ok (), wf)) :
    env.kv = false := by
  cases hkv : env.kv with
  | false => rfl
  | true =>
    exfalso
    have hfail : ∀ msg v, some (failJob env jobId msg v) ≠ some (Except.ok (), wf) := by
      intro msg v hc
      obtain ⟨msg2, h2⟩ := failJob_error env jobId msg v
      simp only [Option.some.injEq] at hc
      rw [hc] at h2
      simp at h2
    unfold processBulkUpdate at hrun
    cases hf : fetchAllStudents env fuel schoolId w with
    | none => rw [hf] at hrun; simp at hrun
    | some res =>
      obtain ⟨res, w1⟩ := res
      rw [hf] at hrun
      cases res with
      | error msg => exact hfail _ _ hrun
      | ok students =>
        simp only [] at hrun
        cases hu : updateJobStatus env jobId
            { totalRecords := some students.length, status := some "processing" } w1 with
        | error msg => rw [hu] at hrun; exact hfail _ _ hrun
        | ok w2 =>
          rw [hu] at hrun
          obtain ⟨j, hj⟩ := updateJobStatus_kv_entry env jobId hkv _ w1 w2 hu
          simp only [] at hrun
          by_cases h0 : students.length = 0
          · simp only [h0, if_true] at hrun
            rw [updateJobStatus_kv env jobId hkv _ (readClock env w2).2 j hj] at hrun
            exact hfail _ _ hrun
          · simp only [h0, if_false] at hrun
            cases fuel with
            | zero =>
              unfold processBatches at hrun
              simp only [Nat.pos_of_ne_zero h0, if_true] at hrun
              simp at hrun
            | succ fuel =>
              unfold processBatches at hrun
              simp only [Nat.pos_of_ne_zero h0, if_true] at hrun
              obtain ⟨e, he⟩ := batchStep_kv env jobId fieldName value hkv students
                { i := 0, processedCount := 0, errors := [], world := w2 } j hj
              rw [he] at hrun
              exact hfail _ _ hrun

end storeModes

section claims

variable (env : Env) (fuel : Nat) (jobId schoolId fieldName : String) (value : JsValue)

theorem flatten_batches (students : List Student) (k : Nat) :
    ((List.range k).map (batchAt students)).flatten = students.take (BATCH_SIZE * k) := by
  induction k with
  | zero => simp
  | succ k ih =>
    rw [List.range_succ, List.map_append, List.flatten_append, ih]
    simp only [List.map_cons, List.map_nil, List.flatten_cons, List.flatten_nil,
      List.append_nil]
    rw [batchAt, take_append_slice, Nat.mul_succ]

theorem batchAt_length (students : List Student) (k : Nat) :
    (batchAt students k).length = min BATCH_SIZE (students.length - BATCH_SIZE * k) :=
  slice_length students (BATCH_SIZE * k)

/-- The fetch of the first page against an upstream that is down. -/
theorem down_fetch (statusText schoolId : String) (w : World) :
    fetchAllStudents (downEnv statusText) 1 schoolId w
      = some (Except.error ("Failed to fetch students: " ++ statusText),
          w.log (Event.get schoolId 1 rowsPerPage)) := rfl

/-- Claim C1: A run over a fetched list `L` of `n ≥ 1` records that meets no
job-level error (it resolves, as every such run does with the in-memory job
store, and none with the durable one) forms exactly
`ceil(n / 25)` batches, batch `k` being the slice `L[25k .. 25k + 25)`: every
batch but the last has 25 records, the last has between 1 and 25, none exceeds
25, and the batches concatenated in processing order give back `L` (sizes 25,
25, 10 for `n = 60`). -/
theorem C1_batches_partition (w w1 : World) (L : List Student)
    (hmode : env.kv = false
      ∨ ∃ wf0, processBulkUpdate env fuel jobId schoolId fieldName value w
          = some (Except.ok (), wf0))
    (hfetch : fetchAllStudents env fuel schoolId w = some (Except.ok L, w1))
    (hn : 1 ≤ L.length) (hfuel : L.length ≤ BATCH_SIZE * fuel) :
    ∃ wf bs, processBulkUpdate env fuel jobId schoolId fieldName value w
        = some (Except.ok (), wf)
      ∧ batchesOf wf.events = batchesOf w.events ++ bs
      ∧ bs = (List.range ((L.length + 24) / 25)).map
          (fun k => slice L (25 * k) (25 * k + 25))
      ∧ bs.length = (L.length + 24) / 25
      ∧ (∀ k b, bs[k]? = some b →
          b.length ≤ 25 ∧ (k + 1 < bs.length → b.length = 25)
            ∧ (k + 1 = bs.length → 1 ≤ b.length))
      ∧ bs.flatten = L
      ∧ (L.length = 60 → bs.map List.length = [25, 25, 10]) := by
  have hkv : env.kv = false :=
    hmode.elim id
      (fun h => h.elim (processBulkUpdate_ok_mem env fuel jobId schoolId fieldName value w))
  rw [processBulkUpdate_mem env fuel jobId schoolId fieldName value hkv]
  obtain ⟨wf, hrun, hev, _, _, _⟩ :=
    idealRun_nonempty env fuel jobId schoolId fieldName value w w1 L hfetch
      (by omega) hfuel
  obtain ⟨cnt, _, hw1⟩ := fetchAllStudents_frame env fuel schoolId w w1 _ hfetch
  have hbs : (List.range ((L.length + 24) / 25)).map (fun k => slice L (25 * k) (25 * k + 25))
      = (List.range (batchCount L.length)).map (batchAt L) := rfl
  have hlen : ((List.range (batchCount L.length)).map (batchAt L)).length
      = (L.length + 24) / 25 := by
    simp [batchCount, BATCH_SIZE]
  refine ⟨wf, _, hrun, ?_, rfl, ?_, ?_, ?_, ?_⟩
  · rw [hev, hw1]
    simp [batchesOf_append, batchesOf_pageRequests, batchesOf, batchesOf_loopEvents]
    rfl
  · rw [hbs, hlen]
  · intro k b hb
    rw [hbs] at hb ⊢
    rw [hlen]
    obtain ⟨hk, hget⟩ := List.getElem?_eq_some_iff.mp hb
    rw [hlen] at hk
    have hb2 : b = batchAt L k := by
      rw [← hget]; simp
    have hl := batchAt_length L k
    rw [← hb2] at hl
    simp only [BATCH_SIZE] at hl
    refine ⟨by omega, fun h => by omega, fun h => by omega⟩
  · rw [hbs, flatten_batches]
    apply List.take_of_length_le
    exact batchCount_covers L.length
  · intro h60
    rw [hbs, List.map_map]
    have hfun : (List.length ∘ batchAt L) = fun k => min 25 (60 - 25 * k) := by
      funext k
      simp [batchAt_length, h60, BATCH_SIZE]
    rw [hfun, h60]
    decide

/-- Claim C2, as amended: In a run whose fetch returns `L` and which meets no
job-level error (it resolves, as every such run does with the in-memory job
store, and none with the durable one), the update calls issued are exactly one
per element of `L`, in the order of `L`, whatever their outcomes. Each call sends the serialisation of `updateData`: the single field
`fieldName` set to `value`, except that the body is the empty object when
`value` is `undefined` or `fieldName` is `__proto__`. -/
theorem C2_every_record_attempted_once (w w1 : World) (L : List Student)
    (hmode : env.kv = false
      ∨ ∃ wf0, processBulkUpdate env fuel jobId schoolId fieldName value w
          = some (Except.ok (), wf0))
    (hfetch : fetchAllStudents env fuel schoolId w = some (Except.ok L, w1))
    (hfuel : L.length ≤ BATCH_SIZE * fuel) :
    ∃ wf, processBulkUpdate env fuel jobId schoolId fieldName value w
        = some (Except.ok (), wf)
      ∧ putsOf wf.events
          = putsOf w.events ++ L.map (fun s => (s.id, putBody fieldName value))
      ∧ wf.puts = w.puts + L.length
      ∧ (fieldName ≠ "__proto__" → value ≠ JsValue.undefined →
          putBody fieldName value = [(fieldName, value)])
      ∧ (fieldName = "__proto__" ∨ value = JsValue.undefined →
          putBody fieldName value = []) := by
  have hbody1 : fieldName ≠ "__proto__" → value ≠ JsValue.undefined →
      putBody fieldName value = [(fieldName, value)] := by
    intro h1 h2
    simp [putBody, h1, h2]
  have hbody2 : fieldName = "__proto__" ∨ value = JsValue.undefined →
      putBody fieldName value = [] := by
    intro h
    simp [putBody, h]
  have hkv : env.kv = false :=
    hmode.elim id
      (fun h => h.elim (processBulkUpdate_ok_mem env fuel jobId schoolId fieldName value w))
  rw [processBulkUpdate_mem env fuel jobId schoolId fieldName value hkv]
  obtain ⟨cnt, _, hw1⟩ := fetchAllStudents_frame env fuel schoolId w w1 _ hfetch
  by_cases h0 : L.length = 0
  · obtain ⟨wf, hrun, hev, _, _, hp⟩ :=
      idealRun_empty env fuel jobId schoolId fieldName value w w1 L hfetch h0
    have hL : L = [] := List.length_eq_zero.mp h0
    refine ⟨wf, hrun, ?_, ?_, hbody1, hbody2⟩
    · rw [hev, hw1, hL]
      simp [putsOf_append, putsOf_pageRequests, putsOf]
    · rw [hp, hw1, h0]; rfl
  · obtain ⟨wf, hrun, hev, _, _, hp⟩ :=
      idealRun_nonempty env fuel jobId schoolId fieldName value w w1 L hfetch h0 hfuel
    refine ⟨wf, hrun, ?_, ?_, hbody1, hbody2⟩
    · rw [hev, hw1]
      simp only [putsOf_append, putsOf_pageRequests, putsOf, putsOf_loopEvents,
        List.append_nil, List.nil_append]
      rw [List.take_of_length_le (batchCount_covers L.length)]
    · rw [hp, hw1]

theorem sample_fetch (n : Nat) (put : Nat → String → PutResponse) (fuel : Nat) (w : World)
    (hf : n / rowsPerPage + 1 ≤ fuel) :
    fetchAllStudents (sampleEnv (sampleStudents n) put) fuel schoolId w
      = some (Except.ok (sampleStudents n),
          { w with events := w.events ++ pageRequests schoolId 1 (n / rowsPerPage + 1) }) := by
  have h := fetchAllStudents_serves (sampleEnv (sampleStudents n) put) schoolId
    (sampleStudents n) (sampleEnv_serves _ _) fuel w (by rw [sampleStudents_length]; exact hf)
  rw [sampleStudents_length] at h
  exact h

/-- A run over 60 fetched records forms three batches of sizes 25, 25 and 10. -/
theorem C1_batches_partition_witness :
    1 ≤ (sampleStudents 60).length
      ∧ ∃ wf bs, processBulkUpdate (sampleEnv (sampleStudents 60) allOk) 3 "job_1" "school_7"
            "field_289" (JsValue.str "Yes") emptyWorld = some (Except.ok (), wf)
          ∧ batchesOf wf.events = bs
          ∧ bs.map List.length = [25, 25, 10]
          ∧ bs.flatten = sampleStudents 60 := by
  have hlen : (sampleStudents 60).length = 60 := sampleStudents_length 60
  obtain ⟨wf, bs, hrun, hev, _, _, _, hflat, h60⟩ :=
    C1_batches_partition (sampleEnv (sampleStudents 60) allOk) 3 "job_1" "school_7"
      "field_289" (JsValue.str "Yes") emptyWorld _ (sampleStudents 60) (Or.inl rfl)
      (sample_fetch "school_7" 60 allOk 3 emptyWorld (by decide))
      (by rw [hlen]; decide) (by rw [hlen]; decide)
  exact ⟨by rw [hlen]; decide, wf, bs, hrun, by simpa [emptyWorld, batchesOf] using hev,
    h60 hlen, hflat⟩

/-- A run over three fetched records issues exactly their three updates, in
order, each setting `field_289` to `Yes`. -/
theorem C2_every_record_attempted_once_witness :
    ∃ wf, processBulkUpdate (sampleEnv (sampleStudents 3) allOk) 1 "job_1" "school_7"
          "field_289" (JsValue.str "Yes") emptyWorld = some (Except.ok (), wf)
      ∧ putsOf wf.events
          = [("rec0", [("field_289", JsValue.str "Yes")]),
             ("rec1", [("field_289", JsValue.str "Yes")]),
             ("rec2", [("field_289", JsValue.str "Yes")])] := by
  obtain ⟨wf, hrun, hputs, _⟩ :=
    C2_every_record_attempted_once (sampleEnv (sampleStudents 3) allOk) 1 "job_1" "school_7"
      "field_289" (JsValue.str "Yes") emptyWorld _ (sampleStudents 3) (Or.inl rfl)
      (sample_fetch "school_7" 3 allOk 1 emptyWorld (by decide))
      (by rw [sampleStudents_length]; decide)
  refine ⟨wf, hrun, ?_⟩
  rw [hputs]
  decide

/-- Claim C2, counterexample: A request body without `value` leaves `value`
undefined, which the handler does not check. The run over two fetched records
then issues both updates with the empty object as body: no field is set. -/
theorem C2_undefined_value_sends_empty_body :
    ∃ wf, processBulkUpdate (sampleEnv (sampleStudents 2) allOk) 1 "job_1" "school_7"
          "field_289" JsValue.undefined emptyWorld = some (Except.ok (), wf)
      ∧ putsOf wf.events = [("rec0", []), ("rec1", [])] := by
  have hm := processBulkUpdate_mem (sampleEnv (sampleStudents 2) allOk) 1 "job_1" "school_7"
    "field_289" JsValue.undefined rfl emptyWorld
  rw [hm]
  obtain ⟨cnt, _, hw1⟩ := fetchAllStudents_frame _ _ _ _ _ _
    (sample_fetch "school_7" 2 allOk 1 emptyWorld (by decide))
  obtain ⟨wf, hrun, hev, _, _, _⟩ :=
    idealRun_nonempty (sampleEnv (sampleStudents 2) allOk) 1 "job_1" "school_7" "field_289"
      JsValue.undefined emptyWorld _ (sampleStudents 2)
      (sample_fetch "school_7" 2 allOk 1 emptyWorld (by decide))
      (by rw [sampleStudents_length]; decide) (by rw [sampleStudents_length]; decide)
  refine ⟨wf, hrun, ?_⟩
  rw [hev]
  simp only [putsOf_append, putsOf_pageRequests, putsOf, putsOf_loopEvents,
    List.append_nil, List.nil_append]
  decide

/-- Claim C10: Against an upstream that holds the finite result set `L` and
serves it in pages of 1000 (page `p` holding records `1000 (p - 1)` up to
`1000 p - 1`, possibly none), `fetchAllStudents` terminates for every fuel of
at least `floor(|L| / 1000) + 1` iterations and returns exactly `L`, in
upstream order; it requests pages 1, 2, ... consecutively,
`floor(|L| / 1000) + 1` of them, the last being the first page with fewer than
1000 records. -/
theorem C10_fetch_returns_all_pages (w : World) (L : List Student)
    (hs : servesPages env L) (hf : L.length / 1000 + 1 ≤ fuel) :
    ∃ w1, fetchAllStudents env fuel schoolId w = some (Except.ok L, w1)
      ∧ getsOf w1.events = getsOf w.events ++ List.range' 1 (L.length / 1000 + 1)
      ∧ (getsOf w1.events).length = (getsOf w.events).length + (L.length / 1000 + 1)
      ∧ (∀ p, 1 ≤ p → p ≤ L.length / 1000 →
          (slice L (1000 * (p - 1)) (1000 * p)).length = 1000)
      ∧ (slice L (1000 * (L.length / 1000)) (1000 * (L.length / 1000 + 1))).length < 1000 := by
  refine ⟨_, fetchAllStudents_serves env schoolId L hs fuel w hf, ?_, ?_, ?_, ?_⟩
  · simp [getsOf_append, getsOf_pageRequests, rowsPerPage]
  · simp [getsOf_append, getsOf_pageRequests, rowsPerPage]
  · intro p h1 h2
    rw [slice_length_le]
    omega
  · rw [slice_length_le]
    omega

/-- Three records served in one page are returned after a single request. -/
theorem C10_fetch_returns_all_pages_witness :
    ∃ w1, fetchAllStudents (sampleEnv (sampleStudents 3) allOk) 1 "school_7" emptyWorld
        = some (Except.ok (sampleStudents 3), w1)
      ∧ getsOf w1.events = [1] := by
  obtain ⟨w1, h, hg, _⟩ :=
    C10_fetch_returns_all_pages (sampleEnv (sampleStudents 3) allOk) 1 "school_7" emptyWorld
      (sampleStudents 3) (sampleEnv_serves _ _) (by simp [sampleStudents_length])
  refine ⟨w1, h, ?_⟩
  rw [hg, sampleStudents_length]
  decide

/-- Claim C3: In a run over a fetched list in which the record `R` occurs once
and the update of `R` is rejected with message `msg`, and which meets no
job-level error (it resolves, as every such run does with the in-memory job
store, and none with the durable one), the job stored at the end
has status `completed`, its `errors` hold exactly one entry for the id of `R`,
carrying `msg`, and `processedRecords` is the number of fetched records. The
order in which the rejections of a batch are handled is any permutation. -/
theorem C3_failed_record_listed_once (w w1 : World) (L : List Student) (R : Student)
    (k : Nat) (msg : String)
    (hmode : env.kv = false
      ∨ ∃ wf0, processBulkUpdate env fuel jobId schoolId fieldName value w
          = some (Except.ok (), wf0))
    (hfetch : fetchAllStudents env fuel schoolId w = some (Except.ok L, w1))
    (hfuel : L.length ≤ BATCH_SIZE * fuel)
    (hperm : ∀ b es, (env.settle b es).Perm es)
    (hk : L[k]? = some R) (honce : L.count R = 1)
    (hfail : putError R.id (env.putRecord (w.puts + k) R.id) = some msg) :
    ∃ wf j errs, processBulkUpdate env fuel jobId schoolId fieldName value w
        = some (Except.ok (), wf)
      ∧ (wf.store env).get jobId = some j
      ∧ j.status = some "completed"
      ∧ j.errors = some errs
      ∧ errs.filter (fun e => e.studentId = R.id) = [{ studentId := R.id, error := msg }]
      ∧ j.processedRecords = some L.length := by
  have hkv : env.kv = false :=
    hmode.elim id
      (fun h => h.elim (processBulkUpdate_ok_mem env fuel jobId schoolId fieldName value w))
  rw [processBulkUpdate_mem env fuel jobId schoolId fieldName value hkv]
  obtain ⟨hlt, _⟩ := List.getElem?_eq_some_iff.mp hk
  obtain ⟨cnt, _, hw1⟩ := fetchAllStudents_frame env fuel schoolId w w1 _ hfetch
  have hputs : w1.puts = w.puts := by rw [hw1]
  obtain ⟨wf, hrun, _, hget, _, _⟩ :=
    idealRun_nonempty env fuel jobId schoolId fieldName value w w1 L hfetch
      (by omega) hfuel
  refine ⟨wf, _, _, hrun, hget, rfl, rfl, ?_, rfl⟩
  have hp := errorsAfter_perm env hperm w1.puts L (batchCount L.length)
  rw [List.take_of_length_le (batchCount_covers L.length)] at hp
  have hf := failuresFrom_filter_unique env w1.puts L R k msg hk honce (by rw [hputs]; exact hfail)
  have hp2 := hp.filter (fun e => e.studentId = R.id)
  rw [hf] at hp2
  exact hp2.eq_singleton

/-- Three records, the update of the second one answered 429. -/
theorem C3_failed_record_listed_once_witness :
    ∃ wf j errs, processBulkUpdate (sampleEnv (sampleStudents 3) (failsAt 1 "Too Many Requests"))
          1 "job_1" "school_7" "field_289" (JsValue.str "Yes") emptyWorld
        = some (Except.ok (), wf)
      ∧ (wf.store (sampleEnv (sampleStudents 3) (failsAt 1 "Too Many Requests"))).get "job_1"
          = some j
      ∧ j.status = some "completed"
      ∧ j.errors = some errs
      ∧ errs.filter (fun e => e.studentId = "rec1")
          = [{ studentId := "rec1",
               error := "Failed to update record rec1: Too Many Requests" }]
      ∧ j.processedRecords = some 3 := by
  have h := C3_failed_record_listed_once
    (sampleEnv (sampleStudents 3) (failsAt 1 "Too Many Requests")) 1 "job_1" "school_7"
    "field_289" (JsValue.str "Yes") emptyWorld _ (sampleStudents 3) { id := "rec1" } 1
    "Failed to update record rec1: Too Many Requests" (Or.inl rfl)
    (sample_fetch "school_7" 3 _ 1 emptyWorld (by decide))
    (by rw [sampleStudents_length]; decide)
    (fun _ es => List.Perm.refl es)
    (by decide) (by decide) (by decide)
  rw [sampleStudents_length] at h
  exact h

/-- Claim C7: With the in-memory job store, when the fetch of a launched job
returns no record, the job ends
stored with status `completed`, `totalRecords = 0`, `processedRecords = 0`, the
explanatory message and an `endTime`; the batch loop is not entered: no batch
is formed, no record update is issued and no pause is taken. -/
theorem C7_zero_records_completed (body : RequestBody) (w w1 : World)
    (hkv : env.kv = false)
    (hfetch : fetchAllStudents env fuel schoolId (createJob env schoolId fieldName body w).2
      = some (Except.ok [], w1)) :
    ∃ wf j, (launch env fuel schoolId fieldName body w).2 = some wf
      ∧ (wf.store env).get (newJobId env w) = some j
      ∧ j.status = some "completed"
      ∧ j.totalRecords = some 0
      ∧ j.processedRecords = some 0
      ∧ j.message = some "No student records found for this school"
      ∧ j.endTime = some (env.now (w.clock + 2))
      ∧ batchesOf wf.events = batchesOf w.events
      ∧ putsOf wf.events = putsOf w.events
      ∧ delaysOf wf.events = delaysOf w.events
      ∧ wf.puts = w.puts := by
  rw [launch_mem env fuel schoolId fieldName hkv]
  obtain ⟨cnt, _, hw1⟩ := fetchAllStudents_frame env fuel schoolId _ w1 _ hfetch
  obtain ⟨hcur, hclock, hputs, hev1⟩ :=
    idealLaunch_fetch_world env schoolId fieldName body w w1 cnt hw1
  obtain ⟨wf, hl, hev, hget, hp⟩ := idealLaunch_empty env fuel schoolId fieldName body w w1 hfetch
  refine ⟨wf, _, hl, hget, rfl, rfl, ?_, rfl, ?_, ?_, ?_, ?_, ?_⟩
  · simp [emptyJob, startedJob, hcur, Job.merge, pick, initialJob]
  · simp [emptyJob, Job.merge, pick, hclock]
  · rw [hev, hev1]
    simp [batchesOf_append, batchesOf, batchesOf_pageRequests]
  · rw [hev, hev1]
    simp [putsOf_append, putsOf, putsOf_pageRequests]
  · rw [hev, hev1]
    simp [delaysOf_append, delaysOf, delaysOf_pageRequests]
  · rw [hp, hputs]

/-- A school without records: the upstream serves the empty result set. -/
theorem C7_zero_records_completed_witness :
    ∃ wf j, (launch (sampleEnv [] allOk) 1 "school_7" "field_289" sampleBody emptyWorld).2
        = some wf
      ∧ (wf.store (sampleEnv [] allOk)).get (newJobId (sampleEnv [] allOk) emptyWorld) = some j
      ∧ j.status = some "completed"
      ∧ j.totalRecords = some 0
      ∧ j.processedRecords = some 0
      ∧ putsOf wf.events = []
      ∧ delaysOf wf.events = [] := by
  obtain ⟨wf, j, hl, hget, hs, ht, hp, _, _, _, hputs, hdel, _⟩ :=
    C7_zero_records_completed (sampleEnv [] allOk) 1 "school_7" "field_289" sampleBody
      emptyWorld _ rfl
      (fetchAllStudents_serves (sampleEnv [] allOk) "school_7" [] (sampleEnv_serves _ _) 1 _
        (by decide))
  exact ⟨wf, j, hl, hget, hs, ht, hp, hputs, hdel⟩

/-- Claim C8: With the in-memory job store, when the fetch of a launched job
fails, on a non-OK response or on a thrown error, the job ends stored with status `failed`, `error` set to
the message of the failure and `endTime` set; no record update is issued, and
the pages requested are `1, ..., cnt`, each once, the last being the one that
failed: the fetch is not retried. -/
theorem C8_fetch_failure_fails_job (body : RequestBody) (w w1 : World) (msg : String)
    (hkv : env.kv = false)
    (hfetch : fetchAllStudents env fuel schoolId (createJob env schoolId fieldName body w).2
      = some (Except.error msg, w1)) :
    ∃ wf j cnt, (launch env fuel schoolId fieldName body w).2 = some wf
      ∧ (wf.store env).get (newJobId env w) = some j
      ∧ j.status = some "failed"
      ∧ j.error = some msg
      ∧ j.endTime = some (env.now (w.clock + 3))
      ∧ putsOf wf.events = putsOf w.events
      ∧ wf.puts = w.puts
      ∧ 1 ≤ cnt
      ∧ getsOf wf.events = getsOf w.events ++ List.range' 1 cnt
      ∧ (env.getPage cnt = GetResponse.threw msg
          ∨ ∃ st, env.getPage cnt = GetResponse.notOk st
              ∧ msg = "Failed to fetch students: " ++ st) := by
  rw [launch_mem env fuel schoolId fieldName hkv]
  obtain ⟨cnt, hcnt, hw1, hcause, _⟩ :=
    fetchLoop_error_cause env schoolId fuel 1 [] _ msg w1 hfetch
  obtain ⟨_, hclock, hputs, hev1⟩ :=
    idealLaunch_fetch_world env schoolId fieldName body w w1 cnt hw1
  obtain ⟨wf, hl, hev, hget, hp⟩ :=
    idealLaunch_failed env fuel schoolId fieldName body w w1 msg hfetch
  have e : 1 + cnt - 1 = cnt := by omega
  rw [e] at hcause
  refine ⟨wf, _, cnt, hl, hget, rfl, rfl, ?_, ?_, ?_, hcnt, ?_, hcause⟩
  · simp [refailedJob, Job.merge, pick, hclock]
  · rw [hev, hev1]
    simp [putsOf_append, putsOf, putsOf_pageRequests]
  · rw [hp, hputs]
  · rw [hev, hev1]
    simp [getsOf_append, getsOf, getsOf_pageRequests]

/-- An upstream answering 503 to the first page. -/
theorem C8_fetch_failure_fails_job_witness :
    ∃ wf j, (launch (downEnv "Service Unavailable") 1 "school_7" "field_289" sampleBody
          emptyWorld).2 = some wf
      ∧ (wf.store (downEnv "Service Unavailable")).get
          (newJobId (downEnv "Service Unavailable") emptyWorld) = some j
      ∧ j.status = some "failed"
      ∧ j.error = some "Failed to fetch students: Service Unavailable"
      ∧ putsOf wf.events = [] := by
  obtain ⟨wf, j, cnt, hl, hget, hs, he, _, hputs, _⟩ :=
    C8_fetch_failure_fails_job (downEnv "Service Unavailable") 1 "school_7" "field_289"
      sampleBody emptyWorld _ _ rfl
      (down_fetch "Service Unavailable" "school_7"
        (createJob (downEnv "Service Unavailable") "school_7" "field_289" sampleBody
          emptyWorld).2)
  exact ⟨wf, j, hl, hget, hs, he, hputs⟩

/-- Claim C4: Over the run of a launched job, the values of `processedRecords`
written to the job store form a non-decreasing sequence, every stored snapshot
has `processedRecords ≤ totalRecords`, and with the in-memory job store, when
the fetch returns `n` records, the sequence is `0, 0` (creation, total count), then `min(25 k, n)` after the
`k`-th batch for `k = 1, ..., ceil(n / 25)`, then `n` (completion). -/
theorem C4_processed_nondecreasing (body : RequestBody) (w wf : World)
    (h : (launch env fuel schoolId fieldName body w).2 = some wf) :
    ∃ new ps, wf.events = w.events ++ new
      ∧ (writesOf (newJobId env w) new).map (fun j => j.processedRecords) = ps.map some
      ∧ ps.Pairwise (fun a b => a ≤ b)
      ∧ (∀ j ∈ writesOf (newJobId env w) new,
          ∃ p t, j.processedRecords = some p ∧ j.totalRecords = some t ∧ p ≤ t)
      ∧ (env.kv = false → ∀ L w1,
          fetchAllStudents env fuel schoolId (createJob env schoolId fieldName body w).2
            = some (Except.ok L, w1) →
          ps = 0 :: 0 :: ((List.range ((L.length + 24) / 25)).map
                (fun k => min (25 * (k + 1)) L.length) ++ [L.length])) := by
  cases hkv : env.kv with
  | true =>
    obtain ⟨cnt, _, hev, _, _⟩ := launch_kv env fuel schoolId fieldName hkv body w wf h
    have hws : writesOf (newJobId env w)
        (Event.write (newJobId env w) (initialJob env schoolId fieldName body w)
          :: pageRequests schoolId 1 cnt)
        = [initialJob env schoolId fieldName body w] := by
      simp [writesOf, writesOf_pageRequests]
    refine ⟨_, [0], hev, ?_, by simp, ?_, ?_⟩
    · rw [hws]; rfl
    · intro j hj
      rw [hws] at hj
      simp only [List.mem_singleton] at hj
      subst hj
      exact ⟨0, 0, rfl, rfl, le_refl 0⟩
    · intro hcontra
      exact absurd hcontra (by decide)
  | false =>
  rw [launch_mem env fuel schoolId fieldName hkv] at h
  obtain ⟨new, w1, hnew, hcur, _, hcases⟩ :=
    idealLaunch_writes env fuel schoolId fieldName body w wf h
  rcases hcases with ⟨msg, hf, hws⟩ | ⟨L, hf, h0, hws⟩ | ⟨L, hf, h0, hws⟩
  · refine ⟨new, [0, 0, 0], hnew, ?_, by simp, ?_, ?_⟩
    · rw [hws]
      simp [refailedJob, failedJob, hcur, Job.merge, pick, initialJob]
    · intro j hj
      rw [hws] at hj
      simp only [List.mem_cons, List.mem_singleton, List.not_mem_nil, or_false] at hj
      rcases hj with rfl | rfl | rfl <;>
        exact ⟨0, 0, by simp [refailedJob, failedJob, hcur, Job.merge, pick, initialJob],
          by simp [refailedJob, failedJob, hcur, Job.merge, pick, initialJob], le_refl 0⟩
    · intro _ L w2 hf2
      rw [hf] at hf2
      simp at hf2
  · refine ⟨new, [0, 0, 0], hnew, ?_, by simp, ?_, ?_⟩
    · rw [hws]
      simp [emptyJob, startedJob, hcur, Job.merge, pick, initialJob]
    · intro j hj
      rw [hws] at hj
      simp only [List.mem_cons, List.mem_singleton, List.not_mem_nil, or_false] at hj
      rcases hj with rfl | rfl | rfl <;>
        exact ⟨0, 0, by simp [emptyJob, startedJob, hcur, Job.merge, pick, initialJob],
          by simp [emptyJob, startedJob, hcur, Job.merge, pick, initialJob], le_refl 0⟩
    · intro _ L2 w2 hf2
      rw [hf] at hf2
      simp only [Option.some.injEq, Prod.mk.injEq, Except.ok.injEq] at hf2
      rw [← hf2.1, h0]
      rfl
  · refine ⟨new, 0 :: 0 :: ((List.range ((L.length + 24) / 25)).map
        (fun k => min (25 * (k + 1)) L.length) ++ [L.length]), hnew, ?_,
      processed_sequence_sorted _ _, ?_, ?_⟩
    · rw [hws]
      simp only [List.map_cons, List.map_append, List.map_map, List.map_nil]
      have e1 : (initialJob env schoolId fieldName body w).processedRecords = some 0 := rfl
      have e2 : (startedJob env (newJobId env w) w1 L.length).processedRecords = some 0 := by
        simp [startedJob, hcur, Job.merge, pick, initialJob]
      have e3 : (completedJob env (newJobId env w) w1 L).processedRecords = some L.length := rfl
      rw [e1, e2, e3]
      rfl
    · intro j hj
      rw [hws] at hj
      simp only [List.mem_cons, List.mem_append, List.mem_map, List.mem_range,
        List.mem_singleton, List.not_mem_nil, or_false] at hj
      rcases hj with rfl | rfl | ⟨k, _, rfl⟩ | rfl
      · exact ⟨0, 0, rfl, rfl, le_refl 0⟩
      · exact ⟨0, L.length, by simp [startedJob, hcur, Job.merge, pick, initialJob],
          by simp [startedJob, Job.merge, pick], Nat.zero_le _⟩
      · refine ⟨min (BATCH_SIZE * (k + 1)) L.length, L.length, jobAfter_processedRecords _ _ _ _ _,
          ?_, Nat.min_le_right _ _⟩
        rw [jobAfter_totalRecords]
        simp [startedJob, Job.merge, pick]
      · refine ⟨L.length, L.length, rfl, ?_, le_refl _⟩
        show pick none (jobAfter env w1.puts L (startedJob env (newJobId env w) w1 L.length)
          (batchCount L.length)).totalRecords = _
        rw [jobAfter_totalRecords]
        simp [startedJob, Job.merge, pick]
    · intro _ L2 w2 hf2
      rw [hf] at hf2
      simp only [Option.some.injEq, Prod.mk.injEq, Except.ok.injEq] at hf2
      rw [← hf2.1]

/-- A job over 60 records: the values written are 0, 0, 25, 50, 60, 60. -/
theorem C4_processed_nondecreasing_witness :
    ∃ wf new, (launch (sampleEnv (sampleStudents 60) allOk) 3 "school_7" "field_289"
          sampleBody emptyWorld).2 = some wf
      ∧ wf.events = new
      ∧ (writesOf (newJobId (sampleEnv (sampleStudents 60) allOk) emptyWorld) new).map
            (fun j => j.processedRecords)
          = [some 0, some 0, some 25, some 50, some 60, some 60] := by
  have hfetch := sample_fetch "school_7" 60 allOk 3
    (createJob (sampleEnv (sampleStudents 60) allOk) "school_7" "field_289" sampleBody
      emptyWorld).2 (by decide)
  obtain ⟨wf, hl⟩ := idealLaunch_nonempty (sampleEnv (sampleStudents 60) allOk) 3 "school_7"
    "field_289" sampleBody emptyWorld _ (sampleStudents 60) hfetch
    (by rw [sampleStudents_length]; decide) (by rw [sampleStudents_length]; decide)
  rw [← launch_mem (sampleEnv (sampleStudents 60) allOk) 3 "school_7" "field_289" rfl] at hl
  obtain ⟨new, ps, hnew, hmap, _, _, hps⟩ :=
    C4_processed_nondecreasing (sampleEnv (sampleStudents 60) allOk) 3 "school_7" "field_289"
      sampleBody emptyWorld wf hl
  refine ⟨wf, new, hl, by simpa [emptyWorld] using hnew, ?_⟩
  rw [hmap, hps rfl _ _ hfetch, sampleStudents_length]
  decide

/-- Claim C5, evaluation at the failing input: A launched job whose fetch
returns no record ends stored with status `completed` and progress 0, not 100:
the early completion writes `status`, `message` and `endTime` only. -/
theorem C5_zero_records_progress_not_100 :
    ∃ wf j, (launch (sampleEnv [] allOk) 1 "school_7" "field_289" sampleBody emptyWorld).2
        = some wf
      ∧ (wf.store (sampleEnv [] allOk)).get (newJobId (sampleEnv [] allOk) emptyWorld) = some j
      ∧ j.status = some "completed"
      ∧ j.totalRecords = some 0
      ∧ j.progress = some 0 := by
  rw [launch_mem (sampleEnv [] allOk) 1 "school_7" "field_289" rfl]
  obtain ⟨w1, hfetch⟩ : ∃ w1, fetchAllStudents (sampleEnv [] allOk) 1 "school_7"
      (createJob (sampleEnv [] allOk) "school_7" "field_289" sampleBody emptyWorld).2
      = some (Except.ok [], w1) :=
    ⟨_, fetchAllStudents_serves (sampleEnv [] allOk) "school_7" [] (sampleEnv_serves _ _) 1
      (createJob (sampleEnv [] allOk) "school_7" "field_289" sampleBody emptyWorld).2
      (by decide)⟩
  obtain ⟨cnt, _, hw1⟩ := fetchAllStudents_frame _ _ _ _ _ _ hfetch
  obtain ⟨hcur, _, _, _⟩ :=
    idealLaunch_fetch_world (sampleEnv [] allOk) "school_7" "field_289" sampleBody emptyWorld _ cnt
      hw1
  obtain ⟨wf, hl, _, hget, _⟩ :=
    idealLaunch_empty (sampleEnv [] allOk) 1 "school_7" "field_289" sampleBody emptyWorld _ hfetch
  refine ⟨wf, _, hl, hget, rfl, rfl, ?_⟩
  simp [emptyJob, startedJob, hcur, Job.merge, pick, initialJob]

/-- Claim C6, counterexample: In a job over 1000 records, the snapshot stored
after the 23rd batch has status `processing`, `totalRecords = 1000`,
`processedRecords = 575` and `progress = 57`, whereas the exact value 57.5
rounded half up is 58: the double product `(575 / 1000) * 100` is
`57.49999999999999`. -/
theorem C6_progress_not_exact_rounding :
    ∃ wf j, (launch (sampleEnv (sampleStudents 1000) allOk) 40 "school_7" "field_289"
          sampleBody emptyWorld).2 = some wf
      ∧ j ∈ writesOf (newJobId (sampleEnv (sampleStudents 1000) allOk) emptyWorld) wf.events
      ∧ j.status = some "processing"
      ∧ j.totalRecords = some 1000
      ∧ j.processedRecords = some 575
      ∧ j.progress = some 57
      ∧ exactPercent 575 1000 = 58 := by
  rw [launch_mem (sampleEnv (sampleStudents 1000) allOk) 40 "school_7" "field_289" rfl]
  have hlen : (sampleStudents 1000).length = 1000 := sampleStudents_length 1000
  have hfetch := sample_fetch "school_7" 1000 allOk 40
    (createJob (sampleEnv (sampleStudents 1000) allOk) "school_7" "field_289" sampleBody
      emptyWorld).2 (by decide)
  obtain ⟨wf, hl⟩ := idealLaunch_nonempty (sampleEnv (sampleStudents 1000) allOk) 40 "school_7"
    "field_289" sampleBody emptyWorld _ (sampleStudents 1000) hfetch
    (by rw [hlen]; decide) (by rw [hlen]; decide)
  obtain ⟨new, w1, hnew, hcur, _, hcases⟩ :=
    idealLaunch_writes (sampleEnv (sampleStudents 1000) allOk) 40 "school_7" "field_289" sampleBody
      emptyWorld wf hl
  have hnew2 : wf.events = new := by simpa [emptyWorld] using hnew
  rcases hcases with ⟨msg, hf, _⟩ | ⟨L, hf, h0, _⟩ | ⟨L, hf, h0, hws⟩
  · rw [hfetch] at hf; simp at hf
  · rw [hfetch] at hf
    simp only [Option.some.injEq, Prod.mk.injEq, Except.ok.injEq] at hf
    rw [← hf.1, hlen] at h0
    simp at h0
  · rw [hfetch] at hf
    simp only [Option.some.injEq, Prod.mk.injEq, Except.ok.injEq] at hf
    obtain ⟨hL, _⟩ := hf
    subst hL
    refine ⟨wf, jobAfter (sampleEnv (sampleStudents 1000) allOk) w1.puts (sampleStudents 1000)
      (startedJob (sampleEnv (sampleStudents 1000) allOk)
        (newJobId (sampleEnv (sampleStudents 1000) allOk) emptyWorld) w1
        (sampleStudents 1000).length) (22 + 1), hl, ?_, ?_, ?_, ?_, ?_, by decide⟩
    · rw [hnew2, hws]
      simp only [List.mem_cons, List.mem_append, List.mem_map, List.mem_range]
      right; right; left
      exact ⟨22, by rw [hlen]; decide, rfl⟩
    · rw [jobAfter_status]
      simp [startedJob, Job.merge, pick]
    · rw [jobAfter_totalRecords]
      simp [startedJob, Job.merge, pick, hlen]
    · rw [jobAfter_processedRecords, hlen]
      decide
    · rw [jobAfter_progress, hlen]
      decide

/-- Claim C6, amended: Every snapshot of a launched job stored with status
`processing` and `totalRecords = t > 0` has `processedRecords = p ≤ t` and
`progress` equal to `Math.round((p / t) * 100)` as evaluated in double
precision, an integer between 0 and 100; for `t < 2 ^ 44` this is the exact
percentage rounded half up, or one less when the exact percentage is a
half-integer. -/
theorem C6_progress_is_double_rounding (body : RequestBody) (w wf : World)
    (h : (launch env fuel schoolId fieldName body w).2 = some wf) :
    ∃ new, wf.events = w.events ++ new
      ∧ ∀ j ∈ writesOf (newJobId env w) new, j.status = some "processing" →
          ∀ t, j.totalRecords = some t → 0 < t →
            ∃ p, j.processedRecords = some p ∧ p ≤ t
              ∧ j.progress = some (progressPercent p t)
              ∧ progressPercent p t ≤ 100
              ∧ (t < 2 ^ 44 →
                  progressPercent p t = exactPercent p t
                  ∨ ((200 * p + t) % (2 * t) = 0
                      ∧ progressPercent p t + 1 = exactPercent p t)) := by
  cases hkv : env.kv with
  | true =>
    obtain ⟨cnt, _, hev, _, _⟩ := launch_kv env fuel schoolId fieldName hkv body w wf h
    refine ⟨_, hev, ?_⟩
    intro j hj hst t ht hpos
    simp only [writesOf, writesOf_pageRequests, if_true, List.mem_singleton] at hj
    subst hj
    simp [initialJob] at ht
    omega
  | false =>
  rw [launch_mem env fuel schoolId fieldName hkv] at h
  obtain ⟨new, w1, hnew, hcur, _, hcases⟩ :=
    idealLaunch_writes env fuel schoolId fieldName body w wf h
  refine ⟨new, hnew, ?_⟩
  intro j hj hst t ht hpos
  rcases hcases with ⟨msg, hf, hws⟩ | ⟨L, hf, h0, hws⟩ | ⟨L, hf, h0, hws⟩
  · rw [hws] at hj
    simp only [List.mem_cons, List.mem_singleton, List.not_mem_nil, or_false] at hj
    rcases hj with rfl | rfl | rfl
    · simp [initialJob] at ht; omega
    · simp [failedJob, Job.merge, pick] at hst
    · simp [refailedJob, Job.merge, pick] at hst
  · rw [hws] at hj
    simp only [List.mem_cons, List.mem_singleton, List.not_mem_nil, or_false] at hj
    rcases hj with rfl | rfl | rfl
    · simp [initialJob] at ht; omega
    · simp [startedJob, Job.merge, pick] at ht; omega
    · simp [emptyJob, Job.merge, pick] at hst
  · rw [hws] at hj
    simp only [List.mem_cons, List.mem_append, List.mem_map, List.mem_range,
      List.mem_singleton, List.not_mem_nil, or_false] at hj
    rcases hj with rfl | rfl | ⟨k, _, rfl⟩ | rfl
    · simp [initialJob] at ht; omega
    · have e : t = L.length := by
        simp [startedJob, Job.merge, pick] at ht; omega
      subst e
      refine ⟨0, by simp [startedJob, hcur, Job.merge, pick, initialJob], Nat.zero_le _, ?_,
        by rw [progressPercent_zero]; exact Nat.zero_le _,
        fun _ => Or.inl (by rw [progressPercent_zero, exactPercent_zero _ hpos])⟩
      rw [progressPercent_zero]
      simp [startedJob, hcur, Job.merge, pick, initialJob]
    · have e : t = L.length := by
        rw [jobAfter_totalRecords] at ht
        simp [startedJob, Job.merge, pick] at ht; omega
      subst e
      exact ⟨min (BATCH_SIZE * (k + 1)) L.length, jobAfter_processedRecords _ _ _ _ _,
        Nat.min_le_right _ _, jobAfter_progress _ _ _ _ _,
        progressPercent_le _ _ hpos (Nat.min_le_right _ _),
        fun hsmall => progressPercent_near_exact _ _
          (by simp only [BATCH_SIZE]; omega) (Nat.min_le_right _ _) hsmall⟩
    · simp [completedJob, Job.merge, pick] at hst

/-- A job over 60 records: every snapshot stored while processing carries the
double-precision rounding of its percentage. -/
theorem C6_progress_is_double_rounding_witness :
    ∃ wf new, (launch (sampleEnv (sampleStudents 60) allOk) 3 "school_7" "field_289"
          sampleBody emptyWorld).2 = some wf
      ∧ wf.events = new
      ∧ ∀ j ∈ writesOf (newJobId (sampleEnv (sampleStudents 60) allOk) emptyWorld) new,
          j.status = some "processing" → ∀ t, j.totalRecords = some t → 0 < t →
            ∃ p, j.processedRecords = some p ∧ p ≤ t
              ∧ j.progress = some (progressPercent p t)
              ∧ progressPercent p t ≤ 100
              ∧ (t < 2 ^ 44 →
                  progressPercent p t = exactPercent p t
                  ∨ ((200 * p + t) % (2 * t) = 0
                      ∧ progressPercent p t + 1 = exactPercent p t)) := by
  have hfetch := sample_fetch "school_7" 60 allOk 3
    (createJob (sampleEnv (sampleStudents 60) allOk) "school_7" "field_289" sampleBody
      emptyWorld).2 (by decide)
  obtain ⟨wf, hl⟩ := idealLaunch_nonempty (sampleEnv (sampleStudents 60) allOk) 3 "school_7"
    "field_289" sampleBody emptyWorld _ (sampleStudents 60) hfetch
    (by rw [sampleStudents_length]; decide) (by rw [sampleStudents_length]; decide)
  rw [← launch_mem (sampleEnv (sampleStudents 60) allOk) 3 "school_7" "field_289" rfl] at hl
  obtain ⟨new, hnew, hall⟩ :=
    C6_progress_is_double_rounding (sampleEnv (sampleStudents 60) allOk) 3 "school_7"
      "field_289" sampleBody emptyWorld wf hl
  exact ⟨wf, new, hl, by simpa [emptyWorld] using hnew, hall⟩

/-- Claim C9, counterexample: With the upstream down, the orchestrator stores
the job with status `failed` and an `endTime`, and the handler then writes the
job again with a later `endTime`: a stored terminal job is changed by a later
write. -/
theorem C9_failed_job_written_again :
    ∃ wf j1 j2, (launch (downEnv "Service Unavailable") 1 "school_7" "field_289" sampleBody
          emptyWorld).2 = some wf
      ∧ writesOf (newJobId (downEnv "Service Unavailable") emptyWorld) wf.events
          = [initialJob (downEnv "Service Unavailable") "school_7" "field_289" sampleBody
              emptyWorld, j1, j2]
      ∧ j1.status = some "failed"
      ∧ j1.endTime = some 1700000000014
      ∧ j2.status = some "failed"
      ∧ j2.endTime = some 1700000000021 := by
  rw [launch_mem (downEnv "Service Unavailable") 1 "school_7" "field_289" rfl]
  have hfetch := down_fetch "Service Unavailable" "school_7"
    (createJob (downEnv "Service Unavailable") "school_7" "field_289" sampleBody emptyWorld).2
  obtain ⟨wf, hl, _⟩ := idealLaunch_failed (downEnv "Service Unavailable") 1 "school_7" "field_289"
    sampleBody emptyWorld _ _ hfetch
  obtain ⟨new, w1, hnew, _, hclock, hcases⟩ :=
    idealLaunch_writes (downEnv "Service Unavailable") 1 "school_7" "field_289" sampleBody
      emptyWorld wf hl
  have hnew2 : wf.events = new := by simpa [emptyWorld] using hnew
  rcases hcases with ⟨msg, hf, hws⟩ | ⟨L, hf, _⟩ | ⟨L, hf, _⟩
  · refine ⟨wf, _, _, hl, by rw [hnew2]; exact hws, rfl, ?_, rfl, ?_⟩
    · simp [failedJob, Job.merge, pick, hclock, downEnv, emptyWorld]
    · simp [refailedJob, Job.merge, pick, hclock, downEnv, emptyWorld]
  · rw [hfetch] at hf; simp at hf
  · rw [hfetch] at hf; simp at hf

/-- Claim C9, amended: Among the writes of a launched job: once a job with
status `completed` has been stored, no later write follows; once a job with
status `failed` has been stored, at most one write follows (the one of the
handler attached by `.catch`), and it stores status `failed` and the same
error again and changes no field other than `endTime`. -/
theorem C9_terminal_job_later_writes (body : RequestBody) (w wf : World)
    (h : (launch env fuel schoolId fieldName body w).2 = some wf) :
    ∃ new, wf.events = w.events ++ new
      ∧ ∀ pre j post, writesOf (newJobId env w) new = pre ++ j :: post →
          (j.status = some "completed" → post = [])
          ∧ (j.status = some "failed" →
              post.length ≤ 1
              ∧ ∀ j2 ∈ post, j2.status = some "failed" ∧ j2.error = j.error
                  ∧ { j2 with endTime := j.endTime } = j) := by
  cases hkv : env.kv with
  | true =>
    obtain ⟨cnt, _, hev, _, _⟩ := launch_kv env fuel schoolId fieldName hkv body w wf h
    refine ⟨_, hev, ?_⟩
    intro pre j post hsplit
    have hws : writesOf (newJobId env w)
        (Event.write (newJobId env w) (initialJob env schoolId fieldName body w)
          :: pageRequests schoolId 1 cnt)
        = [] ++ [initialJob env schoolId fieldName body w] := by
      simp [writesOf, writesOf_pageRequests]
    rw [hws] at hsplit
    have hj : (fun a : Job => a.status = some "processing") j ∨ post = [] := by
      by_cases hp : j.status = some "processing"
      · exact Or.inl hp
      · exact Or.inr (append_singleton_split (fun a : Job => a.status = some "processing")
          [] _ _ _ _ (by simp) hp hsplit).1
    rcases hj with hp | hp
    · exact ⟨fun hc => absurd (hp.symm.trans hc) (by decide),
        fun hc => absurd (hp.symm.trans hc) (by decide)⟩
    · rw [hp]
      exact ⟨fun _ => rfl, fun _ => ⟨by simp, by simp⟩⟩
  | false =>
  rw [launch_mem env fuel schoolId fieldName hkv] at h
  obtain ⟨new, w1, hnew, hcur, _, hcases⟩ :=
    idealLaunch_writes env fuel schoolId fieldName body w wf h
  refine ⟨new, hnew, ?_⟩
  intro pre j post hsplit
  have hinit : (initialJob env schoolId fieldName body w).status = some "processing" := rfl
  have hpc : (some "processing" : Option String) ≠ some "completed" := by decide
  have hpf : (some "processing" : Option String) ≠ some "failed" := by decide
  have hfc : (some "failed" : Option String) ≠ some "completed" := by decide
  rcases hcases with ⟨msg, hf, hws⟩ | ⟨L, hf, h0, hws⟩ | ⟨L, hf, h0, hws⟩
  · rw [hws] at hsplit
    rcases triple_split _ _ _ _ _ _ hsplit with ⟨_, hj, _⟩ | ⟨_, hj, hpost⟩ | ⟨_, _, hpost⟩
    · subst hj
      exact ⟨fun hc => absurd (hinit.symm.trans hc) hpc,
        fun hc => absurd (hinit.symm.trans hc) hpf⟩
    · subst hj hpost
      refine ⟨fun hc => absurd hc hfc, fun _ => ⟨le_refl 1, ?_⟩⟩
      intro j2 hj2
      simp only [List.mem_singleton] at hj2
      subst hj2
      refine ⟨rfl, rfl, ?_⟩
      simp [refailedJob, failedJob, Job.merge, pick]
    · subst hpost
      exact ⟨fun _ => rfl, fun _ => ⟨by simp, by simp⟩⟩
  · have hxs : ∀ a ∈ [initialJob env schoolId fieldName body w,
        startedJob env (newJobId env w) w1 0], a.status = some "processing" := by
      intro a ha
      simp only [List.mem_cons, List.mem_singleton, List.not_mem_nil, or_false] at ha
      rcases ha with rfl | rfl
      · rfl
      · rfl
    have hsplit2 : [initialJob env schoolId fieldName body w,
        startedJob env (newJobId env w) w1 0] ++ [emptyJob env (newJobId env w) w1]
        = pre ++ j :: post := by rw [← hsplit, hws]; rfl
    refine ⟨fun hc => ?_, fun hc => ?_⟩
    · exact (append_singleton_split (fun a : Job => a.status = some "processing") _ _ _ _ _
        hxs (fun hp => hpc (hp.symm.trans hc)) hsplit2).1
    · have hp := (append_singleton_split (fun a : Job => a.status = some "processing") _ _ _
        _ _ hxs (fun hp => hpf (hp.symm.trans hc)) hsplit2).1
      rw [hp]
      exact ⟨by simp, by simp⟩
  · have hxs : ∀ a ∈ initialJob env schoolId fieldName body w
          :: startedJob env (newJobId env w) w1 L.length
          :: (List.range (batchCount L.length)).map
              (fun k => jobAfter env w1.puts L
                (startedJob env (newJobId env w) w1 L.length) (k + 1)),
        a.status = some "processing" := by
      intro a ha
      simp only [List.mem_cons, List.mem_map, List.mem_range] at ha
      rcases ha with rfl | rfl | ⟨k, _, rfl⟩
      · rfl
      · rfl
      · rw [jobAfter_status]; rfl
    have hsplit2 : (initialJob env schoolId fieldName body w
          :: startedJob env (newJobId env w) w1 L.length
          :: (List.range (batchCount L.length)).map
              (fun k => jobAfter env w1.puts L
                (startedJob env (newJobId env w) w1 L.length) (k + 1)))
          ++ [completedJob env (newJobId env w) w1 L]
        = pre ++ j :: post := by rw [← hsplit, hws]; rfl
    refine ⟨fun hc => ?_, fun hc => ?_⟩
    · exact (append_singleton_split (fun a : Job => a.status = some "processing") _ _ _ _ _
        hxs (fun hp => hpc (hp.symm.trans hc)) hsplit2).1
    · have hp := (append_singleton_split (fun a : Job => a.status = some "processing") _ _ _
        _ _ hxs (fun hp => hpf (hp.symm.trans hc)) hsplit2).1
      rw [hp]
      exact ⟨by simp, by simp⟩

/-- With the upstream down: the job is written as failed twice, the second
write changing nothing but `endTime`. -/
theorem C9_terminal_job_later_writes_witness :
    ∃ wf new, (launch (downEnv "Service Unavailable") 1 "school_7" "field_289" sampleBody
          emptyWorld).2 = some wf
      ∧ wf.events = new
      ∧ ∀ pre j post,
          writesOf (newJobId (downEnv "Service Unavailable") emptyWorld) new
            = pre ++ j :: post →
          (j.status = some "completed" → post = [])
          ∧ (j.status = some "failed" →
              post.length ≤ 1
              ∧ ∀ j2 ∈ post, j2.status = some "failed" ∧ j2.error = j.error
                  ∧ { j2 with endTime := j.endTime } = j) := by
  obtain ⟨wf, hl, _⟩ := idealLaunch_failed (downEnv "Service Unavailable") 1 "school_7" "field_289"
    sampleBody emptyWorld _ _
    (down_fetch "Service Unavailable" "school_7"
      (createJob (downEnv "Service Unavailable") "school_7" "field_289" sampleBody
        emptyWorld).2)
  rw [← launch_mem (downEnv "Service Unavailable") 1 "school_7" "field_289" rfl] at hl
  obtain ⟨new, hnew, hall⟩ :=
    C9_terminal_job_later_writes (downEnv "Service Unavailable") 1 "school_7" "field_289"
      sampleBody emptyWorld wf hl
  exact ⟨wf, new, hl, by simpa [emptyWorld] using hnew, hall⟩

end claims

section pacing

variable (env : Env) (fuel : Nat) (jobId schoolId fieldName : String) (value : JsValue)

theorem paceOf_append (xs ys : List Event) : paceOf (xs ++ ys) = paceOf xs ++ paceOf ys := by
  induction xs with
  | nil => rfl
  | cons e t ih => cases e <;> simp [paceOf, ih]

theorem paceOf_pageRequests (page cnt : Nat) :
    paceOf (pageRequests schoolId page cnt) = [] := by
  induction cnt generalizing page with
  | zero => rfl
  | succ cnt ih =>
    rw [pageRequests_succ]
    simpa only [paceOf] using ih (page + 1)

theorem paceOf_map_put (b : List Student) :
    paceOf (b.map (fun s => Event.put s.id (putBody fieldName value))) = [] := by
  induction b with
  | nil => rfl
  | cons s rest ih => simp [paceOf, ih]

theorem delaysOf_map_put (b : List Student) :
    delaysOf (b.map (fun s => Event.put s.id (putBody fieldName value))) = [] := by
  induction b with
  | nil => rfl
  | cons s rest ih => simp [delaysOf, ih]

theorem replicate_flatten_snoc {α : Type} (k : Nat) (xs : List α) :
    (List.replicate (k + 1) xs).flatten = (List.replicate k xs).flatten ++ xs := by
  induction k with
  | zero => simp
  | succ k ih =>
    show (xs :: List.replicate (k + 1) xs).flatten
      = (xs :: List.replicate k xs).flatten ++ xs
    simp only [List.flatten_cons, List.append_assoc]
    rw [ih]

theorem replicate_snoc {α : Type} (k : Nat) (x : α) :
    List.replicate (k + 1) x = List.replicate k x ++ [x] := by
  induction k with
  | zero => rfl
  | succ k ih =>
    show x :: List.replicate (k + 1) x = (x :: List.replicate k x) ++ [x]
    rw [ih]
    rfl

/-- An iteration that is not the last one ends with the pause. -/
theorem iterationEvents_inner (p0 : Nat) (students : List Student) (cur0 : Job) (k : Nat)
    (hk : k + 1 < batchCount students.length) :
    paceOf (iterationEvents env jobId fieldName value p0 students cur0 k)
        = [Pace.batch, Pace.pause DELAY_BETWEEN_BATCHES]
      ∧ delaysOf (iterationEvents env jobId fieldName value p0 students cur0 k)
        = [DELAY_BETWEEN_BATCHES] := by
  have hlt : BATCH_SIZE * k + BATCH_SIZE < students.length := by
    simp only [batchCount, BATCH_SIZE] at *
    omega
  unfold iterationEvents
  simp [hlt, paceOf, paceOf_append, paceOf_map_put, delaysOf, delaysOf_append,
    delaysOf_map_put]

/-- The last iteration takes no pause. -/
theorem iterationEvents_last (p0 : Nat) (students : List Student) (cur0 : Job) (k : Nat)
    (hk : k + 1 = batchCount students.length) :
    paceOf (iterationEvents env jobId fieldName value p0 students cur0 k) = [Pace.batch]
      ∧ delaysOf (iterationEvents env jobId fieldName value p0 students cur0 k) = [] := by
  have hlt : ¬ BATCH_SIZE * k + BATCH_SIZE < students.length := by
    simp only [batchCount, BATCH_SIZE] at *
    omega
  unfold iterationEvents
  simp [hlt, paceOf, paceOf_append, paceOf_map_put, delaysOf, delaysOf_append,
    delaysOf_map_put]

theorem loopEvents_inner (p0 : Nat) (students : List Student) (cur0 : Job) (k : Nat)
    (hk : k < batchCount students.length) :
    paceOf (loopEvents env jobId fieldName value p0 students cur0 k)
        = (List.replicate k [Pace.batch, Pace.pause DELAY_BETWEEN_BATCHES]).flatten
      ∧ delaysOf (loopEvents env jobId fieldName value p0 students cur0 k)
        = List.replicate k DELAY_BETWEEN_BATCHES := by
  induction k with
  | zero => exact ⟨rfl, rfl⟩
  | succ k ih =>
    obtain ⟨ih1, ih2⟩ := ih (by omega)
    obtain ⟨h1, h2⟩ :=
      iterationEvents_inner env jobId fieldName value p0 students cur0 k hk
    constructor
    · rw [loopEvents, paceOf_append, ih1, h1, replicate_flatten_snoc]
    · rw [loopEvents, delaysOf_append, ih2, h2, replicate_snoc]

/-- The pacing of the whole loop: batch, pause, ..., batch. -/
theorem loopEvents_pace (p0 : Nat) (students : List Student) (cur0 : Job)
    (hn : 1 ≤ students.length) :
    paceOf (loopEvents env jobId fieldName value p0 students cur0
          (batchCount students.length))
        = (List.replicate (batchCount students.length - 1)
            [Pace.batch, Pace.pause DELAY_BETWEEN_BATCHES]).flatten ++ [Pace.batch]
      ∧ delaysOf (loopEvents env jobId fieldName value p0 students cur0
          (batchCount students.length))
        = List.replicate (batchCount students.length - 1) DELAY_BETWEEN_BATCHES := by
  have hm : 1 ≤ batchCount students.length := by
    simp only [batchCount, BATCH_SIZE]
    omega
  obtain ⟨m, hme⟩ : ∃ m, batchCount students.length = m + 1 := ⟨_, (Nat.sub_add_cancel hm).symm⟩
  obtain ⟨h1, h2⟩ :=
    loopEvents_inner env jobId fieldName value p0 students cur0 m (by omega)
  obtain ⟨h3, h4⟩ :=
    iterationEvents_last env jobId fieldName value p0 students cur0 m hme.symm
  rw [hme]
  constructor
  · rw [loopEvents, paceOf_append, h1, h3, Nat.add_sub_cancel]
  · rw [loopEvents, delaysOf_append, h2, h4, Nat.add_sub_cancel, List.append_nil]

/-- Claim C11: A run over `n ≥ 1` fetched records that meets no job-level
error (it resolves, as every such run does with the in-memory job store, and
none with the durable one) takes the 2000 ms pause
exactly once after each batch except the last: its batches and pauses
alternate as batch, pause, ..., batch, with `ceil(n / 25) - 1` pauses of 2000 ms
in total (two for `n = 60`, none for `n ≤ 25`). -/
theorem C11_pause_between_batches (w w1 : World) (L : List Student)
    (hmode : env.kv = false
      ∨ ∃ wf0, processBulkUpdate env fuel jobId schoolId fieldName value w
          = some (Except.ok (), wf0))
    (hfetch : fetchAllStudents env fuel schoolId w = some (Except.ok L, w1))
    (hn : 1 ≤ L.length) (hfuel : L.length ≤ BATCH_SIZE * fuel) :
    ∃ wf, processBulkUpdate env fuel jobId schoolId fieldName value w
        = some (Except.ok (), wf)
      ∧ delaysOf wf.events
          = delaysOf w.events ++ List.replicate ((L.length + 24) / 25 - 1) 2000
      ∧ paceOf wf.events
          = paceOf w.events
            ++ ((List.replicate ((L.length + 24) / 25 - 1)
                  [Pace.batch, Pace.pause 2000]).flatten ++ [Pace.batch])
      ∧ (L.length = 60 → delaysOf wf.events = delaysOf w.events ++ [2000, 2000])
      ∧ (L.length ≤ 25 → delaysOf wf.events = delaysOf w.events) := by
  have hkv : env.kv = false :=
    hmode.elim id
      (fun h => h.elim (processBulkUpdate_ok_mem env fuel jobId schoolId fieldName value w))
  rw [processBulkUpdate_mem env fuel jobId schoolId fieldName value hkv]
  obtain ⟨wf, hrun, hev, _, _, _⟩ :=
    idealRun_nonempty env fuel jobId schoolId fieldName value w w1 L hfetch
      (by omega) hfuel
  obtain ⟨cnt, _, hw1⟩ := fetchAllStudents_frame env fuel schoolId w w1 _ hfetch
  obtain ⟨hpace, hdel⟩ := loopEvents_pace env jobId fieldName value w1.puts L
    (startedJob env jobId w1 L.length) hn
  have hd : delaysOf wf.events
      = delaysOf w.events ++ List.replicate ((L.length + 24) / 25 - 1) 2000 := by
    rw [hev]
    simp only [delaysOf_append, delaysOf, hdel, List.append_nil]
    rw [hw1]
    simp only [delaysOf_append, delaysOf_pageRequests, List.append_nil]
    rfl
  refine ⟨wf, hrun, hd, ?_, ?_, ?_⟩
  · rw [hev]
    simp only [paceOf_append, paceOf, hpace, List.append_nil]
    rw [hw1]
    simp only [paceOf_append, paceOf_pageRequests, List.append_nil]
    rfl
  · intro h60
    rw [hd, h60]
    rfl
  · intro h25
    rw [hd]
    have : (L.length + 24) / 25 - 1 = 0 := by omega
    rw [this]
    simp

/-- A run over 60 fetched records pauses twice, between its three batches. -/
theorem C11_pause_between_batches_witness :
    ∃ wf, processBulkUpdate (sampleEnv (sampleStudents 60) allOk) 3 "job_1" "school_7"
          "field_289" (JsValue.str "Yes") emptyWorld = some (Except.ok (), wf)
      ∧ delaysOf wf.events = [2000, 2000]
      ∧ paceOf wf.events
          = [Pace.batch, Pace.pause 2000, Pace.batch, Pace.pause 2000, Pace.batch] := by
  have hlen : (sampleStudents 60).length = 60 := sampleStudents_length 60
  obtain ⟨wf, hrun, hd, hp, _, _⟩ :=
    C11_pause_between_batches (sampleEnv (sampleStudents 60) allOk) 3 "job_1" "school_7"
      "field_289" (JsValue.str "Yes") emptyWorld _ (sampleStudents 60) (Or.inl rfl)
      (sample_fetch "school_7" 60 allOk 3 emptyWorld (by decide))
      (by rw [hlen]; decide) (by rw [hlen]; decide)
  refine ⟨wf, hrun, ?_, ?_⟩
  · rw [hd, hlen]; rfl
  · rw [hp, hlen]; rfl

/-- Claim C20: A run that fetches `n ≥ 1` records and reaches `completed` (it
resolves, as every such run does with the in-memory job store, and none with
the durable one) ends with the job stored as
`completed` with `processedRecords = totalRecords = n` and the message
`Successfully updated n of n records`, whatever the answers to the updates:
the rejected ones are listed in `errors` and change neither the count nor the
message. -/
theorem C20_summary_counts_attempts (w w1 : World) (L : List Student)
    (hmode : env.kv = false
      ∨ ∃ wf0, processBulkUpdate env fuel jobId schoolId fieldName value w
          = some (Except.ok (), wf0))
    (hfetch : fetchAllStudents env fuel schoolId w = some (Except.ok L, w1))
    (hn : 1 ≤ L.length) (hfuel : L.length ≤ BATCH_SIZE * fuel) :
    ∃ wf j, processBulkUpdate env fuel jobId schoolId fieldName value w
        = some (Except.ok (), wf)
      ∧ (wf.store env).get jobId = some j
      ∧ j.status = some "completed"
      ∧ j.processedRecords = some L.length
      ∧ j.totalRecords = some L.length
      ∧ j.message = some ("Successfully updated " ++ toString L.length ++ " of "
          ++ toString L.length ++ " records")
      ∧ j.errors = some (errorsAfter env w.puts L ((L.length + 24) / 25)) := by
  have hkv : env.kv = false :=
    hmode.elim id
      (fun h => h.elim (processBulkUpdate_ok_mem env fuel jobId schoolId fieldName value w))
  rw [processBulkUpdate_mem env fuel jobId schoolId fieldName value hkv]
  obtain ⟨wf, hrun, _, hget, _, _⟩ :=
    idealRun_nonempty env fuel jobId schoolId fieldName value w w1 L hfetch
      (by omega) hfuel
  obtain ⟨cnt, _, hw1⟩ := fetchAllStudents_frame env fuel schoolId w w1 _ hfetch
  have hputs : w1.puts = w.puts := by rw [hw1]
  refine ⟨wf, _, hrun, hget, rfl, rfl, ?_, rfl, ?_⟩
  · show pick none (jobAfter env w1.puts L (startedJob env jobId w1 L.length)
      (batchCount L.length)).totalRecords = _
    rw [jobAfter_totalRecords]
    simp [startedJob, Job.merge, pick]
  · rw [← hputs]
    rfl

/-- Three records whose updates are all rejected: the job still reports
`Successfully updated 3 of 3 records`, with three entries in `errors`. -/
theorem C20_summary_counts_attempts_witness :
    ∃ wf j, processBulkUpdate (sampleEnv (sampleStudents 3) (failsAll "Forbidden")) 1 "job_1"
          "school_7" "field_289" (JsValue.str "Yes") emptyWorld = some (Except.ok (), wf)
      ∧ (wf.store (sampleEnv (sampleStudents 3) (failsAll "Forbidden"))).get "job_1" = some j
      ∧ j.status = some "completed"
      ∧ j.processedRecords = some 3
      ∧ j.totalRecords = some 3
      ∧ j.message = some "Successfully updated 3 of 3 records"
      ∧ j.errors = some
          [{ studentId := "rec0", error := "Failed to update record rec0: Forbidden" },
           { studentId := "rec1", error := "Failed to update record rec1: Forbidden" },
           { studentId := "rec2", error := "Failed to update record rec2: Forbidden" }] := by
  have hlen : (sampleStudents 3).length = 3 := sampleStudents_length 3
  obtain ⟨wf, j, hrun, hget, hs, hp, ht, hm, he⟩ :=
    C20_summary_counts_attempts (sampleEnv (sampleStudents 3) (failsAll "Forbidden")) 1
      "job_1" "school_7" "field_289" (JsValue.str "Yes") emptyWorld _ (sampleStudents 3)
      (Or.inl rfl)
      (sample_fetch "school_7" 3 _ 1 emptyWorld (by decide))
      (by rw [hlen]; decide) (by rw [hlen]; decide)
  rw [hlen] at hp ht hm he
  refine ⟨wf, j, hrun, hget, hs, hp, ht, ?_, ?_⟩
  · rw [hm]; decide
  · rw [he]; decide

end pacing

section submission

variable (env : Env) (fuel : Nat)

theorem truthy_orElse_absent (a b : Option String)
    (ha : a = none ∨ a = some "") (hb : b = none ∨ b = some "") :
    truthy (orElse a b) = false := by
  rcases ha with rfl | rfl <;> rcases hb with rfl | rfl <;> rfl

theorem orElse_first (a b : Option String) (x : String) (ha : a = some x) (hx : x ≠ "") :
    orElse a b = some x := by
  subst ha
  simp [orElse, truthy, hx]

theorem orElse_second (a b : Option String) (x : String)
    (ha : a = none ∨ a = some "") (hb : b = some x) :
    orElse a b = some x := by
  subst hb
  rcases ha with rfl | rfl <;> rfl

theorem truthy_some (x : String) (hx : x ≠ "") : truthy (some x) = true := by
  simp [truthy, hx]

theorem handler_post_no_body (req : Request) (w : World) (hpost : req.method = "POST")
    (hbody : req.body = none) :
    handler env fuel req w
      = ({ status := 500, headers := corsHeaders,
           body := some
            { error := some "Internal server error",
              details := some env.destructureError } },
         some w) := by
  have h1 : ¬ "POST" = "OPTIONS" := by decide
  unfold handler
  simp only [h1, hpost, hbody, if_false, ne_eq, not_true_eq_false]

theorem handler_post_invalid (req : Request) (body : RequestBody) (w : World)
    (hpost : req.method = "POST") (hbody : req.body = some body)
    (hbad : truthy (orElse req.appIdHeader env.envAppId) = false
      ∨ truthy (orElse req.apiKeyHeader env.envApiKey) = false
      ∨ truthy body.schoolId = false
      ∨ truthy body.fieldName = false) :
    (handler env fuel req w).1.status = 400 ∧ (handler env fuel req w).2 = some w := by
  have h1 : ¬ "POST" = "OPTIONS" := by decide
  unfold handler
  simp only [h1, hpost, hbody, if_false, ne_eq, not_true_eq_false]
  by_cases hc : (!truthy (orElse req.appIdHeader env.envAppId)
      || !truthy (orElse req.apiKeyHeader env.envApiKey)) = true
  · simp only [hc, if_true]
    exact ⟨trivial, trivial⟩
  · simp only [hc, if_false]
    have hc2 : truthy (orElse req.appIdHeader env.envAppId) = true
        ∧ truthy (orElse req.apiKeyHeader env.envApiKey) = true := by
      simpa using hc
    cases hs : body.schoolId with
    | none => cases hf : body.fieldName <;> exact ⟨rfl, rfl⟩
    | some sid =>
      cases hf : body.fieldName with
      | none => exact ⟨rfl, rfl⟩
      | some fname =>
        simp only []
        by_cases hempty : sid = "" ∨ fname = ""
        · simp only [hempty, if_true]
          exact ⟨rfl, rfl⟩
        · exfalso
          rw [hs, hf, hc2.1, hc2.2] at hbad
          rcases hbad with h | h | h | h
          · exact absurd h (by decide)
          · exact absurd h (by decide)
          · exact hempty (Or.inl (by simpa [truthy] using h))
          · exact hempty (Or.inr (by simpa [truthy] using h))

theorem handler_post_valid (req : Request) (body : RequestBody) (w : World)
    (sid fname : String)
    (hpost : req.method = "POST") (hbody : req.body = some body)
    (happ : truthy (orElse req.appIdHeader env.envAppId) = true)
    (hkey : truthy (orElse req.apiKeyHeader env.envApiKey) = true)
    (hs : body.schoolId = some sid) (hsne : sid ≠ "")
    (hf : body.fieldName = some fname) (hfne : fname ≠ "") :
    handler env fuel req w
      = ({ status := 200, headers := corsHeaders,
           body := some
            { success := some true,
              jobId := some (newJobId env w),
              message := some ("Bulk update initiated for " ++ render body.toggleType),
              statusUrl := some ("/api/toggle-status/" ++ newJobId env w) } },
         (launch env fuel sid fname body w).2) := by
  have h1 : ¬ "POST" = "OPTIONS" := by decide
  unfold handler
  simp only [h1, hpost, hbody, if_false, ne_eq, not_true_eq_false, happ, hkey, hs, hf,
    Bool.not_true, Bool.or_self, Bool.false_eq_true, hsne, hfne, or_self]
  rfl

/-- Claim C17, counterexample: A POST that carries no body is answered 500,
not 400, although `schoolId` and `fieldName` are missing, and whether or not
credentials are present: the destructuring of `req.body` at the head of the
`try` block throws before any check. -/
theorem C17_post_without_body_answers_500 :
    (handler (sampleEnv [] allOk) 1
        { method := "POST", appIdHeader := some "app-id", apiKeyHeader := some "api-key",
          body := none } emptyWorld).1.status = 500
    ∧ (handler (sampleEnv [] allOk) 1
        { method := "POST", appIdHeader := none, apiKeyHeader := none,
          body := none } emptyWorld).1.status = 500 := by
  decide

/-- Claim C17, as amended: For a POST request to the bulk-update handler. When
the request carries no body, the response is 500 and the world is unchanged.
When it carries a body, and the application id or the API key is absent or
empty both in the headers and in the environment, or `schoolId` or `fieldName`
is absent or empty in the body, the response is 400 and the world is unchanged,
so that no job is stored and no upstream call is made. Otherwise (each
credential non-empty in its header, or else in the environment, and `schoolId`
and `fieldName` non-empty) the response is 200 with `success: true` and the id
of the job, and at that point a job with status `processing`, progress 0,
`totalRecords` 0, `processedRecords` 0 and empty `errors` is stored under that
id, the detached run starting from there. -/
theorem C17_submission_validated (req : Request) (w : World)
    (hpost : req.method = "POST") :
    (req.body = none →
      (handler env fuel req w).1.status = 500 ∧ (handler env fuel req w).2 = some w)
    ∧ (∀ body, req.body = some body →
        (((req.appIdHeader = none ∨ req.appIdHeader = some "")
            ∧ (env.envAppId = none ∨ env.envAppId = some ""))
          ∨ ((req.apiKeyHeader = none ∨ req.apiKeyHeader = some "")
            ∧ (env.envApiKey = none ∨ env.envApiKey = some ""))
          ∨ (body.schoolId = none ∨ body.schoolId = some "")
          ∨ (body.fieldName = none ∨ body.fieldName = some "")) →
        (handler env fuel req w).1.status = 400 ∧ (handler env fuel req w).2 = some w)
    ∧ (∀ body appId apiKey sid fname, req.body = some body →
        (req.appIdHeader = some appId
          ∨ ((req.appIdHeader = none ∨ req.appIdHeader = some "")
              ∧ env.envAppId = some appId)) →
        appId ≠ "" →
        (req.apiKeyHeader = some apiKey
          ∨ ((req.apiKeyHeader = none ∨ req.apiKeyHeader = some "")
              ∧ env.envApiKey = some apiKey)) →
        apiKey ≠ "" →
        body.schoolId = some sid → sid ≠ "" →
        body.fieldName = some fname → fname ≠ "" →
          (handler env fuel req w).1.status = 200
          ∧ (∃ b, (handler env fuel req w).1.body = some b ∧ b.success = some true
              ∧ b.jobId = some (newJobId env w))
          ∧ (∃ j, ((createJob env sid fname body w).2.store env).get (newJobId env w)
                = some j
              ∧ (createJob env sid fname body w).2.events
                = w.events ++ [Event.write (newJobId env w) j]
              ∧ j.id = some (newJobId env w)
              ∧ j.status = some "processing"
              ∧ j.progress = some 0
              ∧ j.totalRecords = some 0
              ∧ j.processedRecords = some 0
              ∧ j.errors = some [])
          ∧ (handler env fuel req w).2
              = (processBulkUpdate env fuel (newJobId env w) sid fname body.value
                  (createJob env sid fname body w).2).map
                (catchHandler env (newJobId env w))) := by
  refine ⟨?_, ?_, ?_⟩
  · intro hbody
    rw [handler_post_no_body env fuel req w hpost hbody]
    exact ⟨rfl, rfl⟩
  · intro body hbody hbad
    apply handler_post_invalid env fuel req body w hpost hbody
    rcases hbad with ⟨h1, h2⟩ | ⟨h1, h2⟩ | h | h
    · exact Or.inl (truthy_orElse_absent _ _ h1 h2)
    · exact Or.inr (Or.inl (truthy_orElse_absent _ _ h1 h2))
    · refine Or.inr (Or.inr (Or.inl ?_))
      rcases h with h | h <;> rw [h] <;> rfl
    · refine Or.inr (Or.inr (Or.inr ?_))
      rcases h with h | h <;> rw [h] <;> rfl
  · intro body appId apiKey sid fname hbody happ hane hkey hkne hs hsne hf hfne
    have happ2 : truthy (orElse req.appIdHeader env.envAppId) = true := by
      rcases happ with h | ⟨h1, h2⟩
      · rw [orElse_first _ _ appId h hane]; exact truthy_some appId hane
      · rw [orElse_second _ _ appId h1 h2]; exact truthy_some appId hane
    have hkey2 : truthy (orElse req.apiKeyHeader env.envApiKey) = true := by
      rcases hkey with h | ⟨h1, h2⟩
      · rw [orElse_first _ _ apiKey h hkne]; exact truthy_some apiKey hkne
      · rw [orElse_second _ _ apiKey h1 h2]; exact truthy_some apiKey hkne
    rw [handler_post_valid env fuel req body w sid fname hpost hbody happ2 hkey2 hs hsne hf hfne]
    refine ⟨rfl, ⟨_, rfl, rfl, rfl⟩, ⟨_, createJob_get env sid fname body w,
      createJob_events env sid fname body w, rfl, rfl, rfl, rfl, rfl, rfl⟩, rfl⟩

/-- Four requests: credentials in the headers and a complete body (200);
credentials in the environment only (200); a body without `schoolId` (400); no
credentials anywhere (400). -/
theorem C17_submission_validated_witness :
    ((handler (sampleEnv [] allOk) 1 sampleRequest emptyWorld).1.status = 200
      ∧ ∃ b, (handler (sampleEnv [] allOk) 1 sampleRequest emptyWorld).1.body = some b
          ∧ b.success = some true
          ∧ b.jobId = some "job_1700000000000_k3x9q2m1z")
    ∧ (handler credentialEnv 1 (bareRequest sampleBody) emptyWorld).1.status = 200
    ∧ ((handler (sampleEnv [] allOk) 1
          { sampleRequest with body := some { sampleBody with schoolId := none } }
          emptyWorld).1.status = 400
        ∧ (handler (sampleEnv [] allOk) 1
          { sampleRequest with body := some { sampleBody with schoolId := none } }
          emptyWorld).2 = some emptyWorld)
    ∧ (handler (sampleEnv [] allOk) 1 (bareRequest sampleBody) emptyWorld).1.status = 400 := by
  refine ⟨?_, ?_, ?_, ?_⟩
  · obtain ⟨hst, ⟨b, hb, hsucc, hid⟩, _, _⟩ :=
      (C17_submission_validated (sampleEnv [] allOk) 1 sampleRequest emptyWorld rfl).2.2
        sampleBody "app-id" "api-key" "school_7" "field_289" rfl (Or.inl rfl) (by decide)
        (Or.inl rfl) (by decide) rfl (by decide) rfl (by decide)
    refine ⟨hst, b, hb, hsucc, ?_⟩
    rw [hid]
    decide
  · exact ((C17_submission_validated credentialEnv 1 (bareRequest sampleBody) emptyWorld
      rfl).2.2 sampleBody "app-id" "api-key" "school_7" "field_289" rfl
        (Or.inr ⟨Or.inl rfl, rfl⟩) (by decide) (Or.inr ⟨Or.inl rfl, rfl⟩) (by decide)
        rfl (by decide) rfl (by decide)).1
  · exact (C17_submission_validated (sampleEnv [] allOk) 1
      { sampleRequest with body := some { sampleBody with schoolId := none } } emptyWorld
      rfl).2.1 _ rfl (Or.inr (Or.inr (Or.inl (Or.inl rfl))))
  · exact ((C17_submission_validated (sampleEnv [] allOk) 1 (bareRequest sampleBody)
      emptyWorld rfl).2.1 sampleBody rfl (Or.inl ⟨Or.inl rfl, Or.inl rfl⟩)).1

end submission

section estimate

theorem log2Fuel_spec : ∀ (fuel n : Nat), 1 ≤ n → n < 2 ^ fuel →
    2 ^ log2Fuel fuel n ≤ n ∧ n < 2 ^ (log2Fuel fuel n + 1)
  | 0, n, h1, h2 => by simp at h2; omega
  | fuel + 1, n, h1, h2 => by
    unfold log2Fuel
    by_cases h : 2 ≤ n
    · simp only [h, if_true]
      have hlt : n / 2 < 2 ^ fuel := by
        rw [Nat.pow_succ] at h2
        omega
      obtain ⟨ih1, ih2⟩ := log2Fuel_spec fuel (n / 2) (by omega) hlt
      rw [Nat.pow_succ, Nat.pow_succ]
      rw [Nat.pow_succ] at ih2
      constructor <;> omega
    · simp only [h, if_false]
      constructor <;> simp <;> omega

theorem floorLog2_spec (n : Nat) (h : 1 ≤ n) :
    2 ^ floorLog2 n ≤ n ∧ n < 2 ^ (floorLog2 n + 1) :=
  log2Fuel_spec n n h (Nat.lt_two_pow n)

/-- The significand is normalised: the scaled quotient is at least `2 ^ 52`. -/
theorem binaryScale_normal (a b : Nat) (ha : 0 < a) (hb : 0 < b) (hq : a / b < 2 ^ 53) :
    2 ^ 52 * b ≤ a * 2 ^ binaryScale a b := by
  unfold binaryScale
  by_cases hba : b ≤ a
  · simp only [hba, if_true]
    have hq1 : 1 ≤ a / b := (Nat.one_le_div_iff hb).mpr hba
    obtain ⟨h1, h2⟩ := floorLog2_spec (a / b) hq1
    have hL : floorLog2 (a / b) ≤ 52 := by
      by_contra hcon
      have : 2 ^ 53 ≤ 2 ^ floorLog2 (a / b) := Nat.pow_le_pow_right (by decide) (by omega)
      omega
    have hab : 2 ^ floorLog2 (a / b) * b ≤ a :=
      (Nat.le_div_iff_mul_le hb).mp h1
    have hsplit : 2 ^ 52 = 2 ^ (52 - floorLog2 (a / b)) * 2 ^ floorLog2 (a / b) := by
      rw [← Nat.pow_add]
      congr 1
      omega
    calc 2 ^ 52 * b = 2 ^ (52 - floorLog2 (a / b)) * (2 ^ floorLog2 (a / b) * b) := by
          rw [hsplit]; ring
      _ ≤ 2 ^ (52 - floorLog2 (a / b)) * a := Nat.mul_le_mul_left _ hab
      _ = a * 2 ^ (52 - floorLog2 (a / b)) := Nat.mul_comm _ _
  · simp only [hba, if_false]
    have hq1 : 1 ≤ b / a := (Nat.one_le_div_iff ha).mpr (by omega)
    obtain ⟨h1, h2⟩ := floorLog2_spec (b / a) hq1
    have hlt : b < 2 ^ (floorLog2 (b / a) + 1) * a := (Nat.div_lt_iff_lt_mul ha).mp h2
    split
    · rename_i heq
      rw [Nat.pow_add]
      generalize 2 ^ 52 = K
      have hcomm := Nat.mul_left_comm K a (2 ^ floorLog2 (b / a))
      rw [heq] at hcomm
      exact Nat.le_of_eq hcomm
    · rw [Nat.pow_add, Nat.pow_add]
      rw [Nat.pow_succ] at hlt
      generalize 2 ^ 52 = K
      have hle : b ≤ a * (2 ^ floorLog2 (b / a) * 2 ^ 1) := by
        rw [Nat.pow_one, Nat.mul_comm a]
        exact Nat.le_of_lt hlt
      calc K * b ≤ K * (a * (2 ^ floorLog2 (b / a) * 2 ^ 1)) := Nat.mul_le_mul_left _ hle
        _ = a * (K * 2 ^ floorLog2 (b / a) * 2 ^ 1) := by ring


/-- Rounding to a double moves a quotient by at most `2 ^ -53` of itself. -/
theorem toDouble_rel (a b : Nat) (ha : 0 < a) (hb : 0 < b) (hq : a / b < 2 ^ 53) :
    (1 - 1 / 2 ^ 53) * (a : ℚ) ≤ (toDouble a b).val * b
      ∧ (toDouble a b).val * b ≤ (1 + 1 / 2 ^ 53) * (a : ℚ) := by
  have hnorm := binaryScale_normal a b ha hb hq
  have hnear := roundHalfEven_near (a * 2 ^ binaryScale a b) b hb
  unfold toDouble Double.val
  simp only [Nat.pos_iff_ne_zero.mp ha, if_false]
  generalize roundHalfEven (a * 2 ^ binaryScale a b) b = m at hnear
  have hS : (0 : ℚ) < 2 ^ binaryScale a b := by positivity
  have hSn : ((2 ^ binaryScale a b : ℕ) : ℚ) = (2 : ℚ) ^ binaryScale a b := by push_cast; rfl
  generalize hSd : (2 : ℚ) ^ binaryScale a b = S at hS hSn
  generalize (2 ^ binaryScale a b : ℕ) = Sn at hnorm hnear hSn
  have h1 : (2 : ℚ) * (m * b) ≤ 2 * (a * S) + b := by
    rw [← hSn]; exact_mod_cast hnear.1
  have h2 : (2 : ℚ) * (a * S) ≤ 2 * (m * b) + b := by
    rw [← hSn]; exact_mod_cast hnear.2
  have h3 : (2 : ℚ) ^ 52 * b ≤ a * S := by
    rw [← hSn]; exact_mod_cast hnorm
  constructor
  · rw [div_mul_eq_mul_div, le_div_iff₀ hS]
    have : (1 / 2 ^ 53 : ℚ) * (a * S) ≥ b / 2 := by
      have : (b : ℚ) / 2 = (2 ^ 52 * b) / 2 ^ 53 := by ring
      rw [this, ge_iff_le, div_le_iff₀ (by positivity)]
      linarith
    linarith
  · rw [div_mul_eq_mul_div, div_le_iff₀ hS]
    have : (1 / 2 ^ 53 : ℚ) * (a * S) ≥ b / 2 := by
      have : (b : ℚ) / 2 = (2 ^ 52 * b) / 2 ^ 53 := by ring
      rw [this, ge_iff_le, div_le_iff₀ (by positivity)]
      linarith
    linarith


/-- Three roundings, each within `u` of its operand, move the estimate by less
than one unit of `1 / (1000 * P)`. -/
theorem estimate_chain (e r q ms P R u : ℚ) (hu0 : 0 ≤ u) (hu1 : u ≤ 1 / 8)
    (hq0 : 0 ≤ q) (hms : 0 ≤ ms) (hR : 0 ≤ R)
    (he1 : (1 - u) * ms ≤ e * 1000) (he2 : e * 1000 ≤ (1 + u) * ms)
    (hr1 : (1 - u) * P ≤ r * e) (hr2 : r * e ≤ (1 + u) * P)
    (hq1 : (1 - u) * R ≤ q * r) (hq2 : q * r ≤ (1 + u) * R)
    (hN : R * ms * u ≤ 1 / 8) :
    q * (1000 * P) < R * ms + 1 ∧ R * ms < q * (1000 * P) + 1 := by
  have hone : 0 ≤ 1 - u := by linarith
  have he0 : 0 ≤ e * 1000 := le_trans (mul_nonneg hone hms) he1
  have hqr0 : 0 ≤ q * r := le_trans (mul_nonneg hone hR) hq1
  have hq1000 : 0 ≤ q * 1000 := mul_nonneg hq0 (by norm_num)
  have s4 : u * (R * ms * u) ≤ u * (1 / 8) := mul_le_mul_of_nonneg_left hN hu0
  have ht0 : 0 ≤ R * ms * u := mul_nonneg (mul_nonneg hR hms) hu0
  have hut0 : 0 ≤ u * (R * ms * u) := mul_nonneg hu0 ht0
  constructor
  · by_contra hcon
    have hX : R * ms + 1 ≤ q * (1000 * P) := not_lt.mp hcon
    have s1 : q * 1000 * ((1 - u) * P) ≤ q * 1000 * (r * e) :=
      mul_le_mul_of_nonneg_left hr1 hq1000
    have s2 : (q * r) * (e * 1000) ≤ ((1 + u) * R) * ((1 + u) * ms) :=
      mul_le_mul hq2 he2 he0 (mul_nonneg (by linarith) hR)
    have s3 : (1 - u) * (R * ms + 1) ≤ (1 - u) * (q * (1000 * P)) :=
      mul_le_mul_of_nonneg_left hX hone
    nlinarith [s1, s2, s3, s4, ht0, hut0]
  · by_contra hcon
    have hX : q * (1000 * P) + 1 ≤ R * ms := not_lt.mp hcon
    have s1 : q * 1000 * (r * e) ≤ q * 1000 * ((1 + u) * P) :=
      mul_le_mul_of_nonneg_left hr2 hq1000
    have s2 : ((1 - u) * R) * ((1 - u) * ms) ≤ (q * r) * (e * 1000) :=
      mul_le_mul hq1 he1 (mul_nonneg hone hms) hqr0
    have s3 : (1 + u) * (q * (1000 * P) + 1) ≤ (1 + u) * (R * ms) :=
      mul_le_mul_of_nonneg_left hX (by linarith)
    nlinarith [s1, s2, s3, s4, ht0, hut0]


/-- Ceilings of two quotients that differ by less than one unit of `1 / D`. -/
theorem ceil_compare (m S N D : Nat) (hS : 0 < S) (hD : 0 < D)
    (h1 : m * D < N * S + S) (h2 : N * S < m * D + S) :
    (m + (S - 1)) / S = (N + (D - 1)) / D
      ∨ (D ∣ N ∧ (m + (S - 1)) / S = (N + (D - 1)) / D + 1) := by
  by_cases hdvd : D ∣ N
  · obtain ⟨k, rfl⟩ := hdvd
    have hc : (D * k + (D - 1)) / D = k :=
      Nat.div_eq_of_lt_le (by rw [Nat.mul_comm]; omega)
        (by rw [Nat.succ_mul, Nat.mul_comm]; omega)
    rw [hc]
    have hm_hi : m < (k + 1) * S := by
      apply Nat.lt_of_mul_lt_mul_right (a := D)
      calc m * D < D * k * S + S := h1
        _ ≤ D * k * S + S * D := Nat.add_le_add_left (Nat.le_mul_of_pos_right S hD) _
        _ = (k + 1) * S * D := by ring
    have hm_lo : k * S < m + S := by
      apply Nat.lt_of_mul_lt_mul_right (a := D)
      calc k * S * D = D * k * S := by ring
        _ < m * D + S := h2
        _ ≤ m * D + S * D := Nat.add_le_add_left (Nat.le_mul_of_pos_right S hD) _
        _ = (m + S) * D := by ring
    rw [Nat.add_mul, Nat.one_mul] at hm_hi
    by_cases hle : m ≤ k * S
    · left
      exact Nat.div_eq_of_lt_le (by omega) (by rw [Nat.succ_mul]; omega)
    · right
      refine ⟨Dvd.intro k rfl, ?_⟩
      exact Nat.div_eq_of_lt_le (by rw [Nat.add_mul, Nat.one_mul]; omega)
        (by rw [Nat.succ_mul, Nat.add_mul, Nat.one_mul]; omega)
  · left
    have hlo : (N + (D - 1)) / D * D ≤ N + (D - 1) := Nat.div_mul_le_self _ _
    have hhi : N + (D - 1) < ((N + (D - 1)) / D + 1) * D := by
      have := Nat.lt_div_mul_add (a := N + (D - 1)) hD
      rw [Nat.add_mul, Nat.one_mul]
      exact this
    generalize (N + (D - 1)) / D = c at hlo hhi
    have hne : N ≠ c * D := fun e => hdvd ⟨c, by rw [e, Nat.mul_comm]⟩
    rw [Nat.add_mul, Nat.one_mul] at hhi
    have hN1 : N + 1 ≤ c * D := by omega
    cases c with
    | zero => omega
    | succ c =>
      rw [Nat.add_mul, Nat.one_mul] at hlo hN1
      have hm_hi : m < (c + 1) * S := by
        apply Nat.lt_of_mul_lt_mul_right (a := D)
        calc m * D < N * S + S := h1
          _ = (N + 1) * S := by ring
          _ ≤ (c * D + D) * S := Nat.mul_le_mul_right _ hN1
          _ = (c + 1) * S * D := by ring
      have hm_lo : c * S < m := by
        apply Nat.lt_of_mul_lt_mul_right (a := D)
        have hcD : c * D + 1 ≤ N := by omega
        have : (c * D + 1) * S ≤ N * S := Nat.mul_le_mul_right _ hcD
        have e1 : (c * D + 1) * S = c * S * D + S := by ring
        omega
      rw [Nat.add_mul, Nat.one_mul] at hm_hi
      exact Nat.div_eq_of_lt_le (by rw [Nat.add_mul, Nat.one_mul]; omega)
        (by rw [Nat.succ_mul, Nat.add_mul, Nat.one_mul]; omega)


theorem toDouble_mant_pos (a b : Nat) (ha : 0 < a) (hb : 0 < b) (hq : a / b < 2 ^ 53) :
    0 < (toDouble a b).mant := by
  have h := (toDouble_rel a b ha hb hq).1
  by_contra hcon
  have h0 : (toDouble a b).mant = 0 := by omega
  have hv : (toDouble a b).val = 0 := by simp [Double.val, h0]
  rw [hv, zero_mul] at h
  have ha' : (0 : ℚ) < a := by exact_mod_cast ha
  have : (0 : ℚ) < (1 - 1 / 2 ^ 53) * (a : ℚ) := mul_pos (by norm_num) ha'
  linarith

/-- Rounding of a quotient by a double: `p / y` within `2 ^ -53` of itself. -/
theorem natDiv_rel (p : Nat) (y : Double) (hp : 0 < p) (hy : 0 < y.mant)
    (hq : (p : ℚ) < 2 ^ 53 * y.val) :
    (1 - 1 / 2 ^ 53) * (p : ℚ) ≤ (Double.natDiv p y).val * y.val
      ∧ (Double.natDiv p y).val * y.val ≤ (1 + 1 / 2 ^ 53) * (p : ℚ)
      ∧ 0 < (Double.natDiv p y).mant := by
  have hS : (0 : ℚ) < 2 ^ y.scale := by positivity
  have hSn : 0 < 2 ^ y.scale := Nat.pow_pos (by decide)
  have hm : (0 : ℚ) < y.mant := by exact_mod_cast hy
  have hlt : p * 2 ^ y.scale / y.mant < 2 ^ 53 := by
    apply Nat.div_lt_of_lt_mul
    have h : (p : ℚ) * 2 ^ y.scale < y.mant * 2 ^ 53 := by
      unfold Double.val at hq
      rw [← mul_div_assoc, lt_div_iff₀ hS] at hq
      linarith
    exact_mod_cast h
  have hrel := toDouble_rel (p * 2 ^ y.scale) y.mant (Nat.mul_pos hp hSn) hy hlt
  have hpos := toDouble_mant_pos (p * 2 ^ y.scale) y.mant (Nat.mul_pos hp hSn) hy hlt
  unfold Double.natDiv
  generalize toDouble (p * 2 ^ y.scale) y.mant = x at hrel hpos
  refine ⟨?_, ?_, hpos⟩
  · have h := hrel.1
    push_cast at h
    unfold Double.val at h ⊢
    rw [← mul_div_assoc, le_div_iff₀ hS]
    linarith
  · have h := hrel.2
    push_cast at h
    unfold Double.val at h ⊢
    rw [← mul_div_assoc, div_le_iff₀ hS]
    linarith


/-- The double-precision estimate is the exact ceiling, or one more when the
exact quotient is an integer. -/
theorem estimate_near_exact (T P ms : Nat) (hP : 0 < P) (hP2 : P < 2 ^ 42)
    (hms : 0 < ms) (hN : (T - P) * ms < 2 ^ 50) :
    mathCeil (Double.natDiv (T - P) (Double.natDiv P (Double.div ms 1000)))
        = exactSeconds T P ms
      ∨ (1000 * P ∣ (T - P) * ms
          ∧ mathCeil (Double.natDiv (T - P) (Double.natDiv P (Double.div ms 1000)))
            = exactSeconds T P ms + 1) := by
  generalize hR : T - P = R at hN
  unfold exactSeconds
  rw [hR]
  have hD : 0 < 1000 * P := by omega
  by_cases hR0 : R = 0
  · left
    subst hR0
    have h1 : (0 * ms + (1000 * P - 1)) / (1000 * P) = 0 :=
      Nat.div_eq_of_lt (by omega)
    rw [h1]
    simp [mathCeil, Double.natDiv, toDouble]
  · have hRpos : 0 < R := Nat.pos_of_ne_zero hR0
    have hms2 : ms < 2 ^ 50 := by
      calc ms = 1 * ms := (Nat.one_mul ms).symm
        _ ≤ R * ms := Nat.mul_le_mul_right _ hRpos
        _ < 2 ^ 50 := hN
    -- the elapsed seconds
    have hq1 : ms / 1000 < 2 ^ 53 := by
      have : ms / 1000 ≤ ms := Nat.div_le_self _ _
      have : (2 : Nat) ^ 50 ≤ 2 ^ 53 := by decide
      omega
    have he := toDouble_rel ms 1000 hms (by decide) hq1
    have hem := toDouble_mant_pos ms 1000 hms (by decide) hq1
    unfold Double.div
    generalize toDouble ms 1000 = e at he hem
    have hmsQ : (1 : ℚ) ≤ ms := by exact_mod_cast hms
    have hPQ : (1 : ℚ) ≤ P := by exact_mod_cast hP
    have hP2Q : (P : ℚ) < 2 ^ 42 := by exact_mod_cast hP2
    have hRQ : (1 : ℚ) ≤ R := by exact_mod_cast hRpos
    have hNQ : (R : ℚ) * ms < 2 ^ 50 := by exact_mod_cast hN
    have he1 : (1 - 1 / 2 ^ 53) * (ms : ℚ) ≤ e.val * 1000 := by
      have := he.1; push_cast at this; exact this
    have he2 : e.val * 1000 ≤ (1 + 1 / 2 ^ 53) * (ms : ℚ) := by
      have := he.2; push_cast at this; exact this
    -- the rate
    have hr := natDiv_rel P e hP hem (by
      have : (1 - 1 / 2 ^ 53) * (1 : ℚ) ≤ e.val * 1000 :=
        le_trans (mul_le_mul_of_nonneg_left hmsQ (by norm_num)) he1
      linarith)
    generalize Double.natDiv P e = r at hr
    obtain ⟨hr1, hr2, hrm⟩ := hr
    have hrv : 0 < r.val := by
      unfold Double.val
      have : (0 : ℚ) < r.mant := by exact_mod_cast hrm
      positivity
    have hev : 0 < e.val := by
      unfold Double.val
      have : (0 : ℚ) < e.mant := by exact_mod_cast hem
      positivity
    -- the quotient
    have hq := natDiv_rel R r hRpos hrm (by
      by_contra hcon
      have hle : 2 ^ 53 * r.val ≤ (R : ℚ) := not_lt.mp hcon
      have a1 : 2 ^ 53 * r.val * (e.val * 1000) ≤ (R : ℚ) * (e.val * 1000) :=
        mul_le_mul_of_nonneg_right hle (by positivity)
      have a2 : (R : ℚ) * (e.val * 1000) ≤ R * ((1 + 1 / 2 ^ 53) * (ms : ℚ)) :=
        mul_le_mul_of_nonneg_left he2 (by linarith)
      have a3 : (1 - 1 / 2 ^ 53) * (1 : ℚ) ≤ r.val * e.val :=
        le_trans (mul_le_mul_of_nonneg_left hPQ (by norm_num)) hr1
      nlinarith [a1, a2, a3, hNQ])
    generalize Double.natDiv R r = q at hq
    obtain ⟨hq1', hq2', hqm⟩ := hq
    have hqv : 0 ≤ q.val := by
      unfold Double.val
      positivity
    have hchain := estimate_chain e.val r.val q.val ms P R (1 / 2 ^ 53) (by norm_num)
      (by norm_num) hqv (by linarith) (by linarith) he1 he2 hr1 hr2 hq1' hq2' (by
        have : (R : ℚ) * ms * (1 / 2 ^ 53) = (R * ms) / 2 ^ 53 := by ring
        rw [this, div_le_iff₀ (by positivity)]
        norm_num
        linarith)
    have hS3 : (0 : ℚ) < 2 ^ q.scale := by positivity
    have c1 : q.mant * (1000 * P) < R * ms * 2 ^ q.scale + 2 ^ q.scale := by
      have h := hchain.1
      unfold Double.val at h
      rw [div_mul_eq_mul_div, div_lt_iff₀ hS3] at h
      have h' : (q.mant : ℚ) * (1000 * P) < R * ms * 2 ^ q.scale + 2 ^ q.scale := by linarith
      exact_mod_cast h'
    have c2 : R * ms * 2 ^ q.scale < q.mant * (1000 * P) + 2 ^ q.scale := by
      have h := hchain.2
      unfold Double.val at h
      rw [div_mul_eq_mul_div, ← sub_lt_iff_lt_add, lt_div_iff₀ hS3] at h
      have h' : (R : ℚ) * ms * 2 ^ q.scale < q.mant * (1000 * P) + 2 ^ q.scale := by linarith
      exact_mod_cast h'
    exact ceil_compare q.mant (2 ^ q.scale) (R * ms) (1000 * P) (Nat.pow_pos (by decide)) hD
      c1 c2

theorem roundHalfEven_exact (q b : Nat) (hb : 0 < b) : roundHalfEven (b * q) b = q := by
  unfold roundHalfEven
  simp [Nat.mul_div_cancel_left q hb, hb]

/-- The double quotient of an integer below `2 ^ 53` by a positive integer has
the floor of the exact quotient. -/
theorem mathFloor_div (s d : Nat) (hd : 0 < d) (hs : s < 2 ^ 53) :
    mathFloor (Double.div s d) = s / d := by
  unfold Double.div
  by_cases hs0 : s = 0
  · subst hs0
    simp [mathFloor, toDouble]
  have hspos : 0 < s := Nat.pos_of_ne_zero hs0
  have hq : s / d < 2 ^ 53 := lt_of_le_of_lt (Nat.div_le_self _ _) hs
  have hdm := Nat.div_add_mod s d
  by_cases hrem : s % d = 0
  · have hsd : s = d * (s / d) := by omega
    unfold toDouble mathFloor
    simp only [hs0, if_false]
    have : s * 2 ^ binaryScale s d = d * (s / d * 2 ^ binaryScale s d) := by
      rw [← Nat.mul_assoc, ← hsd]
    rw [this, roundHalfEven_exact _ _ hd]
    exact Nat.mul_div_cancel _ (Nat.pow_pos (by decide))
  · have hrel := toDouble_rel s d hspos hd hq
    have hmod := Nat.mod_lt s hd
    unfold mathFloor
    generalize toDouble s d = x at hrel
    have hS : (0 : ℚ) < 2 ^ x.scale := by positivity
    have hsQ : (s : ℚ) < 2 ^ 53 := by exact_mod_cast hs
    have hdQ : (0 : ℚ) < d := by exact_mod_cast hd
    have hsplit : (s : ℚ) = d * (s / d : ℕ) + (s % d : ℕ) := by exact_mod_cast hdm.symm
    have hr1 : (1 : ℚ) ≤ (s % d : ℕ) := by
      have : 1 ≤ s % d := Nat.pos_of_ne_zero hrem
      exact_mod_cast this
    have hr2 : ((s % d : ℕ) : ℚ) + 1 ≤ d := by
      have : s % d + 1 ≤ d := hmod
      exact_mod_cast this
    have hus : (1 / 2 ^ 53 : ℚ) * s < 1 := by
      rw [div_mul_eq_mul_div, one_mul, div_lt_one (by positivity)]
      exact hsQ
    obtain ⟨h1, h2⟩ := hrel
    unfold Double.val at h1 h2
    rw [div_mul_eq_mul_div, le_div_iff₀ hS] at h1
    rw [div_mul_eq_mul_div, div_le_iff₀ hS] at h2
    apply Nat.div_eq_of_lt_le
    · have h : ((s / d : ℕ) : ℚ) * 2 ^ x.scale ≤ x.mant := by
        have e1 : (d : ℚ) * ((s / d : ℕ) * 2 ^ x.scale) ≤ d * x.mant := by
          have : (d : ℚ) * (s / d : ℕ) * 2 ^ x.scale ≤ (1 - 1 / 2 ^ 53) * s * 2 ^ x.scale :=
            mul_le_mul_of_nonneg_right (by linarith) (le_of_lt hS)
          linarith
        exact le_of_mul_le_mul_left e1 hdQ
      exact_mod_cast h
    · have h : (x.mant : ℚ) < ((s / d : ℕ) + 1) * 2 ^ x.scale := by
        have e1 : (d : ℚ) * x.mant < d * (((s / d : ℕ) + 1) * 2 ^ x.scale) := by
          have : (1 + 1 / 2 ^ 53) * (s : ℚ) * 2 ^ x.scale
              < (d * ((s / d : ℕ) + 1)) * 2 ^ x.scale :=
            mul_lt_mul_of_pos_right (by linarith) hS
          linarith
        exact lt_of_mul_lt_mul_left e1 (le_of_lt hdQ)
      have h' : (x.mant : ℚ) < (((s / d + 1 : ℕ) : ℚ)) * ((2 ^ x.scale : ℕ) : ℚ) := by
        push_cast; exact h
      exact_mod_cast h'

end estimate

section status

variable (env : Env)

theorem withEstimate_world (jobData : JobView) (w : World) :
    (withEstimate env jobData w).2 = w
      ∨ (withEstimate env jobData w).2 = { w with clock := w.clock + 1 } := by
  unfold withEstimate
  cases jobData.job.totalRecords with
  | none => exact Or.inl rfl
  | some total =>
    simp only []
    split
    · right
      cases jobData.job.processedRecords with
      | none => rfl
      | some processed =>
        simp only []
        cases progressRate processed jobData.job.startTime (readClock env w).1 <;> rfl
    · exact Or.inl rfl

theorem withEstimate_job (jobData : JobView) (w : World) :
    (withEstimate env jobData w).1.job = jobData.job := by
  unfold withEstimate
  cases jobData.job.totalRecords with
  | none => rfl
  | some total =>
    simp only []
    split
    · cases jobData.job.processedRecords with
      | none => rfl
      | some processed =>
        simp only []
        cases progressRate processed jobData.job.startTime (readClock env w).1 <;> rfl
    · rfl

theorem statusHandler_found (req : StatusRequest) (jobs : StatusJobs) (w : World)
    (jobId : String) (jobData : JobView) (hkv : env.kv = false)
    (hget : req.method = "GET") (hid : req.jobId = some jobId) (hne : jobId ≠ "")
    (hfound : jobs.get jobId = some jobData) :
    (statusHandler env req jobs w).1
      = { status := 200, headers := statusCorsHeaders,
          body := some (StatusBody.job (withEstimate env jobData w).1) } := by
  have h1 : ¬ "GET" = "OPTIONS" := by decide
  unfold statusHandler
  simp only [h1, hget, if_false, ne_eq, not_true_eq_false, hid, hne, hkv, Bool.false_eq_true,
    hfound]

theorem statusHandler_not_found (req : StatusRequest) (jobs : StatusJobs) (w : World)
    (jobId : String)
    (hget : req.method = "GET") (hid : req.jobId = some jobId) (hne : jobId ≠ "")
    (hkv : env.kv = true → w.kvData.get jobId = none)
    (hmem : env.kv = false → jobs.get jobId = none) :
    statusHandler env req jobs w
      = ({ status := 404, headers := statusCorsHeaders,
           body := some (StatusBody.error "Job not found") }, jobs, w) := by
  have h1 : ¬ "GET" = "OPTIONS" := by decide
  unfold statusHandler
  simp only [h1, hget, if_false, ne_eq, not_true_eq_false, hid, hne]
  cases h : env.kv with
  | true => simp only [if_true, hkv h]
  | false => simp only [Bool.false_eq_true, if_false, hmem h]

/-- With the durable store, a request for a stored job is answered 500: the
entry found is an object, and `JSON.parse` throws on it. -/
theorem statusHandler_stored_durable (req : StatusRequest) (jobs : StatusJobs) (w : World)
    (jobId : String) (job : Job) (hkv : env.kv = true)
    (hget : req.method = "GET") (hid : req.jobId = some jobId) (hne : jobId ≠ "")
    (hjob : w.kvData.get jobId = some job) :
    statusHandler env req jobs w
      = ({ status := 500, headers := statusCorsHeaders,
           body := some (StatusBody.failure "Internal server error" env.parseError) },
         jobs, w) := by
  have h1 : ¬ "GET" = "OPTIONS" := by decide
  unfold statusHandler
  simp only [h1, hget, if_false, ne_eq, not_true_eq_false, hid, hne, hkv, if_true, hjob]

theorem statusHandler_world (req : StatusRequest) (jobs : StatusJobs) (w : World) :
    (statusHandler env req jobs w).2.2 = w
      ∨ (statusHandler env req jobs w).2.2 = { w with clock := w.clock + 1 } := by
  unfold statusHandler
  split
  · exact Or.inl rfl
  · split
    · exact Or.inl rfl
    · cases req.jobId with
      | none => exact Or.inl rfl
      | some jobId =>
        simp only []
        split
        · exact Or.inl rfl
        · split
          · cases w.kvData.get jobId with
            | none => exact Or.inl rfl
            | some data => exact Or.inl rfl
          · cases jobs.get jobId with
            | none => exact Or.inl rfl
            | some jobData => exact withEstimate_world env _ w

theorem statusHandler_jobs_kv (req : StatusRequest) (jobs : StatusJobs) (w : World)
    (hkv : env.kv = true) :
    (statusHandler env req jobs w).2.1 = jobs := by
  unfold statusHandler
  split
  · rfl
  · split
    · rfl
    · cases req.jobId with
      | none => rfl
      | some jobId =>
        simp only [hkv, if_true]
        split
        · rfl
        · cases w.kvData.get jobId <;> rfl

theorem statusHandler_noJobs (req : StatusRequest) (w : World) :
    (statusHandler env req noJobs w).2.1 = noJobs := by
  unfold statusHandler
  split
  · rfl
  · split
    · rfl
    · cases req.jobId with
      | none => rfl
      | some jobId =>
        simp only []
        split
        · rfl
        · split
          · cases w.kvData.get jobId <;> rfl
          · rfl

/-- The module's map being empty, no response of the status handler carries a
job: not with the durable store, where a stored job is answered 500, and not
with the in-memory fallback, where none is found. -/
theorem statusHandler_never_returns_job (req : StatusRequest) (w : World) (view : JobView) :
    (statusHandler env req noJobs w).1.body ≠ some (StatusBody.job view) := by
  unfold statusHandler
  split
  · simp
  · split
    · simp
    · cases req.jobId with
      | none => simp
      | some jobId =>
        simp only []
        split
        · simp
        · split
          · cases w.kvData.get jobId <;> simp
          · simp [noJobs, StatusJobs.get]

/-- In its in-memory mode the status handler writes the estimate into the
object it took from the map of its module: the map holds the object. -/
theorem statusHandler_assigns_in_place :
    (statusHandler (sampleEnv [] allOk) (statusRequest "job_1")
        { entries := [("job_1", { job := runningJob 50 25 1699999990000 })] } emptyWorld).2.1
      = { entries := [("job_1", { job := runningJob 50 25 1699999990000,
                                  estimatedTimeRemaining := some "10 seconds" })] } := by
  decide

theorem formatTime_nat (s : Nat) (hs : s < 2 ^ 53) :
    formatTime (s : Int)
      = if s < 60 then toString s ++ " seconds"
        else if s < 3600 then toString (s / 60) ++ "m " ++ toString (s % 60) ++ "s"
        else toString (s / 3600) ++ "h " ++ toString (s % 3600 / 60) ++ "m" := by
  have hcast : ∀ n : Nat, toString ((n : Nat) : Int) = toString n := fun _ => rfl
  have hmod : s % 3600 < 2 ^ 53 := lt_of_le_of_lt (Nat.mod_le _ _) hs
  unfold formatTime
  by_cases h1 : s < 60
  · have : (s : Int) < 60 := by exact_mod_cast h1
    simp only [this, h1, if_true, hcast]
  · by_cases h2 : s < 3600
    · have a : ¬ (s : Int) < 60 := by exact_mod_cast h1
      have b : (s : Int) < 3600 := by exact_mod_cast h2
      simp only [a, b, h1, h2, if_true, if_false, Int.toNat_ofNat,
        mathFloor_div s 60 (by decide) hs]
    · have a : ¬ (s : Int) < 60 := by exact_mod_cast h1
      have b : ¬ (s : Int) < 3600 := by exact_mod_cast h2
      simp only [a, b, h1, h2, if_false, Int.toNat_ofNat,
        mathFloor_div s 3600 (by decide) hs, mathFloor_div (s % 3600) 60 (by decide) hmod]

/-- Claim C15, counterexample: For `s = 288230376151717184`, an integer that
is a double, `formatTime(s)` is `80063993375477h 59m`, whereas
`floor(s / 3600) = 80063993375476`: the double quotient `s / 3600` is rounded up
to the next integer. -/
theorem C15_formatTime_large_seconds :
    formatTime 288230376151717184 = "80063993375477h 59m"
      ∧ 288230376151717184 / 3600 = 80063993375476
      ∧ 288230376151717184 % 3600 / 60 = 59
      ∧ 288230376151717184 = 4503599627370581 * 2 ^ 6 := by
  decide

/-- Claim C15, as amended: For every natural number `s` below `2 ^ 53`,
`formatTime(s)` is `s seconds` when `s < 60`; `Xm Ys` with `X = floor(s/60)` and
`Y = s mod 60` when `60 ≤ s < 3600`, so that `60 * X + Y = s` and `Y < 60`; and
`Xh Ym` with `X = floor(s/3600)` and `Y = floor((s mod 3600)/60)` when
`3600 ≤ s`, so that `Y < 60` and `3600 * X + 60 * Y ≤ s < 3600 * X + 60 * Y + 60`. -/
theorem C15_formatTime_cases (s : Nat) (hs : s < 2 ^ 53) :
    (s < 60 → formatTime (s : Int) = toString s ++ " seconds")
    ∧ (60 ≤ s → s < 3600 →
        formatTime (s : Int) = toString (s / 60) ++ "m " ++ toString (s % 60) ++ "s"
        ∧ 60 * (s / 60) + s % 60 = s
        ∧ s % 60 < 60)
    ∧ (3600 ≤ s →
        formatTime (s : Int)
          = toString (s / 3600) ++ "h " ++ toString (s % 3600 / 60) ++ "m"
        ∧ s % 3600 / 60 < 60
        ∧ 3600 * (s / 3600) + 60 * (s % 3600 / 60) ≤ s
        ∧ s < 3600 * (s / 3600) + 60 * (s % 3600 / 60) + 60) := by
  refine ⟨?_, ?_, ?_⟩
  · intro h
    rw [formatTime_nat s hs, if_pos h]
  · intro h1 h2
    refine ⟨?_, by omega, by omega⟩
    rw [formatTime_nat s hs, if_neg (by omega), if_pos h2]
  · intro h
    refine ⟨?_, by omega, by omega, by omega⟩
    rw [formatTime_nat s hs, if_neg (by omega), if_neg (by omega)]

/-- The three shapes of `formatTime`: 45 seconds, 2 minutes 5 seconds, and
1 hour 2 minutes (and 5 seconds, which are dropped). -/
theorem C15_formatTime_cases_witness :
    formatTime 45 = "45 seconds" ∧ formatTime 125 = "2m 5s" ∧ formatTime 3725 = "1h 2m" :=
  ⟨(C15_formatTime_cases 45 (by decide)).1 (by decide),
   ((C15_formatTime_cases 125 (by decide)).2.1 (by decide) (by decide)).1,
   ((C15_formatTime_cases 3725 (by decide)).2.2 (by decide)).1⟩

/-- Claim C16: A GET status request for a job id under which the handler finds
no entry (none in the durable store when it is configured, none in the map of
the module otherwise) is answered 404 with the error `Job not found`, the map
and the world being left as they were; in particular the answer is not a 200
carrying a default or empty job. -/
theorem C16_unknown_job_not_found (req : StatusRequest) (jobs : StatusJobs) (w : World)
    (jobId : String)
    (hget : req.method = "GET") (hid : req.jobId = some jobId) (hne : jobId ≠ "")
    (hkv : env.kv = true → w.kvData.get jobId = none)
    (hmem : env.kv = false → jobs.get jobId = none) :
    statusHandler env req jobs w
        = ({ status := 404, headers := statusCorsHeaders,
             body := some (StatusBody.error "Job not found") }, jobs, w)
      ∧ (statusHandler env req jobs w).1.status ≠ 200 := by
  have hres := statusHandler_not_found env req jobs w jobId hget hid hne hkv hmem
  refine ⟨hres, ?_⟩
  rw [hres]
  show (404 : Nat) ≠ 200
  decide

/-- A store that holds `job_1` only answers 404 for `job_2`. -/
theorem C16_unknown_job_not_found_witness :
    statusHandler (kvEnv 1700000029000) (statusRequest "job_2") noJobs
        (kvWorld (runningJob 50 25 1700000000000))
      = ({ status := 404, headers := statusCorsHeaders,
           body := some (StatusBody.error "Job not found") }, noJobs,
         kvWorld (runningJob 50 25 1700000000000)) :=
  (C16_unknown_job_not_found (kvEnv 1700000029000) (statusRequest "job_2") noJobs
    (kvWorld (runningJob 50 25 1700000000000)) "job_2" rfl rfl (by decide)
    (fun _ => by decide) (fun _ => by decide)).1

/-- Claim C13: Handling a status request leaves the job store as it was, for
every request and every content of the store: the durable store and the map
of the bulk-update module are unchanged and nothing is written (only the clock
may have been read), and the map of the status module, which is empty, stays
empty, as does any content of it when the durable store is configured. The
estimate is thus carried by the response only. -/
theorem C13_status_leaves_store (req : StatusRequest) (jobs : StatusJobs) (w : World) :
    (statusHandler env req jobs w).2.2.kvData = w.kvData
      ∧ (statusHandler env req jobs w).2.2.jobs = w.jobs
      ∧ (statusHandler env req jobs w).2.2.store env = w.store env
      ∧ (statusHandler env req jobs w).2.2.events = w.events
      ∧ (statusHandler env req jobs w).2.2.puts = w.puts
      ∧ (statusHandler env req noJobs w).2.1 = noJobs
      ∧ (env.kv = true → (statusHandler env req jobs w).2.1 = jobs) := by
  refine ⟨?_, ?_, ?_, ?_, ?_, statusHandler_noJobs env req w,
    statusHandler_jobs_kv env req jobs w⟩ <;>
  (rcases statusHandler_world env req jobs w with h | h <;> rw [h] <;> try rfl)

/-- A status read of a job under way answers with an estimate and leaves the
durable store holding the job without it. -/
theorem C13_status_leaves_store_witness :
    (statusHandler (kvEnv 1700000029000) (statusRequest "job_1") noJobs
        (kvWorld (runningJob 50 25 1700000000000))).2.2.kvData
      = { entries := [("job_1", runningJob 50 25 1700000000000)] }
    ∧ (statusHandler (kvEnv 1700000029000) (statusRequest "job_1") noJobs
        (kvWorld (runningJob 50 25 1700000000000))).2.1 = noJobs :=
  ⟨(C13_status_leaves_store (kvEnv 1700000029000) (statusRequest "job_1") noJobs
      (kvWorld (runningJob 50 25 1700000000000))).1,
   (C13_status_leaves_store (kvEnv 1700000029000) (statusRequest "job_1") noJobs
      (kvWorld (runningJob 50 25 1700000000000))).2.2.2.2.2.2 rfl⟩

/-- With the in-memory fallback, no job is ever found by the status handler:
the map it reads is the one its module created, which is empty. -/
theorem statusHandler_fallback_never_found (req : StatusRequest) (w : World) (jobId : String)
    (hkv : env.kv = false)
    (hget : req.method = "GET") (hid : req.jobId = some jobId) (hne : jobId ≠ "") :
    statusHandler env req noJobs w
      = ({ status := 404, headers := statusCorsHeaders,
           body := some (StatusBody.error "Job not found") }, noJobs, w) :=
  statusHandler_not_found env req noJobs w jobId hget hid hne
    (fun h => absurd (hkv.symm.trans h) (by decide)) (fun _ => rfl)

/-- Claim C12 fails for the in-process fallback: after the bulk-update handler
has answered 200 with a job id and holds the job under that id in its map, a
status request for the id is answered 404 `Job not found`, because the status
module reads a map of its own. With the durable store the job is stored under
the id as well, and the same request is answered 500, the entry read back
being an object that `JSON.parse` rejects. -/
theorem C12_fallback_job_not_readable :
    (∃ b wf j, (handler (sampleEnv [] allOk) 1 sampleRequest emptyWorld).1.status = 200
        ∧ (handler (sampleEnv [] allOk) 1 sampleRequest emptyWorld).1.body = some b
        ∧ b.jobId = some "job_1700000000000_k3x9q2m1z"
        ∧ (handler (sampleEnv [] allOk) 1 sampleRequest emptyWorld).2 = some wf
        ∧ (wf.store (sampleEnv [] allOk)).get "job_1700000000000_k3x9q2m1z" = some j
        ∧ (statusHandler (sampleEnv [] allOk) (statusRequest "job_1700000000000_k3x9q2m1z")
            noJobs wf).1
          = { status := 404, headers := statusCorsHeaders,
              body := some (StatusBody.error "Job not found") }
        ∧ (statusHandler (sampleEnv [] allOk) (statusRequest "job_1700000000000_k3x9q2m1z")
            noJobs (createJob (sampleEnv [] allOk) "school_7" "field_289" sampleBody
              emptyWorld).2).1
          = { status := 404, headers := statusCorsHeaders,
              body := some (StatusBody.error "Job not found") })
    ∧ (∃ b wf j, (handler (kvEnv 1700000000000) 1 sampleRequest emptyWorld).1.body = some b
        ∧ b.jobId = some "job_1700000000000_k3x9q2m1z"
        ∧ (handler (kvEnv 1700000000000) 1 sampleRequest emptyWorld).2 = some wf
        ∧ (wf.store (kvEnv 1700000000000)).get "job_1700000000000_k3x9q2m1z" = some j
        ∧ (statusHandler (kvEnv 1700000000000)
            (statusRequest "job_1700000000000_k3x9q2m1z") noJobs wf).1
          = { status := 500, headers := statusCorsHeaders,
              body := some (StatusBody.failure "Internal server error"
                (kvEnv 1700000000000).parseError) }) := by
  refine ⟨⟨_, _, _, rfl, rfl, rfl, rfl, rfl, rfl, rfl⟩, ⟨_, _, _, rfl, rfl, rfl, rfl, rfl⟩⟩

theorem withEstimate_present (jobData : JobView) (w : World) (T P start : Nat)
    (hstatus : jobData.job.status = some "processing")
    (htotal : jobData.job.totalRecords = some T)
    (hprocessed : jobData.job.processedRecords = some P)
    (hstart : jobData.job.startTime = some start)
    (hT : 0 < T) (hP : 0 < P) (hlater : start < env.now w.clock) :
    (withEstimate env jobData w).1
      = { job := jobData.job,
          estimatedTimeRemaining := some (formatTime (estimatedSeconds T P
            (some (Double.natDiv P (Double.div (env.now w.clock - start) 1000))))) } := by
  unfold withEstimate
  simp only [htotal, hstatus, hprocessed, hstart, hT, and_self, if_true, progressRate,
    readClock, Nat.pos_iff_ne_zero.mp hP, if_false, Nat.lt_asymm hlater, Nat.ne_of_gt hlater]

theorem withEstimate_absent (jobData : JobView) (w : World)
    (h : jobData.job.status ≠ some "processing" ∨ jobData.job.totalRecords = some 0
      ∨ jobData.job.processedRecords = some 0) :
    (withEstimate env jobData w).1 = jobData := by
  unfold withEstimate
  cases htot : jobData.job.totalRecords with
  | none => rfl
  | some T =>
    simp only []
    split
    · rename_i hc
      cases hproc : jobData.job.processedRecords with
      | none => rfl
      | some P =>
        simp only []
        rcases h with h | h | h
        · exact absurd hc.1 h
        · rw [htot] at h
          have := hc.2
          simp only [Option.some.injEq] at h
          omega
        · rw [hproc] at h
          simp only [Option.some.injEq] at h
          subst h
          cases jobData.job.startTime <;> rfl
    · rfl

/-- The block that computes the estimate, entered with the job data of a job
with 25 of 50 records processed 29 seconds after its start, assigns
`30 seconds`: the double quotient `25 / (25 / 29)` is just above 29, the exact
value. -/
theorem withEstimate_exceeds_exact_ceiling :
    (withEstimate (kvEnv 1700000029000) { job := runningJob 50 25 1700000000000 }
        emptyWorld).1.estimatedTimeRemaining = some "30 seconds"
    ∧ exactSeconds 50 25 (1700000029000 - 1700000000000) = 29 := by
  decide

/-- The estimate that the block computes for a job under way is the exact
ceiling `ceil((T - P) * e / P)`, or one more when the exact quotient is an
integer, for `P ≤ T`, `P < 2 ^ 42` and `(T - P) * elapsedMs < 2 ^ 50`. -/
theorem withEstimate_near_exact (T P ms : Nat) (hP : 0 < P) (hPT : P ≤ T) (hP2 : P < 2 ^ 42)
    (hms : 0 < ms) (hN : (T - P) * ms < 2 ^ 50) :
    estimatedSeconds T P (some (Double.natDiv P (Double.div ms 1000)))
        = (exactSeconds T P ms : Int)
      ∨ (1000 * P ∣ (T - P) * ms
          ∧ estimatedSeconds T P (some (Double.natDiv P (Double.div ms 1000)))
            = (exactSeconds T P ms : Int) + 1) := by
  rcases estimate_near_exact T P ms hP hP2 hms hN with h | ⟨hd, h⟩
  · left
    simp only [estimatedSeconds, hPT, if_true]
    exact_mod_cast h
  · right
    refine ⟨hd, ?_⟩
    simp only [estimatedSeconds, hPT, if_true]
    exact_mod_cast h

/-- Claim C14 fails at every stored job: with the durable store, the status
request for a stored job with 25 of 50 records processed, read 29 seconds after
its start, is answered 500 with the message of the parse error, and carries
neither the job nor an estimate; with the in-memory fallback the same job, held
by the bulk-update module, is answered 404. -/
theorem C14_stored_job_gets_no_estimate :
    (statusHandler (kvEnv 1700000029000) (statusRequest "job_1") noJobs
        (kvWorld (runningJob 50 25 1700000000000))).1
      = { status := 500, headers := statusCorsHeaders,
          body := some (StatusBody.failure "Internal server error"
            (kvEnv 1700000029000).parseError) }
    ∧ (statusHandler (sampleEnv [] allOk) (statusRequest "job_1") noJobs
        { emptyWorld with
            jobs := { entries := [("job_1", runningJob 50 25 1700000000000)] } }).1
      = { status := 404, headers := statusCorsHeaders,
          body := some (StatusBody.error "Job not found") } := by
  decide

end status

section consent

variable (env : ConsentEnv)

theorem consentHandler_checked (req : ConsentRequest) (email : String)
    (responses : ConsentResponses)
    (hpost : req.method = "POST")
    (happ : truthy env.envAppId = true) (hkey : truthy env.envApiKey = true)
    (hemail : req.body.email = JsValue.str email) (hne : email ≠ "")
    (hname : req.body.participantName.truthy = true) (hdate : req.body.date.truthy = true)
    (hresp : req.body.responses = some responses)
    (hsig : req.body.signatureData.truthy = true) :
    consentHandler env req
      = if !endsWith (env.toLowerCase email) "@mmu.ac.uk"
            && !endsWith (env.toLowerCase email) "@stu.mmu.ac.uk" then
          ({ status := 400, headers := consentCorsHeaders,
             body := some
              { error := some "Invalid email",
                details := some "Please use your MMU email address" } }, [])
        else
          submitConsent env email req.body.participantName req.body.date responses
            req.body.signatureData := by
  have h1 : ¬ "POST" = "OPTIONS" := by decide
  have he : (JsValue.str email).truthy = true := by simpa [JsValue.truthy] using hne
  unfold consentHandler
  simp only [hpost, h1, if_false, ne_eq, not_true_eq_false, happ, hkey, hresp, hemail, he, hname,
    hdate, hsig, Bool.not_true, Bool.or_self, Bool.false_eq_true]

/-- Claim C18: A POST consent submission, handled with both server credentials
configured, whose email is a string that after `toLowerCase` ends with neither
`@mmu.ac.uk` nor `@stu.mmu.ac.uk` is answered 400, and no upstream call is
made: no record lookup, no record write and no session request. -/
theorem C18_foreign_email_rejected (req : ConsentRequest) (email : String)
    (hpost : req.method = "POST")
    (happ : truthy env.envAppId = true) (hkey : truthy env.envApiKey = true)
    (hemail : req.body.email = JsValue.str email)
    (h1 : endsWith (env.toLowerCase email) "@mmu.ac.uk" = false)
    (h2 : endsWith (env.toLowerCase email) "@stu.mmu.ac.uk" = false) :
    (consentHandler env req).1.status = 400 ∧ (consentHandler env req).2 = [] := by
  have hp : ¬ "POST" = "OPTIONS" := by decide
  unfold consentHandler
  simp only [hpost, hp, if_false, ne_eq, not_true_eq_false, happ, hkey, Bool.not_true,
    Bool.or_self, Bool.false_eq_true]
  cases hr : req.body.responses with
  | none => exact ⟨rfl, rfl⟩
  | some responses =>
    simp only []
    split
    · exact ⟨rfl, rfl⟩
    · rw [hemail]
      simp only [h1, h2, Bool.not_false, Bool.and_self, if_true]
      exact ⟨trivial, trivial⟩

/-- A complete submission from a `gmail.com` address is answered 400 without
any upstream call. -/
theorem C18_foreign_email_rejected_witness :
    (consentHandler (consentEnv (some [{ id := "rec1" }]))
        (consentRequest "Student@Gmail.com")).1.status = 400
      ∧ (consentHandler (consentEnv (some [{ id := "rec1" }]))
        (consentRequest "Student@Gmail.com")).2 = [] :=
  C18_foreign_email_rejected (consentEnv (some [{ id := "rec1" }]))
    (consentRequest "Student@Gmail.com") "Student@Gmail.com" rfl (by decide) (by decide) rfl
    (by decide) (by decide)

/-- Claim C19: A POST consent submission with credentials configured, all
required fields present and an allowed email domain, whose lookup succeeds but
returns no record, is answered 404; the lookup is the only upstream call, so
that neither the consent write nor the session request is issued. -/
theorem C19_missing_record_not_written (req : ConsentRequest) (email : String)
    (responses : ConsentResponses) (records : Option (List ConsentRecord))
    (hpost : req.method = "POST")
    (happ : truthy env.envAppId = true) (hkey : truthy env.envApiKey = true)
    (hemail : req.body.email = JsValue.str email) (hne : email ≠ "")
    (hname : req.body.participantName.truthy = true) (hdate : req.body.date.truthy = true)
    (hresp : req.body.responses = some responses)
    (hsig : req.body.signatureData.truthy = true)
    (hdomain : endsWith (env.toLowerCase email) "@mmu.ac.uk" = true
      ∨ endsWith (env.toLowerCase email) "@stu.mmu.ac.uk" = true)
    (hlookup : env.lookup email = LookupResponse.ok records)
    (hnone : records = none ∨ records = some []) :
    (consentHandler env req).1
        = { status := 404, headers := consentCorsHeaders,
            body := some
              { error := some "Student record not found",
                details := some
                  "No account found with this email address. Please contact your administrator." } }
      ∧ (consentHandler env req).2 = [ConsentEvent.lookup email] := by
  rw [consentHandler_checked env req email responses hpost happ hkey hemail hne hname hdate
    hresp hsig]
  have hd : (!endsWith (env.toLowerCase email) "@mmu.ac.uk"
      && !endsWith (env.toLowerCase email) "@stu.mmu.ac.uk") = false := by
    rcases hdomain with h | h <;> simp [h]
  rw [hd]
  simp only [Bool.false_eq_true, if_false]
  have hfind : findStudentByEmail env email = Except.ok none := by
    unfold findStudentByEmail
    rw [hlookup]
    rcases hnone with h | h <;> rw [h]
  unfold submitConsent
  rw [hfind]
  exact ⟨rfl, rfl⟩

/-- A complete submission from a student address that the upstream does not
know is answered 404 after the lookup alone. -/
theorem C19_missing_record_not_written_witness :
    (consentHandler (consentEnv (some [])) (consentRequest "A.Student@stu.mmu.ac.uk")).1.status
        = 404
      ∧ (consentHandler (consentEnv (some [])) (consentRequest "A.Student@stu.mmu.ac.uk")).2
        = [ConsentEvent.lookup "A.Student@stu.mmu.ac.uk"] := by
  obtain ⟨h1, h2⟩ := C19_missing_record_not_written (consentEnv (some []))
    (consentRequest "A.Student@stu.mmu.ac.uk") "A.Student@stu.mmu.ac.uk" _ (some [])
    rfl (by decide) (by decide) rfl (by decide) (by decide) (by decide) rfl (by decide)
    (Or.inr (by decide)) rfl (Or.inr rfl)
  exact ⟨by rw [h1], h2⟩

/-- A complete submission for a known record issues the lookup, the write and
the session request, in that order, and is answered 200. -/
theorem consentHandler_success :
    (consentHandler (consentEnv (some [{ id := "rec1" }]))
        (consentRequest "a.student@mmu.ac.uk")).1.status = 200
      ∧ ((consentHandler (consentEnv (some [{ id := "rec1" }]))
        (consentRequest "a.student@mmu.ac.uk")).2.map
          (fun e => match e with
            | ConsentEvent.lookup _ => "lookup"
            | ConsentEvent.write _ _ => "write"
            | ConsentEvent.login _ _ => "login"))
        = ["lookup", "write", "login"] := by
  decide

end consent

end BulkUpdate
